import Mathlib

/-!
Verification of pikamgr: the group operations of the topology manager

A shallow embedding of `topom/group.go`, `topom/sentinel.go`,
`topom/dao/group.go` and the group and sentinel mappers of
`topom/dao/mapper`, followed by the Sentinel client (`Masters`, wire names),
the GSLB projection and the GSLB operations of `topom/gslb.go` with their
mapper, the lifecycle of `topom/service.go`, the template-file mapper, the
store paths of `coordinate/path.go`, the error aggregator of `utils/error`
and the logger of `utils/log`.

Go pointers are modelled by value with write-through: the `*dao.Group` that an
operation obtains from `groupMapper.Info()` is the very object held in the
mapper's map, so every assignment to one of its fields is at once visible in
the cache, whether or not the following store write succeeds.  The embedding
therefore writes each such assignment back into `World.groups` under the key
the group was looked up with.  The same holds for the `*dao.Sentinel`.

Everything outside the process (metadata store, Redis, Sentinel) is an
environment `Env` that fixes the outcome of each external call; each call is
recorded in `World.trace`.
-/

namespace Pikamgr

/-! ## Data model (`topom/dao`) -/

/-- The record `dao.GroupServer`. -/
structure GroupServer where
  addr : String
deriving DecidableEq

/-- The anonymous struct `dao.Group.Promoting`. -/
structure Promoting where
  index : Int
  state : String
deriving DecidableEq

/-- The record `dao.Group`. -/
structure Group where
  name : String
  servers : List GroupServer
  promoting : Promoting
  outOfSync : Bool
  proxyReadPort : Int
  proxyWritePort : Int
  createTime : String
deriving DecidableEq

/-- The record `dao.Sentinel`. -/
structure Sentinel where
  servers : List String
  outOfSync : Bool
deriving DecidableEq

def MAXGroupNameBytesLength : Nat := 32

def ActionNothing : String := ""
def ActionPreparing : String := "preparing"
def ActionPrepared : String := "prepared"
def ActionFinished : String := "finished"

/-- Loop of `Group.GetServerIndex`: the first position, counted from `i`, whose
address is `addr`, or `-1`. -/
def getServerIndexFrom : List GroupServer → String → Nat → Int
  | [], _, _ => -1
  | v :: vs, addr, i => if v.addr = addr then (i : Int) else getServerIndexFrom vs addr (i + 1)

/-- The method `Group.GetServerIndex` of `dao/group.go`. -/
def Group.GetServerIndex (g : Group) (addr : String) : Int :=
  getServerIndexFrom g.servers addr 0

/-- The method `Group.GetMaster` of `dao/group.go`. -/
def Group.GetMaster (g : Group) : String :=
  match g.servers with
  | [] => ""
  | s :: _ => s.addr

/-- The type `dao.Groups`, a Go `map[string]*Group`, as an association list. -/
abbrev Groups := List (String × Group)

/-- Map read `groups[k]`. -/
def Groups.get : Groups → String → Option Group
  | [], _ => none
  | (k', g) :: rest, k => if k' = k then some g else Groups.get rest k

/-- Map write `groups[k] = g`. -/
def Groups.set : Groups → String → Group → Groups
  | [], k, g => [(k, g)]
  | (k', g') :: rest, k, g =>
    if k' = k then (k, g) :: rest else (k', g') :: Groups.set rest k g

/-- Map removal `delete(groups, k)`. -/
def Groups.delete (gs : Groups) (k : String) : Groups :=
  gs.filter (fun kv => kv.1 ≠ k)

/-- Every mapper insertion is `groups[g.Name] = g` (`group_mapper.go` lines 51,
71, 87): each key is the name of its value. -/
def Groups.WF (gs : Groups) : Prop :=
  ∀ kv ∈ gs, kv.2.name = kv.1

instance (gs : Groups) : Decidable (Groups.WF gs) := by
  unfold Groups.WF; infer_instance

/-! ## Errors, events, environment and state -/

/-- One entry of the `MultiError` that `resyncGroup` accumulates. -/
inductive SyncFailure where
  /-- The text "service::resyncGroup doSyncAction failed. groupName:.. addr:..
  master:.." of `group.go` line 349. -/
  | doSyncAction (groupName addr master : String)
  /-- The error of the `groupMapper.Update` of `group.go` line 355. -/
  | storeUpdate (groupName : String)
deriving DecidableEq

/-- The distinct non-nil `error` values the modelled operations return; a Go
`error` is an `Option Err` with `none` for `nil`. -/
inductive Err where
  | invalidGroupName
  | portsEqual
  | groupExists
  | portConflict
  | groupNotFound
  | groupNotEmpty
  | invalidServerAddress
  | serverExists
  | serverNotFound
  | cantRemoveMaster
  | isPromotingIndex (index : Int)
  | cantPromoteMaster
  | invalidActionState
  | masterNotAllowed
  | isPromoting
  | groupStoreFailed (groupName : String)
  | sentinelStoreFailed
  | multi (failures : List SyncFailure)
  | forceFullSyncFailed
  | refreshGSLBFailed
  | masterNotInGroup
  | closedTopom
deriving DecidableEq

/-- What the service does that is visible outside the group and sentinel
caches, in the order it happens. -/
inductive Event where
  /-- The call `s.mutex.Lock()`. -/
  | lock
  /-- The deferred `s.mutex.Unlock()`. -/
  | unlock
  /-- The store write `client.Update(GroupPath(product, g.Name), g.Encode())`. -/
  | storeUpdateGroup (g : Group) (ok : Bool)
  /-- The store call `client.Delete(GroupPath(product, name))`. -/
  | storeDeleteGroup (name : String) (ok : Bool)
  /-- The store write `client.Update(SentinelPath(product), s.Encode())`. -/
  | storeUpdateSentinel (s : Sentinel) (ok : Bool)
  /-- One call `doSyncAction(addr, master)`. -/
  | doSyncAction (addr master : String) (ok : Bool)
  /-- One call `doForceFullSyncAction(addr, master)`. -/
  | doForceFullSyncAction (addr master : String) (ok : Bool)
  /-- The call `sentinelClient.RemoveGroups(sentinels, timeout, {group})`. -/
  | sentinelRemoveGroups (sentinels : List String) (group : String) (ok : Bool)
  /-- One call `refreshGSLBBackendInfo()`. -/
  | refreshGSLBBackendInfo (ok : Bool)
deriving DecidableEq

/-- The environment of one run: `ok n` is the outcome of the external call
issued when the trace holds `n` events, `runId` is `InfoCache.GetRunId`
(the empty string when the server cannot be asked), `now` is the formatted
`time.Now()`. -/
structure Env where
  ok : Nat → Bool
  runId : String → String
  now : String

/-- The part of `service` the group operations read and write: the map of
`groupMapper`, the record of `sentinelMapper`, `ha.masters`, the `closed`
flag, and the trace of events so far. -/
structure World where
  groups : Groups
  sentinel : Sentinel
  haMasters : Option (List (String × String))
  closed : Bool
  trace : List Event
deriving DecidableEq

/-- Append one event to the trace. -/
def World.emit (w : World) (e : Event) : World :=
  { w with trace := w.trace ++ [e] }

/-- Assignment through the pointer held under key `k` of the group map. -/
def World.setGroup (w : World) (k : String) (g : Group) : World :=
  { w with groups := w.groups.set k g }

/-- The pattern `s.mutex.Lock(); defer s.mutex.Unlock()` around a body. -/
def withLock (body : World → Option Err × World) (w : World) : Option Err × World :=
  let r := body (w.emit Event.lock)
  (r.1, r.2.emit Event.unlock)

/-! ## Mappers (`topom/dao/mapper`) -/

/-- The method `groupMapper.Create`: store write, then `m.groups[g.Name] = g`. -/
def groupMapper.Create (env : Env) (g : Group) (w : World) : Option Err × World :=
  let ok := env.ok w.trace.length
  let w1 := w.emit (Event.storeUpdateGroup g ok)
  if ok then (none, w1.setGroup g.name g) else (some (Err.groupStoreFailed g.name), w1)

/-- The method `groupMapper.Update`: store write, then `m.groups[g.Name] = g`. -/
def groupMapper.Update (env : Env) (g : Group) (w : World) : Option Err × World :=
  let ok := env.ok w.trace.length
  let w1 := w.emit (Event.storeUpdateGroup g ok)
  if ok then (none, w1.setGroup g.name g) else (some (Err.groupStoreFailed g.name), w1)

/-- The method `groupMapper.Remove`: store delete, then
`delete(m.groups, g.Name)`. -/
def groupMapper.Remove (env : Env) (g : Group) (w : World) : Option Err × World :=
  let ok := env.ok w.trace.length
  let w1 := w.emit (Event.storeDeleteGroup g.name ok)
  if ok then (none, { w1 with groups := w1.groups.delete g.name })
  else (some (Err.groupStoreFailed g.name), w1)

/-- The method `sentinelMapper.Update`: store write, then `m.sentinel = s`. -/
def sentinelMapper.Update (env : Env) (s : Sentinel) (w : World) : Option Err × World :=
  let ok := env.ok w.trace.length
  let w1 := w.emit (Event.storeUpdateSentinel s ok)
  if ok then (none, { w1 with sentinel := s }) else (some Err.sentinelStoreFailed, w1)

/-! ## External actions (`topom/group.go`, `topom/gslb.go`) -/

/-- The function `doSyncAction`: connect to `addr` and send
`SetMaster(master)`; `true` when it returned `nil`. -/
def doSyncAction (env : Env) (addr master : String) (w : World) : Bool × World :=
  let ok := env.ok w.trace.length
  (ok, w.emit (Event.doSyncAction addr master ok))

/-- The function `doForceFullSyncAction`: connect to `addr` and send
`ForceFullSyncFromMaster(master)`. -/
def doForceFullSyncAction (env : Env) (addr master : String) (w : World) :
    Option Err × World :=
  let ok := env.ok w.trace.length
  (if ok then none else some Err.forceFullSyncFailed,
    w.emit (Event.doForceFullSyncAction addr master ok))

/-- The function `refreshGSLBBackendInfo` of `gslb.go`, seen from the group
operations: it reads the GSLB map, the group map and the Redis stats and
writes GSLB records only, so it leaves groups and sentinel as they are; whether
it returns `nil` is decided by the environment. -/
def refreshGSLBBackendInfo (env : Env) (w : World) : Option Err × World :=
  let ok := env.ok w.trace.length
  (if ok then none else some Err.refreshGSLBFailed,
    w.emit (Event.refreshGSLBBackendInfo ok))

/-- The function `outOfSyncBySentinel` of `sentinel.go`. -/
def outOfSyncBySentinel (env : Env) (w : World) : Option Err × World :=
  if w.sentinel.servers.length ≠ 0 then
    let s := { w.sentinel with outOfSync := true }
    sentinelMapper.Update env s { w with sentinel := s }
  else (none, w)

/-- The call `sentinelClient.RemoveGroups(sentinels, timeout, {group: true})`
of `group.go` line 272; its error is only logged. -/
def sentinelRemoveGroups (env : Env) (sentinels : List String) (group : String)
    (w : World) : World :=
  w.emit (Event.sentinelRemoveGroups sentinels group (env.ok w.trace.length))

/-! ## Group operations (`topom/group.go`) -/

/-- The Go idiom `if err := step; err != nil { return err }` followed by the
rest of the function. -/
def thenDo (r : Option Err × World) (rest : World → Option Err × World) :
    Option Err × World :=
  match r.1 with
  | some e => (some e, r.2)
  | none => rest r.2

/-- The loop of `resyncGroup` (`group.go` lines 342-351) over the servers still
to visit; `master0` is `g.Servers[0].Addr`, `index` the loop index and `errs`
the entries of `multiErr` so far. -/
def resyncLoop (env : Env) (groupName master0 : String) :
    List GroupServer → Nat → List SyncFailure → World → List SyncFailure × World
  | [], _, errs, w => (errs, w)
  | server :: rest, index, errs, w =>
    let master := if index = 0 then "NO:ONE" else master0
    let r := doSyncAction env server.addr master w
    resyncLoop env groupName master0 rest (index + 1)
      (if r.1 then errs else errs ++ [SyncFailure.doSyncAction groupName server.addr master])
      r.2

/-- The function `resyncGroup`; `g` is the group held under key `k` of the
group map.  Returns the error, the group as the pointer now sees it, and the
new state. -/
def resyncGroup (env : Env) (k : String) (g : Group) (w : World) :
    Option Err × Group × World :=
  match g.servers with
  | [] => (none, g, w)
  | s0 :: _ =>
    let r := resyncLoop env g.name s0.addr g.servers 0 [] w
    if r.1 ≠ [] then
      let g1 := { g with outOfSync := true }
      let u := groupMapper.Update env g1 (r.2.setGroup k g1)
      match u.1 with
      | some _ => (some (Err.multi (r.1 ++ [SyncFailure.storeUpdate g.name])), g1, u.2)
      | none => (some (Err.multi r.1), g1, u.2)
    else (none, g, r.2)

/-- The port test of `CreateGroup` (`group.go` lines 38-39) against one
existing group. -/
def portClash (rPort wPort : Int) (g : Group) : Bool :=
  (decide (rPort = g.proxyReadPort) || decide (rPort = g.proxyWritePort)) ||
  (decide (wPort = g.proxyReadPort) || decide (wPort = g.proxyWritePort))

/-- The function `service.CreateGroup`.  `String.length` counts code points as
`utf8.RuneCountInString` does. -/
def CreateGroup (env : Env) (groupName : String) (rPort wPort : Int) (w : World) :
    Option Err × World :=
  if groupName = "" ∨ groupName.length > MAXGroupNameBytesLength then
    (some Err.invalidGroupName, w)
  else if rPort = wPort then (some Err.portsEqual, w)
  else withLock (fun w =>
    if (w.groups.get groupName).isSome then (some Err.groupExists, w)
    else if w.groups.any (fun kv => portClash rPort wPort kv.2) then
      (some Err.portConflict, w)
    else groupMapper.Create env
      { name := groupName, servers := [], promoting := ⟨0, ActionNothing⟩,
        outOfSync := false, proxyReadPort := rPort, proxyWritePort := wPort,
        createTime := env.now } w) w

/-- The function `service.RemoveGroup`. -/
def RemoveGroup (env : Env) (groupName : String) (w : World) : Option Err × World :=
  withLock (fun w =>
    match w.groups.get groupName with
    | none => (some Err.groupNotFound, w)
    | some g =>
      if g.servers.length ≠ 0 then (some Err.groupNotEmpty, w)
      else groupMapper.Remove env g w) w

/-- The function `service.ResyncGroup`. -/
def ResyncGroup (env : Env) (groupName : String) (w : World) : Option Err × World :=
  withLock (fun w =>
    match w.groups.get groupName with
    | none => (some Err.groupNotFound, w)
    | some g =>
      thenDo (groupMapper.Update env { g with outOfSync := false }
          (w.setGroup groupName { g with outOfSync := false })) fun w1 =>
        ((resyncGroup env groupName { g with outOfSync := false } w1).1,
          (resyncGroup env groupName { g with outOfSync := false } w1).2.2)) w

/-- The duplicate test of `AddGroupServer` (`group.go` lines 147-153) over all
groups. -/
def serverExists (gs : Groups) (addr : String) : Bool :=
  gs.any (fun kv => kv.2.servers.any (fun v => decide (v.addr = addr)))

/-- The function `service.AddGroupServer`. -/
def AddGroupServer (env : Env) (groupName addr : String) (w : World) :
    Option Err × World :=
  if addr = "" then (some Err.invalidServerAddress, w)
  else withLock (fun w =>
    if serverExists w.groups addr then (some Err.serverExists, w)
    else
      match w.groups.get groupName with
      | none => (some Err.groupNotFound, w)
      | some g =>
        thenDo (outOfSyncBySentinel env w) fun w1 =>
        thenDo (groupMapper.Update env { g with servers := g.servers ++ [⟨addr⟩] }
          (w1.setGroup groupName { g with servers := g.servers ++ [⟨addr⟩] })) fun w2 =>
        refreshGSLBBackendInfo env w2) w

/-- The three assignments of `DelGroupServer` (`group.go` lines 197-203) to the
group, for the found index. -/
def delServerAt (g : Group) (index : Int) : Group :=
  let g1 := if index ≠ 0 then { g with outOfSync := true } else g
  let g2 := { g1 with
    servers := g1.servers.take index.toNat ++ g1.servers.drop (index.toNat + 1) }
  if g2.servers.length = 0 then { g2 with outOfSync := false } else g2

/-- The function `service.DelGroupServer`. -/
def DelGroupServer (env : Env) (groupName addr : String) (w : World) :
    Option Err × World :=
  withLock (fun w =>
    match w.groups.get groupName with
    | none => (some Err.groupNotFound, w)
    | some g =>
      if g.GetServerIndex addr = -1 then (some Err.serverNotFound, w)
      else if g.GetServerIndex addr = 0 ∧ g.servers.length > 1 then
        (some Err.cantRemoveMaster, w)
      else
        thenDo (outOfSyncBySentinel env w) fun w1 =>
        thenDo (groupMapper.Update env (delServerAt g (g.GetServerIndex addr))
          (w1.setGroup groupName (delServerAt g (g.GetServerIndex addr)))) fun w2 =>
        refreshGSLBBackendInfo env w2) w

/-- The Go assignment `s[0], s[i] = s[i], s[0]`.  Every call below has
`i` within the list. -/
def swapServers (servers : List GroupServer) (i : Nat) : List GroupServer :=
  match servers[0]?, servers[i]? with
  | some a, some b => (servers.set 0 b).set i a
  | _, _ => servers

/-- The record literal of the case `dao.ActionFinished` (`group.go` lines
294-300): five fields are copied from `g`, `Promoting` and `OutOfSync` are
not named and so are zero. -/
def finishedRecord (g : Group) : Group :=
  { name := g.name, servers := g.servers, promoting := ⟨0, ""⟩, outOfSync := false,
    proxyReadPort := g.proxyReadPort, proxyWritePort := g.proxyWritePort,
    createTime := g.createTime }

/-- The case `dao.ActionFinished` of `GroupPromoteServer` (`group.go` lines
292-302). -/
def promoteFinished (env : Env) (g : Group) (w : World) : Option Err × World :=
  groupMapper.Update env (finishedRecord g) w

/-- The sentinel block of the case `dao.ActionPrepared` (`group.go` lines
265-278). -/
def promoteSentinel (env : Env) (g : Group) (w : World) : Option Err × World :=
  if w.sentinel.servers.length > 0 then
    thenDo (sentinelMapper.Update env { w.sentinel with outOfSync := true }
      { w with sentinel := { w.sentinel with outOfSync := true } }) fun w1 =>
    (none, { sentinelRemoveGroups env w1.sentinel.servers g.name w1 with
      haMasters := w1.haMasters.map (fun m => m.filter (fun kv => kv.1 ≠ g.name)) })
  else (none, w)

/-- The group after the assignments of `group.go` lines 280-282. -/
def promotedGroup (g : Group) : Group :=
  { g with
    servers := swapServers g.servers g.promoting.index.toNat,
    promoting := ⟨0, ActionFinished⟩ }

/-- The case `dao.ActionPrepared` of `GroupPromoteServer` (`group.go` lines
263-291), falling through to the finished case. -/
def promotePrepared (env : Env) (k : String) (g : Group) (w : World) : Option Err × World :=
  thenDo (promoteSentinel env g w) fun w1 =>
  thenDo (groupMapper.Update env (promotedGroup g) (w1.setGroup k (promotedGroup g))) fun w2 =>
  promoteFinished env (resyncGroup env k (promotedGroup g) w2).2.1
    (resyncGroup env k (promotedGroup g) w2).2.2

/-- The case `dao.ActionPreparing` of `GroupPromoteServer` (`group.go` lines
255-262), falling through. -/
def promotePreparing (env : Env) (k : String) (g : Group) (w : World) : Option Err × World :=
  thenDo (groupMapper.Update env { g with promoting := ⟨g.promoting.index, ActionPrepared⟩ }
    (w.setGroup k { g with promoting := ⟨g.promoting.index, ActionPrepared⟩ })) fun w1 =>
  promotePrepared env k { g with promoting := ⟨g.promoting.index, ActionPrepared⟩ } w1

/-- The case `dao.ActionNothing` of `GroupPromoteServer` (`group.go` lines
246-254), falling through. -/
def promoteNothing (env : Env) (k : String) (g : Group) (index : Int) (w : World) :
    Option Err × World :=
  thenDo (groupMapper.Update env { g with promoting := ⟨index, ActionPreparing⟩ }
    (w.setGroup k { g with promoting := ⟨index, ActionPreparing⟩ })) fun w1 =>
  promotePreparing env k { g with promoting := ⟨index, ActionPreparing⟩ } w1

/-- The body of `service.GroupPromoteServer` under the lock, for the group `g`
found under `groupName`. -/
def promoteDispatch (env : Env) (groupName addr : String) (g : Group) (w : World) :
    Option Err × World :=
  if g.GetServerIndex addr = -1 then (some Err.serverNotFound, w)
  else if g.promoting.state ≠ ActionNothing ∧ g.GetServerIndex addr ≠ g.promoting.index then
    (some (Err.isPromotingIndex g.promoting.index), w)
  else if g.promoting.state = ActionNothing ∧ g.GetServerIndex addr = 0 then
    (some Err.cantPromoteMaster, w)
  else if g.promoting.state = ActionNothing then
    promoteNothing env groupName g (g.GetServerIndex addr) w
  else if g.promoting.state = ActionPreparing then promotePreparing env groupName g w
  else if g.promoting.state = ActionPrepared then promotePrepared env groupName g w
  else if g.promoting.state = ActionFinished then promoteFinished env g w
  else (some Err.invalidActionState, w)

/-- The function `service.GroupPromoteServer`. -/
def GroupPromoteServer (env : Env) (groupName addr : String) (w : World) :
    Option Err × World :=
  withLock (fun w =>
    match w.groups.get groupName with
    | none => (some Err.groupNotFound, w)
    | some g => promoteDispatch env groupName addr g w) w

/-- The function `service.GroupForceFullSyncServer`.  The last branch stands
for an index out of range, which the tests before it exclude. -/
def GroupForceFullSyncServer (env : Env) (groupName addr : String) (w : World) :
    Option Err × World :=
  withLock (fun w =>
    match w.groups.get groupName with
    | none => (some Err.groupNotFound, w)
    | some g =>
      if g.GetServerIndex addr = -1 then (some Err.serverNotFound, w)
      else if g.GetServerIndex addr = 0 then (some Err.masterNotAllowed, w)
      else if g.promoting.state ≠ ActionNothing then (some Err.isPromoting, w)
      else
        match g.servers[(g.GetServerIndex addr).toNat]?, g.servers[0]? with
        | some target, some master => doForceFullSyncAction env target.addr master.addr w
        | _, _ => (some Err.serverNotFound, w)) w

/-! ## HA reaction (`topom/sentinel.go`) -/

/-- The second loop of the index search in `trySwitchGroupMaster`
(`sentinel.go` lines 259-265): the first server whose run-id is the non-empty
run-id of `masterAddr`. -/
def runIdIndexFrom (env : Env) (masterAddr : String) : List GroupServer → Nat → Int
  | [], _ => -1
  | v :: vs, i =>
    if env.runId masterAddr ≠ "" ∧ env.runId masterAddr = env.runId v.addr then (i : Int)
    else runIdIndexFrom env masterAddr vs (i + 1)

/-- The index closure of `trySwitchGroupMaster` (`sentinel.go` lines 253-267);
its first loop is the loop of `GetServerIndex`. -/
def switchIndex (env : Env) (g : Group) (masterAddr : String) : Int :=
  if getServerIndexFrom g.servers masterAddr 0 ≠ -1 then
    getServerIndexFrom g.servers masterAddr 0
  else runIdIndexFrom env masterAddr g.servers 0

/-- The group after the assignments of `sentinel.go` lines 277-278. -/
def switchedGroup (g : Group) (index : Int) : Group :=
  { g with servers := swapServers g.servers index.toNat, outOfSync := true }

/-- The function `service.trySwitchGroupMaster`. -/
def trySwitchGroupMaster (env : Env) (groupName masterAddr : String) (w : World) :
    Option Err × World :=
  match w.groups.get groupName with
  | none => (some Err.groupNotFound, w)
  | some g =>
    if switchIndex env g masterAddr = -1 then (some Err.masterNotInGroup, w)
    else if switchIndex env g masterAddr = 0 then (none, w)
    else
      thenDo (groupMapper.Update env (switchedGroup g (switchIndex env g masterAddr))
        (w.setGroup groupName (switchedGroup g (switchIndex env g masterAddr)))) fun w1 =>
      refreshGSLBBackendInfo env w1

/-- The function `service.switchMasters`; the Go map `masters` is walked in the
order of the list, each error is only logged. -/
def switchMasters (env : Env) (masters : List (String × String)) (w : World) :
    Option Err × World :=
  withLock (fun w =>
    if w.closed then (some Err.closedTopom, w)
    else
      (none, masters.foldl (fun acc kv => (trySwitchGroupMaster env kv.1 kv.2 acc).2)
        { w with haMasters := some masters })) w

/-! ## Invariants of the group map -/

/-- The addresses of all servers of all groups, in map order. -/
def Groups.addrs : Groups → List String
  | [] => []
  | kv :: rest => kv.2.servers.map (fun s => s.addr) ++ Groups.addrs rest

/-- Every server address occurs in at most one group, and there at most once. -/
def AddrUnique (gs : Groups) : Prop := (Groups.addrs gs).Nodup

instance (gs : Groups) : Decidable (AddrUnique gs) := by
  unfold AddrUnique; infer_instance

/-- The port sets of two groups have no element in common. -/
def portsApart (a b : Group) : Prop :=
  a.proxyReadPort ≠ b.proxyReadPort ∧ a.proxyReadPort ≠ b.proxyWritePort ∧
  a.proxyWritePort ≠ b.proxyReadPort ∧ a.proxyWritePort ≠ b.proxyWritePort

instance (a b : Group) : Decidable (portsApart a b) := by
  unfold portsApart; infer_instance

/-- All pairs of distinct groups have disjoint port sets. -/
def PortsDisjoint (gs : Groups) : Prop :=
  gs.Pairwise (fun a b => portsApart a.2 b.2)

instance (gs : Groups) : Decidable (PortsDisjoint gs) := by
  unfold PortsDisjoint; infer_instance

/-- A group without servers is not out of sync. -/
def EmptyInSync (gs : Groups) : Prop :=
  ∀ kv ∈ gs, kv.2.servers = [] → kv.2.outOfSync = false

/-- The promoting state "finished" occurs only together with index 0, as
`group.go` lines 281-282 write it. -/
def FinishedAtZero (g : Group) : Prop :=
  g.promoting.state = ActionFinished → g.promoting.index = 0

instance (g : Group) : Decidable (FinishedAtZero g) := by
  unfold FinishedAtZero; infer_instance

/-- Every group of the map satisfies `FinishedAtZero`. -/
def AllFinishedAtZero (gs : Groups) : Prop :=
  ∀ kv ∈ gs, FinishedAtZero kv.2

/-- What promotion, resync and master switch may do to a group record: the
name stays, the servers are reordered, `outOfSync` is raised only for a
group that has servers, and "finished" is entered only with index 0. -/
def Reordered (g g' : Group) : Prop :=
  g'.name = g.name ∧ g'.servers.Perm g.servers ∧
  (g'.outOfSync = true → g.outOfSync = true ∨ g.servers ≠ []) ∧
  (FinishedAtZero g → FinishedAtZero g')

/-! ## Reading a trace -/

/-- The `doSyncAction` calls of a trace in the order they were made, each as
the pair of the server addressed and the master argument. -/
def syncActions : List Event → List (String × String)
  | [] => []
  | Event.doSyncAction addr master _ :: rest => (addr, master) :: syncActions rest
  | _ :: rest => syncActions rest

/-- The calls the specification asks of a resync of the servers
`[s0, s1, .., sk]`: `SetMaster("NO:ONE")` to `s0`, then `SetMaster(s0.addr)`
to `s1`, .., `sk`. -/
def expectedSyncActions : List GroupServer → List (String × String)
  | [] => []
  | s0 :: rest => (s0.addr, "NO:ONE") :: rest.map (fun s => (s.addr, s0.addr))

/-! ## Reachable states -/

/-- One call of a group operation, by an operator or by the HA reaction. -/
inductive GroupOp where
  | createGroup (name : String) (rPort wPort : Int)
  | removeGroup (name : String)
  | addGroupServer (name addr : String)
  | delGroupServer (name addr : String)
  | resyncGroup (name : String)
  | groupPromoteServer (name addr : String)
  | groupForceFullSyncServer (name addr : String)
  | haSwitch (masters : List (String × String))

/-- Run one call in an environment. -/
def GroupOp.run (env : Env) : GroupOp → World → Option Err × World
  | GroupOp.createGroup name rPort wPort, w => CreateGroup env name rPort wPort w
  | GroupOp.removeGroup name, w => RemoveGroup env name w
  | GroupOp.addGroupServer name addr, w => AddGroupServer env name addr w
  | GroupOp.delGroupServer name addr, w => DelGroupServer env name addr w
  | GroupOp.resyncGroup name, w => ResyncGroup env name w
  | GroupOp.groupPromoteServer name addr, w => GroupPromoteServer env name addr w
  | GroupOp.groupForceFullSyncServer name addr, w => GroupForceFullSyncServer env name addr w
  | GroupOp.haSwitch masters, w => switchMasters env masters w

/-- The states reachable from a product without groups by any sequence of
group operations, each in an environment of its own, whether the call
succeeds or fails. -/
inductive Reachable : World → Prop where
  | init (w : World) (h : w.groups = []) : Reachable w
  | step (env : Env) (op : GroupOp) (w : World) (h : Reachable w) : Reachable (op.run env w).2

/-! ## Sample environments and states -/

/-- An environment in which every external call succeeds and no run-id is
known. -/
def envAllOk : Env := ⟨fun _ => true, fun _ => "", "2024-01-01 00:00:00"⟩

/-- An environment in which exactly the external call issued at trace length
`n` fails. -/
def envFailAt (n : Nat) : Env := ⟨fun m => decide (m ≠ n), fun _ => "", "2024-01-01 00:00:00"⟩

/-- A group record with the given name, addresses and promotion fields, in
sync, with ports 11000 and 12000. -/
def mkGroup (name : String) (addrs : List String) (index : Int) (state : String) : Group :=
  { name := name, servers := addrs.map GroupServer.mk, promoting := ⟨index, state⟩,
    outOfSync := false, proxyReadPort := 11000, proxyWritePort := 12000,
    createTime := "2024-01-01 00:00:00" }

/-- A service state holding just the given groups, without sentinels. -/
def mkWorld (gs : List Group) : World :=
  { groups := gs.map (fun g => (g.name, g)), sentinel := ⟨[], false⟩, haMasters := none,
    closed := false, trace := [] }

/-- Two groups, g = [A, B] on ports 11000/12000 and h = [C] on ports
11001/12001, no sentinels. -/
def twoGroups : World :=
  mkWorld [mkGroup "g" ["A", "B"] 0 "",
    { mkGroup "h" ["C"] 0 "" with proxyReadPort := 11001, proxyWritePort := 12001 }]

/-- The state after `CreateGroup("g", 11000, 12000)`, `AddGroupServer("g", "A")`
and `AddGroupServer("g", "B")` on a product without groups. -/
def reachedAB : World :=
  ((GroupOp.addGroupServer "g" "B").run envAllOk
    ((GroupOp.addGroupServer "g" "A").run envAllOk
      ((GroupOp.createGroup "g" 11000 12000).run envAllOk (mkWorld [])).2).2).2

/-- The state after deleting first B and then A from the group of
`reachedAB`. -/
def reachedEmptied : World :=
  ((GroupOp.delGroupServer "g" "A").run envAllOk
    ((GroupOp.delGroupServer "g" "B").run envAllOk reachedAB).2).2

/-- The `doSyncAction` calls of a list of events with their outcome: the
server addressed and whether the call returned nil. -/
def syncOutcomes : List Event → List (String × Bool)
  | [] => []
  | Event.doSyncAction addr _ ok :: rest => (addr, ok) :: syncOutcomes rest
  | _ :: rest => syncOutcomes rest

/-- The servers whose `doSyncAction` failed, in the order of the calls. -/
def failedServers (events : List Event) : List String :=
  (syncOutcomes events).filterMap (fun p => if p.2 then none else some p.1)

/-- The server an entry of the `MultiError` of `resyncGroup` is about, if it is
the entry of a failed `doSyncAction`. -/
def SyncFailure.server : SyncFailure → Option String
  | SyncFailure.doSyncAction _ addr _ => some addr
  | SyncFailure.storeUpdate _ => none

/-! ## `ResyncGroupAll` and the future it waits on -/

/-- Modelled from the spec: the type `sync2.Future` of the Codis library that
`ResyncGroupAll` imports, which is not under `src/`.  As the claim about
`ResyncGroupAll` words it, `Wait` is blocked unless every `Add` has a matching
`Done`: `pending` counts the `Add` calls without a `Done`, `vmap` holds the
values handed to `Done` by key. -/
structure Future where
  pending : Nat
  vmap : List (String × Err)
deriving DecidableEq

/-- The call `fut.Add()`. -/
def Future.Add (f : Future) : Future :=
  { f with pending := f.pending + 1 }

/-- The call `fut.Done(key, err)`. -/
def Future.Done (f : Future) (key : String) (err : Err) : Future :=
  { pending := f.pending - 1, vmap := (f.vmap.filter (fun kv => kv.1 ≠ key)) ++ [(key, err)] }

/-- The call `fut.Wait()` once every goroutine has run to its end: the values,
or `none` when some `Add` has no `Done` and the call never returns. -/
def Future.Wait (f : Future) : Option (List (String × Err)) :=
  if f.pending = 0 then some f.vmap else none

/-- One round of the loop of `ResyncGroupAll` (`group.go` lines 109-121) for
the map entry `kv`: `fut.Add()`, then the goroutine, run to its end. -/
def resyncAllOne (env : Env) (st : Future × World) (kv : String × Group) : Future × World :=
  match (groupMapper.Update env { kv.2 with outOfSync := false }
      (st.2.setGroup kv.1 { kv.2 with outOfSync := false })).1 with
  | some e =>
    (st.1.Add.Done kv.2.name e,
      (groupMapper.Update env { kv.2 with outOfSync := false }
        (st.2.setGroup kv.1 { kv.2 with outOfSync := false })).2)
  | none =>
    match (resyncGroup env kv.1 { kv.2 with outOfSync := false }
        (groupMapper.Update env { kv.2 with outOfSync := false }
          (st.2.setGroup kv.1 { kv.2 with outOfSync := false })).2).1 with
    | some e =>
      (st.1.Add.Done kv.2.name e,
        (resyncGroup env kv.1 { kv.2 with outOfSync := false }
          (groupMapper.Update env { kv.2 with outOfSync := false }
            (st.2.setGroup kv.1 { kv.2 with outOfSync := false })).2).2.2)
    | none =>
      (st.1.Add,
        (resyncGroup env kv.1 { kv.2 with outOfSync := false }
          (groupMapper.Update env { kv.2 with outOfSync := false }
            (st.2.setGroup kv.1 { kv.2 with outOfSync := false })).2).2.2)

/-- The function `service.ResyncGroupAll`, with the goroutines run one after
the other in map order.  The first component is `none` when `fut.Wait()`
never returns (the lock is then never released), otherwise the returned
error: the first value of the future, all of which are non-nil errors. -/
def ResyncGroupAll (env : Env) (w : World) : Option (Option Err) × World :=
  match
    ((w.groups.foldl (resyncAllOne env) (⟨0, []⟩, w.emit Event.lock)).1).Wait with
  | none => (none, (w.groups.foldl (resyncAllOne env) (⟨0, []⟩, w.emit Event.lock)).2)
  | some vals =>
    (some ((vals.head?).map (fun kv => kv.2)),
      ((w.groups.foldl (resyncAllOne env) (⟨0, []⟩, w.emit Event.lock)).2).emit Event.unlock)

/-! ## Sentinel client: `Masters` (`topom/client/redis/sentinel.go`) -/

/-- Map read `m[k]` on a Go map with string keys, as an association list. -/
def assocGet {α : Type} : List (String × α) → String → Option α
  | [], _ => none
  | (k', v) :: rest, k => if k' = k then some v else assocGet rest k

/-- Map write `m[k] = v`. -/
def assocSet {α : Type} : List (String × α) → String → α → List (String × α)
  | [], k, v => [(k, v)]
  | (k', v') :: rest, k, v =>
    if k' = k then (k, v) :: rest else (k', v') :: assocSet rest k v

/-- The record `redis.SentinelMaster`, without its `Info` map. -/
structure SentinelMaster where
  addr : String
  epoch : Int
deriving DecidableEq

/-- What the goroutine of one sentinel puts on the `results` channel: the map
group name ↦ master that `mastersDispatch` returned, or `none` for the nil map
of a failed or cancelled dispatch. -/
abbrev SentinelReply := Option (List (String × SentinelMaster))

/-- The state of the context `cntx` when `Masters` stops waiting. -/
inductive CtxState where
  | live
  | deadlineExceeded
  | canceled
deriving DecidableEq

/-- The errors of `Masters`. -/
inductive MastersErr where
  | canceled
  | lostMajority (voted sentinels : Nat)
deriving DecidableEq

/-- The local variables `masters`, `current` and `voted` of `Masters`. -/
structure MastersState where
  masters : List (String × String)
  current : List (String × SentinelMaster)
  voted : Nat
deriving DecidableEq

/-- The body of the inner loop of `Masters` (`sentinel.go` lines 392-397) for
one entry of a reply. -/
def MastersState.merge (st : MastersState) (kv : String × SentinelMaster) : MastersState :=
  match assocGet st.current kv.1 with
  | none =>
    { st with current := assocSet st.current kv.1 kv.2,
              masters := assocSet st.masters kv.1 kv.2.addr }
  | some cur =>
    if cur.epoch < kv.2.epoch then
      { st with current := assocSet st.current kv.1 kv.2,
                masters := assocSet st.masters kv.1 kv.2.addr }
    else st

/-- The tail shared by both exits of the loop of `Masters` (`sentinel.go` lines
370-373 and 384-387). -/
def MastersState.finish (n : Nat) (st : MastersState) :
    Except MastersErr (List (String × String)) :=
  if st.voted < 1 + n / 2 then Except.error (MastersErr.lostMajority st.voted n)
  else Except.ok st.masters

/-- The loop of `Masters` (`sentinel.go` lines 361-400) for `n` sentinels:
`alive` counts down, `arrivals` are the values still to come out of the
`results` channel before the context is done.  When nothing more arrives the
context of `context.WithTimeout` is done, by cancellation or, at the latest,
by its deadline. -/
def mastersLoop (n : Nat) (ctx : CtxState) :
    Nat → List SentinelReply → MastersState → Except MastersErr (List (String × String))
  | 0, _, st =>
    if ctx = CtxState.canceled then Except.error MastersErr.canceled else st.finish n
  | _ + 1, [], st =>
    if ctx = CtxState.canceled then Except.error MastersErr.canceled else st.finish n
  | alive + 1, none :: rest, st => mastersLoop n ctx alive rest st
  | alive + 1, some m :: rest, st =>
    mastersLoop n ctx alive rest { m.foldl MastersState.merge st with
      voted := (m.foldl MastersState.merge st).voted + 1 }

/-- The method `Sentinel.Masters` for `n` sentinels. -/
def Masters (n : Nat) (ctx : CtxState) (arrivals : List SentinelReply) :
    Except MastersErr (List (String × String)) :=
  mastersLoop n ctx n arrivals ⟨[], [], 0⟩

/-- The entries of the successful replies, in the order `Masters` reads
them. -/
def replyEntries (arrivals : List SentinelReply) : List (String × SentinelMaster) :=
  (arrivals.filterMap id).flatten

/-- The number of successful replies. -/
def successfulReplies (arrivals : List SentinelReply) : Nat :=
  (arrivals.filterMap id).length

/-- The maps of `Masters` after reading the entries `E`: `masters` holds the
address of `current`, a group without entry is in neither map, and the master
kept for a group is one of its entries with the greatest epoch. -/
def MastersState.Sound (st : MastersState) (E : List (String × SentinelMaster)) : Prop :=
  ∀ g, assocGet st.masters g = (assocGet st.current g).map (fun m => m.addr) ∧
    match assocGet st.current g with
    | none => ∀ e ∈ E, e.1 ≠ g
    | some m => (g, m) ∈ E ∧ ∀ e ∈ E, e.1 = g → e.2.epoch ≤ m.epoch

/-! ## Sentinel wire names (`topom/client/redis/sentinel.go`, `config`) -/

/-- The method `Sentinel.NodeName` of a client for `product`:
`fmt.Sprintf("%s-%s", s.Product, groupName)`. -/
def NodeName (product groupName : String) : String :=
  product ++ "-" ++ groupName

/-- The method `Sentinel.isSameProduct` of a client for `product`.  Go slices
the string by bytes; on UTF-8 text a byte prefix is a prefix of characters
and the byte `'-'` is the character `'-'`, so the test is made on
characters. -/
def isSameProduct (product name : String) : String × Bool :=
  if ¬ product.data.isPrefixOf name.data then ("", false)
  else
    if (name.data.drop product.data.length).length ≤ 1 ∨
        (name.data.drop product.data.length).head? ≠ some '-' then ("", false)
    else (String.mk (name.data.drop product.data.length).tail, true)

/-- The class `\w` of Go regular expressions: `[0-9A-Za-z_]`. -/
def isWordChar (c : Char) : Bool :=
  c.isAlphanum || c = '_'

/-- The function `validateProduct` of `config/dashboard_config.go`: the name
matches `^\w[\w\.\-]*$`. -/
def validateProduct (name : String) : Bool :=
  match name.data with
  | [] => false
  | c :: rest => isWordChar c && rest.all (fun c => isWordChar c || c = '.' || c = '-')

/-! ## GSLB projection (`topom/gslb.go`, `topom/stats.go`, `topom/sorter.go`) -/

/-- The record `topom.RedisStats`: whether `Error` is non-nil, the `Stats` map
and the `Timeout` flag. -/
structure RedisStats where
  error : Bool
  stats : List (String × String)
  timeout : Bool
deriving DecidableEq

/-- The method `RedisStats.MasterAddr`. -/
def RedisStats.MasterAddr (s : RedisStats) : String :=
  match assocGet s.stats "master_addr" with
  | some addr => addr
  | none => ""

def MasterLinkStatusUp : String := "up"

/-- The method `RedisStats.MasterLinkStatus`. -/
def RedisStats.MasterLinkStatus (s : RedisStats) : String :=
  match assocGet s.stats "master_link_status" with
  | some status => status
  | none => ""

/-- The map `service.stats.servers`, address ↦ `*RedisStats` (possibly nil). -/
abbrev ServerStats := List (String × Option RedisStats)

/-- The stats of a server that pass the test of `gslb.go` lines 162-165:
present, not nil, without error and without timeout. -/
def liveStats (stats : ServerStats) (addr : String) : Option RedisStats :=
  match assocGet stats addr with
  | some (some rs) => if rs.error || rs.timeout then none else some rs
  | _ => none

/-- The record `dao.GSLBBackend`. -/
structure GSLBBackend where
  servers : List String
  port : Int
deriving DecidableEq

/-- The type `dao.GSLBBackends`, a map from the name of a serve state. -/
abbrev GSLBBackends := List (String × GSLBBackend)

/-- The record `dao.GSLBBackendGroup` (its field `Servers` is never set by the
projection). -/
structure GSLBBackendGroup where
  name : String
  serverGroup : GSLBBackends
deriving DecidableEq

/-- The closure `doFunc` of `haproxyBackends` (`gslb.go` lines 178-187) for the
server `addr`. -/
def doFunc (sg : GSLBBackends) (state : String) (port : Int) (addr : String) : GSLBBackends :=
  match assocGet sg state with
  | none => assocSet sg state { servers := [addr], port := port }
  | some b => assocSet sg state { b with servers := b.servers ++ [addr] }

/-- The inner loop of `haproxyBackends` (`gslb.go` lines 161-193) over the
servers still to visit, `i` being the loop index; `none` stands for
`bValid = false`. -/
def backendLoop (stats : ServerStats) (g : Group) (master : String) :
    List GroupServer → Nat → GSLBBackends → Option GSLBBackends
  | [], _, sg => some sg
  | server :: rest, i, sg =>
    match liveStats stats server.addr with
    | none => backendLoop stats g master rest (i + 1) sg
    | some rs =>
      if i ≠ 0 ∧ rs.MasterAddr ≠ master then none
      else if i ≠ 0 ∧ rs.MasterLinkStatus ≠ MasterLinkStatusUp then
        backendLoop stats g master rest (i + 1) sg
      else
        backendLoop stats g master rest (i + 1)
          (if i = 0 then
            doFunc (doFunc sg "Read" g.proxyReadPort server.addr) "Write" g.proxyWritePort
              server.addr
           else doFunc sg "Read" g.proxyReadPort server.addr)

/-- The body of the outer loop of `haproxyBackends` (`gslb.go` lines 151-197)
for one group: the backend group it appends, if any. -/
def groupBackend (stats : ServerStats) (g : Group) : Option GSLBBackendGroup :=
  match g.servers with
  | [] => none
  | s0 :: _ =>
    (backendLoop stats g s0.addr g.servers 0 []).map (fun sg => ⟨g.name, sg⟩)

/-- The function `sortGroups` of `sorter.go`: the groups by `CreateTime`,
greatest first, the strings compared character by character. The order among
groups of equal `CreateTime`, which `sort.Slice` leaves open, is here that of
an insertion sort. -/
def sortGroups (groups : Groups) : List Group :=
  (groups.map (fun kv => kv.2)).insertionSort
    (fun a b => ¬ a.createTime.data < b.createTime.data)

/-- The function `service.haproxyBackends`; the monitors it returns are always
nil. -/
def haproxyBackends (stats : ServerStats) (groups : Groups) :
    Except Err (List GSLBBackendGroup) :=
  if stats.length = 0 then Except.error Err.refreshGSLBFailed
  else Except.ok ((sortGroups groups).filterMap (groupBackend stats))

/-- The servers listed under a serve state of a backend map. -/
def backendServers (sg : GSLBBackends) (state : String) : List String :=
  match assocGet sg state with
  | some b => b.servers
  | none => []


/-- A server whose live stats, if any, report the master `master`. -/
def reportsMaster (stats : ServerStats) (master : String) (s : GroupServer) : Bool :=
  match liveStats stats s.addr with
  | some rs => rs.MasterAddr = master
  | none => true

/-- A server with live stats that report the master `master` with link status
"up". -/
def servesReads (stats : ServerStats) (master : String) (s : GroupServer) : Bool :=
  match liveStats stats s.addr with
  | some rs => rs.MasterAddr = master && rs.MasterLinkStatus = MasterLinkStatusUp
  | none => false

/-- Sample stats: A alive, B reporting master A with link up, C reporting
master A with link down. -/
def statsABC : ServerStats :=
  [("A", some ⟨false, [], false⟩),
   ("B", some ⟨false, [("master_addr", "A"), ("master_link_status", "up")], false⟩),
   ("C", some ⟨false, [("master_addr", "A"), ("master_link_status", "down")], false⟩)]

/-- Sample stats: as `statsABC`, but C reports the master X. -/
def statsSplit : ServerStats :=
  [("A", some ⟨false, [], false⟩),
   ("B", some ⟨false, [("master_addr", "A"), ("master_link_status", "up")], false⟩),
   ("C", some ⟨false, [("master_addr", "X"), ("master_link_status", "up")], false⟩)]

/-- Sample stats: the master A has none, B reports master A with link up. -/
def statsNoMaster : ServerStats :=
  [("B", some ⟨false, [("master_addr", "A"), ("master_link_status", "up")], false⟩)]

/-- Sample group map: the single group g with the servers A, B and C. -/
def groupsABC : Groups := [("g", mkGroup "g" ["A", "B", "C"] 0 "")]

/-- An environment in which every call succeeds and the servers A and X have
the run-id r1, all others none. -/
def envSameRunId : Env :=
  ⟨fun _ => true, fun a => if a = "A" ∨ a = "X" then "r1" else "", "2024-01-01 00:00:00"⟩

/-! ## Service lifecycle (`topom/service.go`) -/

/-- The errors of `Start` and `Close`. -/
inductive LifecycleErr where
  | closedTopom
  | deleteTopomFailed
  | sentinelInfoFailed
deriving DecidableEq

/-- The lifecycle part of `service`: the flags `started`, `closed` and
`online`, whether the channel `done` is closed, and whether the Topom node of
the product is in the store. -/
structure Lifecycle where
  started : Int
  closed : Int
  online : Int
  done : Bool
  topomNode : Bool
deriving DecidableEq

/-- The state that `NewService` returns. -/
def Lifecycle.new : Lifecycle :=
  { started := 0, closed := 0, online := 0, done := false, topomNode := false }

/-- The method `service.IsOnline`. -/
def Lifecycle.IsOnline (s : Lifecycle) : Bool := decide (s.online = 1)

/-- The method `service.Close`; `deleteOk` tells whether `topomMapper.Delete`
returns nil. Waiting for the workers and closing the Redis pools touch no
field of the record. -/
def Lifecycle.Close (deleteOk : Bool) (s : Lifecycle) : Option LifecycleErr × Lifecycle :=
  if s.closed ≠ 0 then (none, s)
  else if deleteOk then
    (none, { s with closed := 1, done := true, topomNode := false, online := 0 })
  else (some LifecycleErr.deleteTopomFailed, { s with closed := 1, done := true })

/-- The loop of `Start` (`service.go` lines 135-154) over the outcomes of the
successive calls of `topomMapper.Create`, while `done` stays open: whether a
call succeeded. -/
def createLoop : List Bool → Bool
  | [] => false
  | ok :: rest => if ok then true else createLoop rest

/-- The method `service.Start`, run without a concurrent `Close`; `creates`
holds the outcomes of the calls of `topomMapper.Create` and `infoOk` tells
whether `sentinelMapper.Info` returns nil. The result is `none` while the loop
has not left. -/
def Lifecycle.Start (creates : List Bool) (infoOk : Bool) (s : Lifecycle) :
    Option (Option LifecycleErr × Lifecycle) :=
  if s.closed = 1 then some (some LifecycleErr.closedTopom, s)
  else if s.started ≠ 0 then some (none, s)
  else if s.done then some (none, { s with started := 1 })
  else if createLoop creates then
    some (if infoOk then none else some LifecycleErr.sentinelInfoFailed,
      { s with started := 1, online := 1, topomNode := true })
  else none

/-- The state of a service after a successful `Start`. -/
def Lifecycle.running : Lifecycle :=
  { started := 1, closed := 0, online := 1, done := false, topomNode := true }

/-- The two-group state watched by the sentinel S, in sync. -/
def twoGroupsWatched : World := { twoGroups with sentinel := ⟨["S"], false⟩ }

/-- The sentinel record after the guarded assignment
`if len(sentinel.Servers) != 0 { sentinel.OutOfSync = true }` that
`outOfSyncBySentinel` and `GroupPromoteServer` share. -/
def markOutOfSync (s : Sentinel) : Sentinel :=
  if s.servers.length ≠ 0 then { s with outOfSync := true } else s

/-- The single group g = [A, B], out of sync, without sentinels. -/
def outOfSyncAB : World :=
  mkWorld [{ mkGroup "g" ["A", "B"] 0 "" with outOfSync := true }]

/-- The state after adding C to the group of `reachedAB`. -/
def reachedABC : World := ((GroupOp.addGroupServer "g" "C").run envAllOk reachedAB).2

/-- The state after a `GroupPromoteServer("g", "C")` on `reachedABC` whose first
store write fails. -/
def reachedPending : World :=
  ((GroupOp.groupPromoteServer "g" "C").run (envFailAt (reachedABC.trace.length + 1))
    reachedABC).2

/-- The state after a `DelGroupServer("g", "C")` on `reachedPending`. -/
def reachedDangling : World :=
  ((GroupOp.delGroupServer "g" "C").run envAllOk reachedPending).2

/-- The state after a `DelGroupServer("g", "B")` on `reachedPending`. -/
def reachedShifted : World :=
  ((GroupOp.delGroupServer "g" "B").run envAllOk reachedPending).2

/-- A service that never started, while the Topom node of the product is in the
store, held by another instance. -/
def Lifecycle.outsider : Lifecycle :=
  { started := 0, closed := 0, online := 0, done := false, topomNode := true }

/-! ## Reading the mutex out of a trace -/

/-- The events `lock` and `unlock`. -/
def Event.isMutex : Event → Bool
  | Event.lock => true
  | Event.unlock => true
  | _ => false

/-- The Redis and Sentinel network calls: `doSyncAction`,
`doForceFullSyncAction` and the Sentinel `RemoveGroups`. -/
def Event.isNetwork : Event → Bool
  | Event.doSyncAction _ _ _ => true
  | Event.doForceFullSyncAction _ _ _ => true
  | Event.sentinelRemoveGroups _ _ _ => true
  | _ => false

/-- The network calls of a list of events that are issued while the mutex is
held; `held` tells whether it is held at the start. -/
def networkCallsUnderLock : Bool → List Event → List Event
  | _, [] => []
  | _, Event.lock :: rest => networkCallsUnderLock true rest
  | _, Event.unlock :: rest => networkCallsUnderLock false rest
  | held, e :: rest =>
    if held && e.isNetwork then e :: networkCallsUnderLock held rest
    else networkCallsUnderLock held rest

/-- The network calls of a list of events that are issued while the mutex is
not held. -/
def networkCallsOutsideLock : Bool → List Event → List Event
  | _, [] => []
  | _, Event.lock :: rest => networkCallsOutsideLock true rest
  | _, Event.unlock :: rest => networkCallsOutsideLock false rest
  | held, e :: rest =>
    if !held && e.isNetwork then e :: networkCallsOutsideLock held rest
    else networkCallsOutsideLock held rest

/-- The trace `t2` continues the trace `t1` by events other than `lock` and
`unlock`. -/
def SameSection (t1 t2 : List Event) : Prop :=
  ∃ ev : List Event, t2 = t1 ++ ev ∧ ∀ e ∈ ev, e.isMutex = false

/-- The trace `t2` is `t1`, or `t1` followed by `lock`, events other than `lock`
and `unlock`, and `unlock`. -/
def OneSection (t1 t2 : List Event) : Prop :=
  t2 = t1 ∨ ∃ mid : List Event, t2 = t1 ++ Event.lock :: (mid ++ [Event.unlock]) ∧
    ∀ e ∈ mid, e.isMutex = false

/-! ## The error aggregator (`utils/error/multi_error.go`) -/

/-- The record `MultiError`; an `error` is kept as the text its `Error()`
returns, and a nil `formatFunc` is `none`. -/
structure MultiError where
  errors : List String
  f : Option (List String → String)

/-- The loop of `defaultErrorToString` over the errors still to write, `index`
being the loop index and `b` the content of the string builder. -/
def defaultErrorLoop : List String → Nat → String → String
  | [], _, b => b
  | v :: rest, index, b =>
    defaultErrorLoop rest (index + 1) ((if index ≠ 0 then b ++ "; " else b) ++ v)

/-- The function `defaultErrorToString`. -/
def defaultErrorToString (errors : List String) : String :=
  if errors.length = 0 then "" else defaultErrorLoop errors 0 ""

/-- The method `MultiError.Error` on a pointer, `none` being the nil pointer;
the assignment of the default to a nil `m.f` changes no result. -/
def MultiError.Error : Option MultiError → String
  | none => ""
  | some m =>
    if m.errors.length = 0 then ""
    else
      match m.f with
      | none => defaultErrorToString m.errors
      | some f => f m.errors

/-- The method `MultiError.ErrorOrNil`. -/
def MultiError.ErrorOrNil : Option MultiError → Option MultiError
  | none => none
  | some m => if m.errors.length = 0 then none else some m

/-- The method `MultiError.Append`; `err` is `none` for a nil error. -/
def MultiError.Append (m : Option MultiError) (err : Option String) : MultiError :=
  match err with
  | some e => { (m.getD ⟨[], none⟩) with errors := (m.getD ⟨[], none⟩).errors ++ [e] }
  | none => m.getD ⟨[], none⟩

/-- A sequence of `Append` calls, each on the pointer the call before
returned. -/
def MultiError.appendAll (m : Option MultiError) (errs : List (Option String)) :
    Option MultiError :=
  errs.foldl (fun m e => some (MultiError.Append m e)) m

/-! ## The logger (`utils/log/log.go`) -/

def Ldate : Nat := 1
def Ltime : Nat := 2
def Lmicroseconds : Nat := 4
def Llongfile : Nat := 8
def Lshortfile : Nat := 16
def LUTC : Nat := 32
def LstdFlags : Nat := Ldate ||| Ltime ||| Lmicroseconds

def Loff : Int := 2147483647
def Lfatal : Int := 70000
def Lpanic : Int := 60000
def Lerror : Int := 50000
def Lwarn : Int := 40000
def Linfo : Int := 30000
def Ldebug : Int := 20000
def Ltrace : Int := 10000
def LstdLevel : Int := Ltrace

/-- The fields `level` and `flag` of `Logger` and, for its `out`, the byte
strings of the `Write` calls made so far. -/
structure Logger where
  level : Int
  flag : Nat
  writes : List (List Char)

/-- What `formatHeader` reads from outside: the time of `time.Now()` in the
local zone and in UTC, and the result of `runtime.Caller`. -/
structure Stamp where
  year : Nat
  month : Nat
  day : Nat
  hour : Nat
  min : Nat
  sec : Nat
  nanosecond : Nat

/-- The surroundings of one logging call. -/
structure LogEnv where
  now : Stamp
  nowUTC : Stamp
  caller : Option (String × Nat)

/-- The function `LevelToString`. -/
def LevelToString (level : Int) : String :=
  if level = Loff then "[OFF]"
  else if level = Lfatal then "[FATAL]"
  else if level = Lpanic then "[PANIC]"
  else if level = Lerror then "[ERROR]"
  else if level = Lwarn then "[WARN]"
  else if level = Linfo then "[INFO]"
  else if level = Ldebug then "[DEBUG]"
  else if level = Ltrace then "[TRACE]"
  else ""

/-- The loop of `itoa`, writing digits from the right; `fuel` is the room left
in the 20-byte array before its last place. -/
def itoaLoop : Nat → Nat → Int → List Char → List Char
  | 0, i, _, acc => Char.ofNat (48 + i) :: acc
  | fuel + 1, i, wid, acc =>
    if i ≥ 10 ∨ wid > 1 then
      itoaLoop fuel (i / 10) (wid - 1) (Char.ofNat (48 + (i - i / 10 * 10)) :: acc)
    else Char.ofNat (48 + i) :: acc

/-- The function `itoa`: the decimal digits of `i`, zero-padded to `wid`. -/
def itoa (i : Nat) (wid : Int) : List Char := itoaLoop 19 i wid []

/-- The loop of `formatHeader` for `Lshortfile` over the bytes after the first:
what follows the last '/', if there is one. -/
def afterLastSlash : List Char → Option (List Char)
  | [] => none
  | c :: cs =>
    match afterLastSlash cs with
    | some s => some s
    | none => if c = '/' then some cs else none

/-- The file name `formatHeader` prints under `Lshortfile`. -/
def shortFile (file : List Char) : List Char :=
  match file with
  | [] => []
  | _ :: cs =>
    match afterLastSlash cs with
    | some s => s
    | none => file

/-- The method `Logger.formatHeader`: the bytes it appends to the buffer. -/
def formatHeader (flag : Nat) (env : LogEnv) (file : String) (line : Nat) (level : Int) :
    List Char :=
  let t := if flag &&& LUTC ≠ 0 then env.nowUTC else env.now
  (if flag &&& (Ldate ||| Ltime ||| Lmicroseconds) ≠ 0 then
    (if flag &&& Ldate ≠ 0 then
      itoa t.year 4 ++ ['/'] ++ itoa t.month 2 ++ ['/'] ++ itoa t.day 2 ++ [' ']
     else []) ++
    (if flag &&& (Ltime ||| Lmicroseconds) ≠ 0 then
      itoa t.hour 2 ++ [':'] ++ itoa t.min 2 ++ [':'] ++ itoa t.sec 2 ++
        (if flag &&& Lmicroseconds ≠ 0 then ['.'] ++ itoa (t.nanosecond / 1000) 6 else []) ++
        [' ']
     else [])
   else []) ++
  (LevelToString level).data ++ [' '] ++
  (if flag &&& (Lshortfile ||| Llongfile) ≠ 0 then
    [' '] ++ (if flag &&& Lshortfile ≠ 0 then shortFile file.data else file.data) ++ [':'] ++
      itoa line (-1) ++ [':', ' ']
   else [])

/-- The method `Logger.output` for the text `s`: one `Write` of the buffer. -/
def Logger.output (l : Logger) (env : LogEnv) (level : Int) (s : String) : Logger :=
  let fileLine :=
    if l.flag &&& (Lshortfile ||| Llongfile) ≠ 0 then
      match env.caller with
      | some fl => fl
      | none => ("???", 0)
    else ("", 0)
  let buf := formatHeader l.flag env fileLine.1 fileLine.2 level ++ s.data
  let buf := if s.data.length = 0 ∨ s.data.getLast? ≠ some '\n' then buf ++ ['\n'] else buf
  { l with writes := l.writes ++ [buf] }

/-- The methods `Logger.Output`, `Outputln` and `Outputf`, `s` being the text
that `fmt.Sprint`, `fmt.Sprintln` or `fmt.Sprintf` made of the arguments. -/
def Logger.Output (l : Logger) (env : LogEnv) (level : Int) (s : String) : Logger :=
  if level < l.level then l else l.output env level s

/-- The method `Logger.Info`. -/
def Logger.Info (l : Logger) (env : LogEnv) (s : String) : Logger :=
  l.Output env Linfo s

/-- The logger of `TestOutput`: `New(&b, LstdLevel, 0)`. -/
def testLogger : Logger := ⟨LstdLevel, 0, []⟩

/-- Sample surroundings of a logging call. -/
def sampleLogEnv : LogEnv :=
  ⟨⟨2024, 1, 2, 3, 4, 5, 6789⟩, ⟨2024, 1, 1, 19, 4, 5, 6789⟩, some ("/a/b/c.go", 23)⟩

/-! ## Store paths (`coordinate/path.go`) -/

/-- The function `strings.Split(s, "/")` on the characters of `s`. -/
def splitSlash : List Char → List (List Char)
  | [] => [[]]
  | c :: cs =>
    if c = '/' then [] :: splitSlash cs
    else
      match splitSlash cs with
      | [] => [[c]]
      | x :: xs => (c :: x) :: xs

/-- The function `strings.Join(elems, "/")` on characters. -/
def joinSlash : List (List Char) → List Char
  | [] => []
  | [x] => x
  | x :: y :: rest => x ++ '/' :: joinSlash (y :: rest)

/-- The scan of `filepath.Clean` over the path elements still to read; `stack`
holds the elements kept so far, the last one first. Empty elements and "." are
dropped, ".." removes the element before it, is dropped at the root and is
kept at the start of a path that is not rooted. -/
def cleanElements (rooted : Bool) : List (List Char) → List (List Char) → List (List Char)
  | [], stack => stack.reverse
  | c :: rest, stack =>
    if c = [] ∨ c = ['.'] then cleanElements rooted rest stack
    else if c = ['.', '.'] then
      match stack with
      | top :: below =>
        if top = ['.', '.'] then cleanElements rooted rest (c :: stack)
        else cleanElements rooted rest below
      | [] => if rooted then cleanElements rooted rest [] else cleanElements rooted rest [c]
    else cleanElements rooted rest (c :: stack)

/-- The function `filepath.Clean` of the Go library for the separator '/'. -/
def filepathClean (path : List Char) : List Char :=
  match path with
  | [] => ['.']
  | c :: _ =>
    if c = '/' then '/' :: joinSlash (cleanElements true (splitSlash path) [])
    else
      match cleanElements false (splitSlash path) [] with
      | [] => ['.']
      | elems => joinSlash elems

/-- The function `filepath.Join` of the Go library for the separator '/':
the elements from the first non-empty one on, joined and cleaned. -/
def filepathJoin (elems : List String) : String :=
  match elems.dropWhile (fun e => e = "") with
  | [] => ""
  | es => String.mk (filepathClean (joinSlash (es.map (fun e => e.data))))

def DefaultBaseDir : String := "/cache-manager"
def DefaultProductDir : String := "/products"
def DefaultGroupDir : String := "/groups"

/-- The function `GroupDir`; `filepath.ToSlash` changes nothing for the
separator '/'. -/
def GroupDir (productName : String) : String :=
  filepathJoin [DefaultBaseDir, DefaultProductDir, productName, DefaultGroupDir]

/-- The function `GroupPath`. -/
def GroupPath (productName groupName : String) : String :=
  filepathJoin [DefaultBaseDir, DefaultProductDir, productName, DefaultGroupDir,
    "group-" ++ groupName]

/-! ## Template files (`topom/dao/mapper/template_file_mapper.go`) -/

/-- Byte strings. -/
abbrev Bytes := List Nat

/-- The record `dao.TemplateFile`. -/
structure TemplateFile where
  data : Bytes
  md5 : Bytes
deriving DecidableEq

/-- The type `dao.TemplateFiles`, a map from the base name of a file. -/
abbrev TemplateFiles := List (String × TemplateFile)

/-- Map removal `delete(m, k)`. -/
def assocDel {α : Type} (l : List (String × α)) (k : String) : List (String × α) :=
  l.filter (fun kv => kv.1 ≠ k)

/-- The method `Sum(b)` of the `hash.Hash` that `md5.New()` returns: `b`
followed by the digest of the bytes written since the last `Reset`. The MD5
function `digest` of the Go library is a parameter. -/
def md5Sum (digest : Bytes → Bytes) (written b : Bytes) : Bytes := b ++ digest written

/-- The record that `init` (lines 69-74) and `doMonitor` (lines 154-159) build
for the bytes `data`: `md5Calcer.Reset()`, then `md5Calcer.Sum(data)` with
nothing written to the hash. -/
def newTemplateFile (digest : Bytes → Bytes) (data : Bytes) : TemplateFile :=
  { data := data, md5 := md5Sum digest [] data }

/-- The cache that `templateFileMapper.init` builds from the files of the
store. -/
def templateInit (digest : Bytes → Bytes) (stored : List (String × Bytes)) : TemplateFiles :=
  stored.foldl (fun tfs kv => assocSet tfs kv.1 (newTemplateFile digest kv.2)) []

/-- The cache of the mapper and the files under `/template-files` of the
store. -/
structure TemplateState where
  tfs : TemplateFiles
  store : List (String × Bytes)
deriving DecidableEq

/-- The step of the last loop of `doMonitor` (lines 171-179) for one scanned
file. -/
def mirrorFile (updateOk : String → Bool) (old : TemplateFiles)
    (acc : TemplateFiles × List (String × Bytes)) (kv : String × TemplateFile) :
    TemplateFiles × List (String × Bytes) :=
  if (match assocGet old kv.1 with
      | some vv => decide (vv.md5 = kv.2.md5)
      | none => false) then acc
  else if updateOk kv.1 then (acc.1, assocSet acc.2 kv.1 kv.2.data)
  else (assocDel acc.1 kv.1, acc.2)

/-- The method `templateFileMapper.doMonitor` for the local files `files`;
`updateOk` and `deleteOk` tell whether the store call for a file succeeds. -/
def templateDoMonitor (digest : Bytes → Bytes) (updateOk deleteOk : String → Bool)
    (files : List (String × Bytes)) (s : TemplateState) : TemplateState :=
  let tfs := files.foldl (fun acc kv => assocSet acc kv.1 (newTemplateFile digest kv.2)) []
  let store1 := s.tfs.foldl
    (fun st kv =>
      if (assocGet tfs kv.1).isSome then st
      else if deleteOk kv.1 then assocDel st kv.1 else st) s.store
  let r := tfs.foldl (mirrorFile updateOk s.tfs) (tfs, store1)
  { tfs := r.1, store := r.2 }

/-- A stand-in for the MD5 function: sixteen bytes, the first being the length
of the input. -/
def sampleDigest (b : Bytes) : Bytes := b.length :: List.replicate 15 0

/-! ## GSLB operations (`topom/gslb.go`, `topom/dao/mapper/gslb_mapper.go`) -/

/-- The record `dao.GSLB`. Nil and empty slices are not told apart. -/
structure GSLB where
  name : String
  servers : List String
  monitors : List String
  backends : List GSLBBackendGroup
deriving DecidableEq

/-- The errors of the GSLB operations. -/
inductive GslbErr where
  | invalidAddress
  | serverExists
  | gslbNotFound
  | serverNotFound
  | unsupportedType
  | statsEmpty
  | storeFailed
deriving DecidableEq

/-- What the GSLB operations read from outside: `storeOk n` is the outcome of
the store call made when `n` store calls were made before, `hostOf` is the
host that `net.SplitHostPort` returns (`none` for its error) and `hostPort` is
`net.JoinHostPort(host, strconv.Itoa(port))`. -/
structure GslbEnv where
  storeOk : Nat → Bool
  hostOf : String → Option String
  hostPort : String → Int → String

/-- The state the GSLB operations work on: the map of `gslbMapper`, the
records under `GSLBPath(name, product)` of the store by name, the number of
store calls made, and the group map and Redis stats they read. -/
structure GslbWorld where
  gslbs : List (String × GSLB)
  stored : List (String × GSLB)
  calls : Nat
  groups : Groups
  stats : ServerStats
deriving DecidableEq

/-- The method `gslbMapper.Update`: nothing when the map holds a record deeply
equal to `g`, else the store write and then `m.gslbs[g.Name] = g`. -/
def gslbMapper.Update (env : GslbEnv) (g : GSLB) (w : GslbWorld) :
    Option GslbErr × GslbWorld :=
  if assocGet w.gslbs g.name = some g then (none, w)
  else if env.storeOk w.calls then
    (none, { w with calls := w.calls + 1, stored := assocSet w.stored g.name g,
                    gslbs := assocSet w.gslbs g.name g })
  else (some GslbErr.storeFailed, { w with calls := w.calls + 1 })

/-- The method `gslbMapper.Delete`: store delete, then
`delete(m.gslbs, g.Name)`. -/
def gslbMapper.Delete (env : GslbEnv) (g : GSLB) (w : GslbWorld) :
    Option GslbErr × GslbWorld :=
  if env.storeOk w.calls then
    (none, { w with calls := w.calls + 1, stored := assocDel w.stored g.name,
                    gslbs := assocDel w.gslbs g.name })
  else (some GslbErr.storeFailed, { w with calls := w.calls + 1 })

/-- The inner loops of `lvsBackends` (`gslb.go` lines 224-245) for one backend
group of the haproxy record: each backend keeps its port and lists the hosts
of the haproxy servers at that port. -/
def lvsBackendGroup (env : GslbEnv) (servers : List String) (bs : GSLBBackendGroup) :
    GSLBBackendGroup :=
  { name := bs.name,
    serverGroup := bs.serverGroup.foldl
      (fun sg kv => assocSet sg kv.1
        { servers := servers.filterMap
            (fun vv => (env.hostOf vv).map (fun ip => env.hostPort ip kv.2.port)),
          port := kv.2.port }) [] }

/-- The function `service.lvsBackends`: backends and monitors. -/
def service.lvsBackends (env : GslbEnv) (backendName : String) (w : GslbWorld) :
    List GSLBBackendGroup × List String :=
  match assocGet w.gslbs backendName with
  | none => ([], [])
  | some g => (g.backends.map (lvsBackendGroup env g.servers), g.servers)

/-- The function `service.getGSLBBackends`: backends and monitors, or the
error. -/
def service.getGSLBBackends (env : GslbEnv) (gslbName : String) (w : GslbWorld) :
    Except GslbErr (List GSLBBackendGroup × List String) :=
  if gslbName = "haproxy" then
    match haproxyBackends w.stats w.groups with
    | Except.ok backends => Except.ok (backends, [])
    | Except.error _ => Except.error GslbErr.statsEmpty
  else if gslbName = "lvs" then Except.ok (service.lvsBackends env "haproxy" w)
  else Except.error GslbErr.unsupportedType

/-- The loop of `service.refreshGSLBBackendInfo` over the names still to
visit, in the order of the list; a failed `gslbMapper.Update` is only
logged. -/
def refreshLoop (env : GslbEnv) : List String → GslbWorld → Option GslbErr × GslbWorld
  | [], w => (none, w)
  | name :: rest, w =>
    match assocGet w.gslbs name with
    | none => refreshLoop env rest w
    | some v =>
      match service.getGSLBBackends env name w with
      | Except.error e => (some e, w)
      | Except.ok r =>
        refreshLoop env rest
          (gslbMapper.Update env
            { name := name, servers := v.servers, monitors := r.2, backends := r.1 } w).2

/-- The function `service.refreshGSLBBackendInfo`, the map walked in the order
of the list. -/
def service.refreshGSLBBackendInfo (env : GslbEnv) (w : GslbWorld) :
    Option GslbErr × GslbWorld :=
  refreshLoop env (w.gslbs.map (fun kv => kv.1)) w

/-- Assignment through the pointer held under `k` of the map of the mapper. -/
def GslbWorld.setGSLB (w : GslbWorld) (k : String) (g : GSLB) : GslbWorld :=
  { w with gslbs := assocSet w.gslbs k g }

/-- The Go idiom `if err := step; err != nil { return err }` followed by the
rest of the function, for the GSLB operations. -/
def gslbThen (r : Option GslbErr × GslbWorld)
    (rest : GslbWorld → Option GslbErr × GslbWorld) : Option GslbErr × GslbWorld :=
  match r.1 with
  | some e => (some e, r.2)
  | none => rest r.2

/-- The tail of `service.AddGSLB` (`gslb.go` lines 33-48) for the record `g`
held under `gslbName`. -/
def addGSLBServer (env : GslbEnv) (gslbName addr : String) (g : GSLB) (w : GslbWorld) :
    Option GslbErr × GslbWorld :=
  if addr ∈ g.servers then (some GslbErr.serverExists, w)
  else
    gslbThen (gslbMapper.Update env { g with servers := g.servers ++ [addr] }
      (w.setGSLB gslbName { g with servers := g.servers ++ [addr] })) fun w1 =>
    service.refreshGSLBBackendInfo env w1

/-- The function `service.AddGSLB`. The record comes out of the map of the
mapper by pointer, or is put into it when new (`gslb.go` lines 28-32), so the
assignment to `g.Servers` is written to the map at once. -/
def service.AddGSLB (env : GslbEnv) (gslbName addr : String) (w : GslbWorld) :
    Option GslbErr × GslbWorld :=
  if addr.utf8ByteSize = 0 then (some GslbErr.invalidAddress, w)
  else
    match assocGet w.gslbs gslbName with
    | some g => addGSLBServer env gslbName addr g w
    | none =>
      addGSLBServer env gslbName addr ⟨gslbName, [], [], []⟩
        (w.setGSLB gslbName ⟨gslbName, [], [], []⟩)

/-- The function `service.DelGSLB`; `erase` removes the first occurrence, as
the index search and the `append` of `gslb.go` lines 68-78 do. -/
def service.DelGSLB (env : GslbEnv) (gslbName addr : String) (w : GslbWorld) :
    Option GslbErr × GslbWorld :=
  if addr.utf8ByteSize = 0 then (some GslbErr.invalidAddress, w)
  else
    match assocGet w.gslbs gslbName with
    | none => (some GslbErr.gslbNotFound, w)
    | some g =>
      if addr ∉ g.servers then (some GslbErr.serverNotFound, w)
      else
        gslbThen (gslbMapper.Update env { g with servers := g.servers.erase addr }
          (w.setGSLB gslbName { g with servers := g.servers.erase addr })) fun w1 =>
        gslbThen
          (if (g.servers.erase addr).length = 0 then
            gslbMapper.Delete env { g with servers := g.servers.erase addr } w1
           else (none, w1)) fun w2 =>
        service.refreshGSLBBackendInfo env w2

/-- A GSLB environment in which every store call succeeds. -/
def gslbEnvOk : GslbEnv := ⟨fun _ => true, fun s => some s, fun h _ => h⟩

/-- No GSLB record in the map or the store, no groups, and Redis stats for the
server A. -/
def gslbFresh : GslbWorld :=
  { gslbs := [], stored := [], calls := 0, groups := [],
    stats := [("A", some ⟨false, [], false⟩)] }

/-- As `gslbFresh`, without Redis stats. -/
def gslbNoStats : GslbWorld := { gslbFresh with stats := [] }

/-- The haproxy record with the server a, in the map and in the store. -/
def gslbStored : GslbWorld :=
  { gslbFresh with gslbs := [("haproxy", ⟨"haproxy", ["a:80"], [], []⟩)],
                   stored := [("haproxy", ⟨"haproxy", ["a:80"], [], []⟩)] }

/-! ## Properties -/

theorem Groups.get_set_self (gs : Groups) (k : String) (g : Group) :
    (gs.set k g).get k = some g := by
  induction gs with
  | nil => simp [Groups.set, Groups.get]
  | cons kv rest ih =>
    obtain ⟨k', g'⟩ := kv
    by_cases h : k' = k
    · simp [Groups.set, Groups.get, h]
    · simp [Groups.set, Groups.get, h, ih]

theorem Groups.get_set_ne (gs : Groups) (k k' : String) (g : Group) (h : k' ≠ k) :
    (gs.set k g).get k' = gs.get k' := by
  induction gs with
  | nil => simp [Groups.set, Groups.get, Ne.symm h]
  | cons kv rest ih =>
    obtain ⟨k₀, g₀⟩ := kv
    by_cases h₀ : k₀ = k
    · subst h₀
      simp [Groups.set, Groups.get, Ne.symm h]
    · by_cases h₁ : k₀ = k'
      · subst h₁
        simp [Groups.set, Groups.get, h]
      · simp [Groups.set, Groups.get, h₀, h₁, ih]

theorem Groups.mem_of_get {gs : Groups} {k : String} {g : Group} (h : gs.get k = some g) :
    (k, g) ∈ gs := by
  induction gs with
  | nil => simp [Groups.get] at h
  | cons kv rest ih =>
    obtain ⟨k', g'⟩ := kv
    by_cases hk : k' = k
    · simp [Groups.get, hk] at h
      simp [hk, h]
    · simp [Groups.get, hk] at h
      exact List.mem_cons_of_mem _ (ih h)

theorem Groups.name_of_get {gs : Groups} {k : String} {g : Group} (hwf : gs.WF)
    (h : gs.get k = some g) : g.name = k :=
  hwf (k, g) (Groups.mem_of_get h)

/-- A found index of `getServerIndexFrom` is `i + j` for the first `j` whose
server has the address. -/
theorem getServerIndexFrom_spec (l : List GroupServer) (addr : String) (i : Nat) :
    (getServerIndexFrom l addr i = -1 ∧ ∀ s ∈ l, s.addr ≠ addr) ∨
    ∃ j s, getServerIndexFrom l addr i = ((i + j : Nat) : Int) ∧ l[j]? = some s ∧
      s.addr = addr ∧ ∀ j', j' < j → ∀ s', l[j']? = some s' → s'.addr ≠ addr := by
  induction l generalizing i with
  | nil => left; simp [getServerIndexFrom]
  | cons v vs ih =>
    by_cases h : v.addr = addr
    · right
      refine ⟨0, v, ?_, by simp, h, ?_⟩
      · simp [getServerIndexFrom, h]
      · intro j' hj'; omega
    · rcases ih (i + 1) with ⟨h1, h2⟩ | ⟨j, s, h1, h2, h3, h4⟩
      · left
        refine ⟨by simp [getServerIndexFrom, h, h1], ?_⟩
        intro s hs
        rcases List.mem_cons.mp hs with rfl | hs
        · exact h
        · exact h2 s hs
      · right
        refine ⟨j + 1, s, ?_, by simpa using h2, h3, ?_⟩
        · simp only [getServerIndexFrom, h, if_false, h1]
          congr 1; omega
        · intro j' hj' s' hs'
          cases j' with
          | zero => simp at hs'; subst hs'; exact h
          | succ n =>
            simp at hs'
            exact h4 n (by omega) s' hs'


theorem thenDo_none {r : Option Err × World} {rest : World → Option Err × World}
    (h : (thenDo r rest).1 = none) : r.1 = none ∧ thenDo r rest = rest r.2 := by
  unfold thenDo at h ⊢
  cases hr : r.1 with
  | some e => rw [hr] at h; simp at h
  | none => simp

theorem thenDo_some {r : Option Err × World} {rest : World → Option Err × World} {e : Err}
    (h : r.1 = some e) : thenDo r rest = (some e, r.2) := by
  unfold thenDo; rw [h]

theorem thenDo_of_none {r : Option Err × World} {rest : World → Option Err × World}
    (h : r.1 = none) : thenDo r rest = rest r.2 := by
  unfold thenDo; rw [h]

theorem groupMapper.Update_groups (env : Env) (g : Group) (w : World) :
    (groupMapper.Update env g w).2.groups =
      if (groupMapper.Update env g w).1 = none then w.groups.set g.name g else w.groups := by
  unfold groupMapper.Update
  by_cases h : env.ok w.trace.length <;> simp [h, World.emit, World.setGroup]

theorem resyncLoop_groups (env : Env) (n m : String) (l : List GroupServer) (i : Nat)
    (errs : List SyncFailure) (w : World) :
    (resyncLoop env n m l i errs w).2.groups = w.groups := by
  induction l generalizing i errs w with
  | nil => rfl
  | cons v vs ih => simp [resyncLoop, ih, doSyncAction, World.emit]

/-- The group that `resyncGroup` leaves behind its pointer is the one it was
given, up to `outOfSync`. -/
theorem resyncGroup_group (env : Env) (k : String) (g : Group) (w : World) :
    (resyncGroup env k g w).2.1 = g ∨
      (resyncGroup env k g w).2.1 = { g with outOfSync := true } := by
  unfold resyncGroup
  split
  · left; rfl
  · dsimp only
    split
    · right; split <;> rfl
    · left; rfl

theorem resyncGroup_name (env : Env) (k : String) (g : Group) (w : World) :
    (resyncGroup env k g w).2.1.name = g.name := by
  rcases resyncGroup_group env k g w with h | h <;> rw [h]

theorem finishedRecord_resync (env : Env) (k : String) (g : Group) (w : World) :
    finishedRecord (resyncGroup env k g w).2.1 = finishedRecord g := by
  rcases resyncGroup_group env k g w with h | h <;> rw [h]; rfl

theorem promoteFinished_get (env : Env) (g : Group) (w : World)
    (h : (promoteFinished env g w).1 = none) :
    (promoteFinished env g w).2.groups.get g.name = some (finishedRecord g) := by
  unfold promoteFinished at h ⊢
  rw [groupMapper.Update_groups, if_pos h]
  exact Groups.get_set_self _ _ _

theorem promotePrepared_get (env : Env) (k : String) (g : Group) (w : World)
    (h : (promotePrepared env k g w).1 = none) :
    (promotePrepared env k g w).2.groups.get g.name = some (finishedRecord (promotedGroup g)) := by
  unfold promotePrepared at h ⊢
  obtain ⟨-, h1⟩ := thenDo_none h
  rw [h1] at h ⊢
  obtain ⟨-, h2⟩ := thenDo_none h
  rw [h2] at h ⊢
  have := promoteFinished_get env _ _ h
  rw [finishedRecord_resync, resyncGroup_name] at this
  exact this

theorem promotePreparing_get (env : Env) (k : String) (g : Group) (w : World)
    (h : (promotePreparing env k g w).1 = none) :
    (promotePreparing env k g w).2.groups.get g.name = some (finishedRecord (promotedGroup g)) := by
  unfold promotePreparing at h ⊢
  obtain ⟨-, h1⟩ := thenDo_none h
  rw [h1] at h ⊢
  exact promotePrepared_get env k _ _ h

theorem promoteNothing_get (env : Env) (k : String) (g : Group) (index : Int) (w : World)
    (h : (promoteNothing env k g index w).1 = none) :
    (promoteNothing env k g index w).2.groups.get g.name =
      some (finishedRecord (promotedGroup { g with promoting := ⟨index, ActionNothing⟩ })) := by
  unfold promoteNothing at h ⊢
  obtain ⟨-, h1⟩ := thenDo_none h
  rw [h1] at h ⊢
  exact promotePreparing_get env k _ _ h


theorem swapServers_zero (l : List GroupServer) : swapServers l 0 = l := by
  cases l with
  | nil => rfl
  | cons a t => simp [swapServers]

theorem swapServers_length (l : List GroupServer) (i : Nat) :
    (swapServers l i).length = l.length := by
  unfold swapServers
  split <;> simp

/-- Pointwise description of the exchange of positions `0` and `i`. -/
theorem swapServers_get (l : List GroupServer) (i j : Nat) (hi : i < l.length) :
    (swapServers l i)[j]? = if j = i then l[0]? else if j = 0 then l[i]? else l[j]? := by
  unfold swapServers
  have h0 : 0 < l.length := by omega
  rw [List.getElem?_eq_getElem h0, List.getElem?_eq_getElem hi]
  dsimp only
  by_cases hji : j = i
  · subst hji
    simp [List.getElem?_set, hi]
  · by_cases hj0 : j = 0
    · subst hj0
      simp [List.getElem?_set, hji, Ne.symm hji, h0]
    · simp [List.getElem?_set, hji, hj0, Ne.symm hji, Ne.symm hj0]

/-- A found index of `GetServerIndex` points at a server with the address. -/
theorem GetServerIndex_found (g : Group) (addr : String) (h : g.GetServerIndex addr ≠ -1) :
    0 ≤ g.GetServerIndex addr ∧ (g.GetServerIndex addr).toNat < g.servers.length ∧
    ∃ s, g.servers[(g.GetServerIndex addr).toNat]? = some s ∧ s.addr = addr := by
  unfold Group.GetServerIndex at h ⊢
  rcases getServerIndexFrom_spec g.servers addr 0 with ⟨h1, -⟩ | ⟨j, s, h1, h2, h3, -⟩
  · exact absurd h1 h
  · rw [h1]
    simp only [Nat.zero_add, Int.toNat_ofNat]
    refine ⟨Int.ofNat_nonneg j, ?_, s, h2, h3⟩
    exact (List.getElem?_eq_some_iff.mp h2).1


theorem promoteDispatch_get (env : Env) (k addr : String) (g : Group) (w : World)
    (hfin : g.promoting.state = ActionFinished → g.promoting.index = 0)
    (h : (promoteDispatch env k addr g w).1 = none) :
    (promoteDispatch env k addr g w).2.groups.get g.name =
      some (finishedRecord
        { g with servers := swapServers g.servers (g.GetServerIndex addr).toNat }) := by
  unfold promoteDispatch at h ⊢
  split_ifs at h ⊢ with h1 h2 h3 h4 h5 h6 h7
  · exact promoteNothing_get env k g _ w h
  · have hidx : g.GetServerIndex addr = g.promoting.index := by
      by_contra hne; exact h2 ⟨h4, hne⟩
    rw [hidx]
    exact promotePreparing_get env k g w h
  · have hidx : g.GetServerIndex addr = g.promoting.index := by
      by_contra hne; exact h2 ⟨h4, hne⟩
    rw [hidx]
    exact promotePrepared_get env k g w h
  · have hidx : g.GetServerIndex addr = g.promoting.index := by
      by_contra hne; exact h2 ⟨h4, hne⟩
    rw [hidx, hfin h7]
    simp only [Int.toNat_zero, swapServers_zero]
    exact promoteFinished_get env g w h

theorem GroupPromoteServer_get (env : Env) (k addr : String) (g : Group) (w : World)
    (hg : w.groups.get k = some g)
    (hfin : g.promoting.state = ActionFinished → g.promoting.index = 0)
    (h : (GroupPromoteServer env k addr w).1 = none) :
    g.GetServerIndex addr ≠ -1 ∧
    (GroupPromoteServer env k addr w).2.groups.get g.name =
      some (finishedRecord
        { g with servers := swapServers g.servers (g.GetServerIndex addr).toNat }) := by
  unfold GroupPromoteServer withLock at h ⊢
  have hg' : (w.emit Event.lock).groups.get k = some g := hg
  simp only [hg'] at h ⊢
  refine ⟨?_, promoteDispatch_get env k addr g _ hfin h⟩
  intro hneg
  unfold promoteDispatch at h
  rw [if_pos hneg] at h
  simp at h


theorem GroupPromoteServer_found (env : Env) (k addr : String) (w : World)
    (h : (GroupPromoteServer env k addr w).1 = none) : ∃ g, w.groups.get k = some g := by
  cases hg : w.groups.get k with
  | some g => exact ⟨g, rfl⟩
  | none =>
    unfold GroupPromoteServer withLock at h
    have hg' : (w.emit Event.lock).groups.get k = none := hg
    simp [hg'] at h

/-! ### Lemmas on the group map -/

theorem Groups.set_of_get {gs : Groups} {k : String} {g : Group} (h : gs.get k = some g) :
    gs.set k g = gs := by
  induction gs with
  | nil => simp [Groups.get] at h
  | cons kv rest ih =>
    obtain ⟨k', g'⟩ := kv
    by_cases hk : k' = k
    · simp [Groups.get, hk] at h
      simp [Groups.set, hk, h]
    · simp [Groups.get, hk] at h
      simp [Groups.set, hk, ih h]

theorem Groups.set_set (gs : Groups) (k : String) (a b : Group) :
    (gs.set k a).set k b = gs.set k b := by
  induction gs with
  | nil => simp [Groups.set]
  | cons kv rest ih =>
    obtain ⟨k', g'⟩ := kv
    by_cases hk : k' = k
    · simp [Groups.set, hk]
    · simp [Groups.set, hk, ih]

theorem Groups.mem_set {gs : Groups} {k : String} {g : Group} {kv : String × Group}
    (h : kv ∈ gs.set k g) : kv = (k, g) ∨ kv ∈ gs := by
  induction gs with
  | nil => simp [Groups.set] at h; exact Or.inl h
  | cons kv' rest ih =>
    obtain ⟨k', g'⟩ := kv'
    by_cases hk : k' = k
    · simp only [Groups.set, hk, if_true, List.mem_cons] at h
      rcases h with h | h
      · exact Or.inl h
      · exact Or.inr (List.mem_cons_of_mem _ h)
    · simp only [Groups.set, hk, if_false, List.mem_cons] at h
      rcases h with h | h
      · exact Or.inr (h ▸ List.mem_cons_self _ _)
      · rcases ih h with h | h
        · exact Or.inl h
        · exact Or.inr (List.mem_cons_of_mem _ h)

theorem Groups.WF_set {gs : Groups} {k : String} {g : Group} (hwf : gs.WF) (hn : g.name = k) :
    (gs.set k g).WF := by
  intro kv hkv
  rcases Groups.mem_set hkv with h | h
  · rw [h]; exact hn
  · exact hwf kv h

theorem Groups.get_none_set {gs : Groups} {k : String} (h : gs.get k = none) (g : Group) :
    gs.set k g = gs ++ [(k, g)] := by
  induction gs with
  | nil => rfl
  | cons kv rest ih =>
    obtain ⟨k', g'⟩ := kv
    by_cases hk : k' = k
    · simp [Groups.get, hk] at h
    · simp [Groups.get, hk] at h
      simp [Groups.set, hk, ih h]

theorem Groups.addrs_append (a b : Groups) :
    Groups.addrs (a ++ b) = Groups.addrs a ++ Groups.addrs b := by
  induction a with
  | nil => rfl
  | cons kv rest ih => simp [Groups.addrs, ih]

/-- Writing under an existing key replaces one segment of the address list. -/
theorem Groups.addrs_set {gs : Groups} {k : String} {g : Group} (h : gs.get k = some g) :
    ∃ A B, Groups.addrs gs = A ++ (g.servers.map (fun s => s.addr) ++ B) ∧
      ∀ g' : Group, Groups.addrs (gs.set k g') =
        A ++ (g'.servers.map (fun s => s.addr) ++ B) := by
  induction gs with
  | nil => simp [Groups.get] at h
  | cons kv rest ih =>
    obtain ⟨k', g₀⟩ := kv
    by_cases hk : k' = k
    · simp [Groups.get, hk] at h
      subst h
      exact ⟨[], Groups.addrs rest, by simp [Groups.addrs], by
        intro g'; simp [Groups.set, hk, Groups.addrs]⟩
    · simp [Groups.get, hk] at h
      obtain ⟨A, B, h1, h2⟩ := ih h
      refine ⟨g₀.servers.map (fun s => s.addr) ++ A, B, ?_, ?_⟩
      · simp [Groups.addrs, h1]
      · intro g'; simp [Groups.set, hk, Groups.addrs, h2]

/-- Address uniqueness survives a write under an existing key when the new
record's addresses are distinct and each is an old address of that group or
occurs in no group. -/
theorem AddrUnique_set {gs : Groups} {k : String} {g g' : Group} (hu : AddrUnique gs)
    (h : gs.get k = some g) (hnd : (g'.servers.map (fun s => s.addr)).Nodup)
    (hsrc : ∀ a ∈ g'.servers.map (fun s => s.addr),
      a ∈ g.servers.map (fun s => s.addr) ∨ a ∉ Groups.addrs gs) :
    AddrUnique (gs.set k g') := by
  obtain ⟨A, B, h1, h2⟩ := Groups.addrs_set h
  unfold AddrUnique at hu ⊢
  rw [h2 g']
  rw [h1] at hu hsrc
  rw [List.nodup_append] at hu ⊢
  obtain ⟨hA, hXB, hdis⟩ := hu
  rw [List.nodup_append] at hXB ⊢
  obtain ⟨hX, hB, hdis2⟩ := hXB
  refine ⟨hA, ⟨hnd, hB, ?_⟩, ?_⟩
  · intro a ha hb
    rcases hsrc a ha with h | h
    · exact hdis2 h hb
    · exact h (by simp [hb])
  · intro a ha hb
    rcases List.mem_append.mp hb with hb | hb
    · rcases hsrc a hb with h | h
      · exact hdis ha (by simp [h])
      · exact h (by simp [ha])
    · exact hdis ha (by simp [hb])

theorem Reordered.refl (g : Group) : Reordered g g :=
  ⟨rfl, List.Perm.refl _, fun h => Or.inl h, fun h => h⟩

theorem Reordered.trans {a b c : Group} (h1 : Reordered a b) (h2 : Reordered b c) :
    Reordered a c := by
  obtain ⟨n1, p1, o1, f1⟩ := h1
  obtain ⟨n2, p2, o2, f2⟩ := h2
  refine ⟨n2.trans n1, p2.trans p1, ?_, fun h => f2 (f1 h)⟩
  intro hc
  rcases o2 hc with h | h
  · exact o1 h
  · right
    intro ha
    apply h
    have := p1.length_eq
    rw [ha] at this
    exact List.length_eq_zero.mp this

theorem perm_cons_set {a b : GroupServer} :
    ∀ (t : List GroupServer) (j : Nat), t[j]? = some b → (b :: t.set j a).Perm (a :: t)
  | [], j, h => by simp at h
  | c :: t, 0, h => by
    simp at h; subst h
    simpa using List.Perm.swap a c t
  | c :: t, j + 1, h => by
    simp at h
    have ih : (b :: t.set j a).Perm (a :: t) := perm_cons_set t j h
    simp only [List.set_cons_succ]
    exact (List.Perm.swap c b _).trans (((List.Perm.cons c ih)).trans (List.Perm.swap a c t))

theorem swapServers_perm (l : List GroupServer) (i : Nat) : (swapServers l i).Perm l := by
  unfold swapServers
  split
  · rename_i a b h0 hi
    cases l with
    | nil => simp at h0
    | cons x t =>
      simp at h0; subst h0
      cases i with
      | zero => simp at hi; subst hi; simp
      | succ j =>
        simp at hi
        simpa using perm_cons_set t j hi
  · exact List.Perm.refl _

theorem groupMapper.Update_groups_same (env : Env) (g : Group) (w : World)
    (h : w.groups.get g.name = some g) : (groupMapper.Update env g w).2.groups = w.groups := by
  rw [groupMapper.Update_groups]
  split_ifs
  · exact Groups.set_of_get h
  · rfl

theorem withLock_groups (body : World → Option Err × World) (w : World) :
    (withLock body w).2.groups = (body (w.emit Event.lock)).2.groups := rfl

theorem withLock_fst (body : World → Option Err × World) (w : World) :
    (withLock body w).1 = (body (w.emit Event.lock)).1 := rfl

/-- The effect of `resyncGroup` on the group map is one write of the group the
pointer now sees. -/
theorem resyncGroup_effect (env : Env) (k : String) (g : Group) (w : World)
    (hg : w.groups.get k = some g) (hn : g.name = k) :
    (resyncGroup env k g w).2.2.groups = w.groups.set k (resyncGroup env k g w).2.1 ∧
    Reordered g (resyncGroup env k g w).2.1 := by
  unfold resyncGroup
  split
  · exact ⟨(Groups.set_of_get hg).symm, Reordered.refl g⟩
  · rename_i s0 rest hs
    dsimp only
    split
    · have hrel : Reordered g { g with outOfSync := true } :=
        ⟨rfl, List.Perm.refl _, fun _ => Or.inr (by rw [hs]; simp), fun h => h⟩
      have hU : (groupMapper.Update env { g with outOfSync := true }
          ((resyncLoop env g.name s0.addr g.servers 0 [] w).2.setGroup k
            { g with outOfSync := true })).2.groups =
          w.groups.set k { g with outOfSync := true } := by
        rw [groupMapper.Update_groups_same]
        · simp [World.setGroup, resyncLoop_groups]
        · simp only [World.setGroup, hn]
          exact Groups.get_set_self _ _ _
      split
      · exact ⟨hU, hrel⟩
      · exact ⟨hU, hrel⟩
    · exact ⟨by rw [resyncLoop_groups]; exact (Groups.set_of_get hg).symm, Reordered.refl g⟩

/-- A write through the pointer followed by `groupMapper.Update` and the rest
of the function amounts to one write of the group map. -/
theorem writeThrough_effect (env : Env) (k : String) (g1 : Group) (w : World)
    (rest : World → Option Err × World) (hn : g1.name = k)
    (hrest : ∀ w1 : World, w1.groups.get k = some g1 →
      ∃ g', (rest w1).2.groups = w1.groups.set k g' ∧ Reordered g1 g') :
    ∃ g', (thenDo (groupMapper.Update env g1 (w.setGroup k g1)) rest).2.groups =
        w.groups.set k g' ∧ Reordered g1 g' := by
  have hget : (w.setGroup k g1).groups.get g1.name = some g1 := by
    rw [hn]; exact Groups.get_set_self _ _ _
  have hU := groupMapper.Update_groups_same env g1 (w.setGroup k g1) hget
  cases hu : (groupMapper.Update env g1 (w.setGroup k g1)).1 with
  | some e =>
    rw [thenDo_some hu]
    exact ⟨g1, hU, Reordered.refl g1⟩
  | none =>
    rw [thenDo_of_none hu]
    have hget1 : (groupMapper.Update env g1 (w.setGroup k g1)).2.groups.get k = some g1 := by
      rw [hU]; exact Groups.get_set_self _ _ _
    obtain ⟨g', h1, h2⟩ := hrest _ hget1
    refine ⟨g', ?_, h2⟩
    rw [h1, hU]
    exact Groups.set_set _ _ _ _

theorem promoteFinished_effect (env : Env) (k : String) (g : Group) (w : World)
    (hg : w.groups.get k = some g) (hn : g.name = k) :
    ∃ g', (promoteFinished env g w).2.groups = w.groups.set k g' ∧ Reordered g g' := by
  unfold promoteFinished
  rw [groupMapper.Update_groups]
  split_ifs
  · refine ⟨finishedRecord g, ?_, rfl, List.Perm.refl _, ?_, fun _ _ => rfl⟩
    · show w.groups.set g.name (finishedRecord g) = _
      rw [hn]
    · intro h; simp [finishedRecord] at h
  · exact ⟨g, (Groups.set_of_get hg).symm, Reordered.refl g⟩

theorem sentinelMapper.Update_keeps_groups (env : Env) (s : Sentinel) (w : World) :
    (sentinelMapper.Update env s w).2.groups = w.groups := by
  unfold sentinelMapper.Update
  by_cases h : env.ok w.trace.length <;> simp [h, World.emit]

theorem promoteSentinel_groups (env : Env) (g : Group) (w : World) :
    (promoteSentinel env g w).2.groups = w.groups := by
  unfold promoteSentinel
  split_ifs
  · cases hu : (sentinelMapper.Update env { w.sentinel with outOfSync := true }
        { w with sentinel := { w.sentinel with outOfSync := true } }).1 with
    | some e => rw [thenDo_some hu]; exact sentinelMapper.Update_keeps_groups _ _ _
    | none =>
      rw [thenDo_of_none hu]
      exact sentinelMapper.Update_keeps_groups _ _ _
  · rfl

theorem promotePrepared_effect (env : Env) (k : String) (g : Group) (w : World)
    (hg : w.groups.get k = some g) (hn : g.name = k) :
    ∃ g', (promotePrepared env k g w).2.groups = w.groups.set k g' ∧ Reordered g g' := by
  unfold promotePrepared
  cases hp : (promoteSentinel env g w).1 with
  | some e =>
    rw [thenDo_some hp, promoteSentinel_groups]
    exact ⟨g, (Groups.set_of_get hg).symm, Reordered.refl g⟩
  | none =>
    rw [thenDo_of_none hp]
    have hr0 : Reordered g (promotedGroup g) :=
      ⟨rfl, swapServers_perm _ _, fun h => Or.inl h, fun _ _ => rfl⟩
    obtain ⟨g', h1, h2⟩ := writeThrough_effect env k (promotedGroup g) (promoteSentinel env g w).2
      (fun w2 => promoteFinished env (resyncGroup env k (promotedGroup g) w2).2.1
        (resyncGroup env k (promotedGroup g) w2).2.2) hn (by
        intro w2 hw2
        obtain ⟨e1, e2⟩ := resyncGroup_effect env k (promotedGroup g) w2 hw2 hn
        obtain ⟨g'', f1, f2⟩ := promoteFinished_effect env k
          (resyncGroup env k (promotedGroup g) w2).2.1
          (resyncGroup env k (promotedGroup g) w2).2.2
          (by rw [e1]; exact Groups.get_set_self _ _ _)
          (by rw [resyncGroup_name]; exact hn)
        refine ⟨g'', ?_, e2.trans f2⟩
        rw [f1, e1]
        exact Groups.set_set _ _ _ _)
    refine ⟨g', ?_, hr0.trans h2⟩
    rw [h1, promoteSentinel_groups]

theorem promotePreparing_effect (env : Env) (k : String) (g : Group) (w : World)
    (hn : g.name = k) :
    ∃ g', (promotePreparing env k g w).2.groups = w.groups.set k g' ∧ Reordered g g' := by
  unfold promotePreparing
  obtain ⟨g', h1, h2⟩ := writeThrough_effect env k
    { g with promoting := ⟨g.promoting.index, ActionPrepared⟩ } w
    (fun w1 => promotePrepared env k { g with promoting := ⟨g.promoting.index, ActionPrepared⟩ } w1)
    hn (fun w1 hw1 => promotePrepared_effect env k _ w1 hw1 hn)
  exact ⟨g', h1, (show Reordered g { g with promoting := ⟨g.promoting.index, ActionPrepared⟩ } from
    ⟨rfl, List.Perm.refl _, fun h => Or.inl h, fun _ hs => absurd (show ActionPrepared = ActionFinished from hs) (by decide)⟩).trans h2⟩

theorem promoteNothing_effect (env : Env) (k : String) (g : Group) (index : Int) (w : World)
    (hn : g.name = k) :
    ∃ g', (promoteNothing env k g index w).2.groups = w.groups.set k g' ∧ Reordered g g' := by
  unfold promoteNothing
  obtain ⟨g', h1, h2⟩ := writeThrough_effect env k
    { g with promoting := ⟨index, ActionPreparing⟩ } w
    (fun w1 => promotePreparing env k { g with promoting := ⟨index, ActionPreparing⟩ } w1)
    hn (fun w1 _ => promotePreparing_effect env k _ w1 hn)
  exact ⟨g', h1, (show Reordered g { g with promoting := ⟨index, ActionPreparing⟩ } from
    ⟨rfl, List.Perm.refl _, fun h => Or.inl h, fun _ hs => absurd (show ActionPreparing = ActionFinished from hs) (by decide)⟩).trans h2⟩

theorem promoteDispatch_effect (env : Env) (k addr : String) (g : Group) (w : World)
    (hg : w.groups.get k = some g) (hn : g.name = k) :
    ∃ g', (promoteDispatch env k addr g w).2.groups = w.groups.set k g' ∧ Reordered g g' := by
  have hsame : ∃ g', w.groups = w.groups.set k g' ∧ Reordered g g' :=
    ⟨g, (Groups.set_of_get hg).symm, Reordered.refl g⟩
  unfold promoteDispatch
  split_ifs
  · exact hsame
  · exact hsame
  · exact hsame
  · exact promoteNothing_effect env k g _ w hn
  · exact promotePreparing_effect env k g w hn
  · exact promotePrepared_effect env k g w hg hn
  · exact promoteFinished_effect env k g w hg hn
  · exact hsame

/-- The effect of `GroupPromoteServer` on the group map: nothing, or one write
under the key of the group with a reordered record. -/
theorem GroupPromoteServer_effect (env : Env) (k addr : String) (w : World) (hwf : w.groups.WF) :
    (GroupPromoteServer env k addr w).2.groups = w.groups ∨
    ∃ g g', w.groups.get k = some g ∧
      (GroupPromoteServer env k addr w).2.groups = w.groups.set k g' ∧ Reordered g g' := by
  unfold GroupPromoteServer
  rw [withLock_groups]
  cases hg : w.groups.get k with
  | none =>
    left
    have hg' : (w.emit Event.lock).groups.get k = none := hg
    simp only [hg']
    rfl
  | some g =>
    right
    have hg' : (w.emit Event.lock).groups.get k = some g := hg
    simp only [hg']
    obtain ⟨g', h1, h2⟩ := promoteDispatch_effect env k addr g (w.emit Event.lock) hg'
      (Groups.name_of_get hwf hg)
    exact ⟨g, g', rfl, h1, h2⟩

/-! ### Invariants under one write -/

theorem Groups.addrs_mem_of_get {gs : Groups} {k : String} {g : Group} (h : gs.get k = some g)
    {a : String} (ha : a ∈ g.servers.map (fun s => s.addr)) : a ∈ Groups.addrs gs := by
  obtain ⟨A, B, h1, -⟩ := Groups.addrs_set h
  rw [h1]; simp only [List.mem_append]; exact Or.inr (Or.inl ha)

theorem Groups.addrs_nodup_of_get {gs : Groups} {k : String} {g : Group} (hu : AddrUnique gs)
    (h : gs.get k = some g) : (g.servers.map (fun s => s.addr)).Nodup := by
  obtain ⟨A, B, h1, -⟩ := Groups.addrs_set h
  unfold AddrUnique at hu
  rw [h1] at hu
  exact ((List.nodup_append.mp (List.nodup_append.mp hu).2.1).1)

theorem AddrUnique_set_sublist {gs : Groups} {k : String} {g g' : Group} (hu : AddrUnique gs)
    (h : gs.get k = some g) (hs : g'.servers.Sublist g.servers) : AddrUnique (gs.set k g') := by
  have hm : (g'.servers.map (fun s => s.addr)).Sublist (g.servers.map (fun s => s.addr)) :=
    hs.map _
  exact AddrUnique_set hu h (List.Nodup.sublist hm (Groups.addrs_nodup_of_get hu h))
    (fun a ha => Or.inl (hm.subset ha))

theorem AddrUnique_set_perm {gs : Groups} {k : String} {g g' : Group} (hu : AddrUnique gs)
    (h : gs.get k = some g) (hp : g'.servers.Perm g.servers) : AddrUnique (gs.set k g') := by
  have hm : (g'.servers.map (fun s => s.addr)).Perm (g.servers.map (fun s => s.addr)) :=
    hp.map _
  exact AddrUnique_set hu h (hm.nodup_iff.mpr (Groups.addrs_nodup_of_get hu h))
    (fun a ha => Or.inl (hm.subset ha))

theorem EmptyInSync_set {gs : Groups} {k : String} {g' : Group} (he : EmptyInSync gs)
    (h' : g'.servers = [] → g'.outOfSync = false) : EmptyInSync (gs.set k g') := by
  intro kv hkv
  rcases Groups.mem_set hkv with h | h
  · rw [h]; exact h'
  · exact he kv h

/-- A reordering write keeps the three invariants of the group map. -/
theorem Reordered.preserves {gs : Groups} {k : String} {g g' : Group} (h : gs.get k = some g)
    (hn : g.name = k) (hr : Reordered g g') :
    (gs.WF → (gs.set k g').WF) ∧ (AddrUnique gs → AddrUnique (gs.set k g')) ∧
    (EmptyInSync gs → EmptyInSync (gs.set k g')) := by
  obtain ⟨r1, r2, r3, -⟩ := hr
  refine ⟨fun hwf => Groups.WF_set hwf (r1.trans hn), fun hu => AddrUnique_set_perm hu h r2, ?_⟩
  intro he
  apply EmptyInSync_set he
  intro hempty
  have hge : g.servers = [] := by
    have := r2.length_eq
    rw [hempty] at this
    exact List.length_eq_zero.mp this.symm
  have hgo : g.outOfSync = false := he (k, g) (Groups.mem_of_get h) hge
  cases ho : g'.outOfSync with
  | false => rfl
  | true =>
    rcases r3 ho with h1 | h1
    · rw [hgo] at h1; exact absurd h1 (by decide)
    · exact absurd hge h1

/-! ### Effects of the remaining operations on the group map -/

theorem outOfSyncBySentinel_groups (env : Env) (w : World) :
    (outOfSyncBySentinel env w).2.groups = w.groups := by
  unfold outOfSyncBySentinel
  split_ifs
  · exact sentinelMapper.Update_keeps_groups _ _ _
  · rfl

theorem refreshGSLBBackendInfo_groups (env : Env) (w : World) :
    (refreshGSLBBackendInfo env w).2.groups = w.groups := rfl

/-- A write through the pointer, the store update and a rest that leaves the
group map alone amount to that one write. -/
theorem writeThrough_groups (env : Env) (k : String) (g1 : Group) (w : World)
    (rest : World → Option Err × World) (hn : g1.name = k)
    (hrest : ∀ w1 : World, (rest w1).2.groups = w1.groups) :
    (thenDo (groupMapper.Update env g1 (w.setGroup k g1)) rest).2.groups = w.groups.set k g1 := by
  have hget : (w.setGroup k g1).groups.get g1.name = some g1 := by
    rw [hn]; exact Groups.get_set_self _ _ _
  have hU := groupMapper.Update_groups_same env g1 (w.setGroup k g1) hget
  cases hu : (groupMapper.Update env g1 (w.setGroup k g1)).1 with
  | some e => rw [thenDo_some hu]; exact hU
  | none => rw [thenDo_of_none hu, hrest]; exact hU

theorem serverExists_iff (gs : Groups) (addr : String) :
    serverExists gs addr = true ↔ addr ∈ Groups.addrs gs := by
  induction gs with
  | nil => simp [serverExists, Groups.addrs]
  | cons kv rest ih =>
    unfold serverExists at ih ⊢
    simp only [List.any_cons, Bool.or_eq_true, ih, Groups.addrs, List.mem_append]
    constructor
    · rintro (h | h)
      · left
        simp only [List.any_eq_true, decide_eq_true_eq] at h
        obtain ⟨s, hs, rfl⟩ := h
        exact List.mem_map_of_mem _ hs
      · exact Or.inr h
    · rintro (h | h)
      · left
        simp only [List.any_eq_true, decide_eq_true_eq]
        obtain ⟨s, hs, rfl⟩ := List.mem_map.mp h
        exact ⟨s, hs, rfl⟩
      · exact Or.inr h

theorem AddGroupServer_effect (env : Env) (k addr : String) (w : World) (hwf : w.groups.WF) :
    (AddGroupServer env k addr w).2.groups = w.groups ∨
    ∃ g, serverExists w.groups addr = false ∧ w.groups.get k = some g ∧
      (AddGroupServer env k addr w).2.groups =
        w.groups.set k { g with servers := g.servers ++ [⟨addr⟩] } := by
  by_cases h0 : addr = ""
  · left; unfold AddGroupServer; rw [if_pos h0]
  cases hex : serverExists w.groups addr with
  | true =>
    left
    unfold AddGroupServer
    rw [if_neg h0, withLock_groups]
    have hse : serverExists (w.emit Event.lock).groups addr = true := hex
    simp only [hse, if_true]
    rfl
  | false =>
    have hse : serverExists (w.emit Event.lock).groups addr = false := hex
    cases hg : w.groups.get k with
    | none =>
      left
      have hg' : (w.emit Event.lock).groups.get k = none := hg
      unfold AddGroupServer
      rw [if_neg h0, withLock_groups]
      simp only [hse, hg']
      rfl
    | some g =>
      have hg' : (w.emit Event.lock).groups.get k = some g := hg
      have hdef : (AddGroupServer env k addr w).2.groups =
          (thenDo (outOfSyncBySentinel env (w.emit Event.lock)) fun w1 =>
            thenDo (groupMapper.Update env { g with servers := g.servers ++ [⟨addr⟩] }
              (w1.setGroup k { g with servers := g.servers ++ [⟨addr⟩] })) fun w2 =>
            refreshGSLBBackendInfo env w2).2.groups := by
        unfold AddGroupServer
        rw [if_neg h0, withLock_groups]
        simp only [hse, hg']
        rfl
      rw [hdef]
      cases ho : (outOfSyncBySentinel env (w.emit Event.lock)).1 with
      | some e =>
        left
        rw [thenDo_some ho]
        exact outOfSyncBySentinel_groups _ _
      | none =>
        right
        refine ⟨g, rfl, rfl, ?_⟩
        rw [thenDo_of_none ho]
        have := writeThrough_groups env k { g with servers := g.servers ++ [⟨addr⟩] }
          (outOfSyncBySentinel env (w.emit Event.lock)).2 (fun w2 => refreshGSLBBackendInfo env w2)
          (show g.name = k from Groups.name_of_get hwf hg)
          (fun w1 => refreshGSLBBackendInfo_groups env w1)
        rw [this, outOfSyncBySentinel_groups]
        rfl

theorem DelGroupServer_effect (env : Env) (k addr : String) (w : World) (hwf : w.groups.WF) :
    (DelGroupServer env k addr w).2.groups = w.groups ∨
    ∃ g, w.groups.get k = some g ∧ g.GetServerIndex addr ≠ -1 ∧
      ¬ (g.GetServerIndex addr = 0 ∧ g.servers.length > 1) ∧
      (DelGroupServer env k addr w).2.groups =
        w.groups.set k (delServerAt g (g.GetServerIndex addr)) := by
  unfold DelGroupServer
  rw [withLock_groups]
  cases hg : w.groups.get k with
  | none =>
    have hg' : (w.emit Event.lock).groups.get k = none := hg
    simp only [hg']
    exact Or.inl rfl
  | some g =>
    have hg' : (w.emit Event.lock).groups.get k = some g := hg
    simp only [hg']
    split_ifs with h1 h2
    · exact Or.inl rfl
    · exact Or.inl rfl
    · cases ho : (outOfSyncBySentinel env (w.emit Event.lock)).1 with
      | some e =>
        left
        rw [thenDo_some ho]
        exact outOfSyncBySentinel_groups _ _
      | none =>
        right
        refine ⟨g, rfl, h1, h2, ?_⟩
        have hn : (delServerAt g (g.GetServerIndex addr)).name = k := by
          rw [← Groups.name_of_get hwf hg]
          unfold delServerAt
          dsimp only
          split_ifs <;> rfl
        rw [thenDo_of_none ho]
        have := writeThrough_groups env k (delServerAt g (g.GetServerIndex addr))
          (outOfSyncBySentinel env (w.emit Event.lock)).2 (fun w2 => refreshGSLBBackendInfo env w2)
          hn (fun w1 => refreshGSLBBackendInfo_groups env w1)
        rw [this, outOfSyncBySentinel_groups]
        rfl

theorem groupMapper.Create_groups (env : Env) (g : Group) (w : World) :
    (groupMapper.Create env g w).2.groups =
      if (groupMapper.Create env g w).1 = none then w.groups.set g.name g else w.groups := by
  unfold groupMapper.Create
  by_cases h : env.ok w.trace.length <;> simp [h, World.emit, World.setGroup]

theorem groupMapper.Remove_groups (env : Env) (g : Group) (w : World) :
    (groupMapper.Remove env g w).2.groups =
      if (groupMapper.Remove env g w).1 = none then w.groups.delete g.name else w.groups := by
  unfold groupMapper.Remove
  by_cases h : env.ok w.trace.length <;> simp [h, World.emit]

/-- A `CreateGroup` that returns nil passed every test and appended the new
record to the group map. -/
theorem CreateGroup_ok (env : Env) (name : String) (rPort wPort : Int) (w : World)
    (h : (CreateGroup env name rPort wPort w).1 = none) :
    name ≠ "" ∧ name.length ≤ MAXGroupNameBytesLength ∧ rPort ≠ wPort ∧
    w.groups.get name = none ∧
    w.groups.any (fun kv => portClash rPort wPort kv.2) = false ∧
    (CreateGroup env name rPort wPort w).2.groups = w.groups ++
      [(name, { name := name, servers := [], promoting := ⟨0, ActionNothing⟩,
                outOfSync := false, proxyReadPort := rPort, proxyWritePort := wPort,
                createTime := env.now })] := by
  unfold CreateGroup at h ⊢
  by_cases h1 : name = "" ∨ name.length > MAXGroupNameBytesLength
  · rw [if_pos h1] at h; simp at h
  rw [if_neg h1] at h ⊢
  by_cases h2 : rPort = wPort
  · rw [if_pos h2] at h; simp at h
  rw [if_neg h2] at h ⊢
  rw [withLock_fst] at h
  rw [withLock_groups]
  have e1 : (w.emit Event.lock).groups = w.groups := rfl
  simp only [e1] at h ⊢
  by_cases h3 : (w.groups.get name).isSome = true
  · rw [if_pos h3] at h; simp at h
  rw [if_neg h3] at h ⊢
  by_cases h4 : w.groups.any (fun kv => portClash rPort wPort kv.2) = true
  · rw [if_pos h4] at h; simp at h
  rw [if_neg h4] at h ⊢
  have hnone : w.groups.get name = none := by
    cases hget : w.groups.get name with
    | none => rfl
    | some g => rw [hget] at h3; simp at h3
  refine ⟨fun hn => h1 (Or.inl hn), by omega, h2, hnone, by simpa using h4, ?_⟩
  rw [groupMapper.Create_groups, if_pos h, e1]
  exact Groups.get_none_set hnone _

theorem CreateGroup_effect (env : Env) (name : String) (rPort wPort : Int) (w : World) :
    (CreateGroup env name rPort wPort w).2.groups = w.groups ∨
    (CreateGroup env name rPort wPort w).1 = none := by
  cases h : (CreateGroup env name rPort wPort w).1 with
  | none => exact Or.inr rfl
  | some e =>
    left
    unfold CreateGroup at h ⊢
    by_cases h1 : name = "" ∨ name.length > MAXGroupNameBytesLength
    · rw [if_pos h1]
    rw [if_neg h1] at h ⊢
    by_cases h2 : rPort = wPort
    · rw [if_pos h2]
    rw [if_neg h2] at h ⊢
    rw [withLock_fst] at h
    rw [withLock_groups]
    have e1 : (w.emit Event.lock).groups = w.groups := rfl
    simp only [e1] at h ⊢
    by_cases h3 : (w.groups.get name).isSome = true
    · rw [if_pos h3]; rfl
    rw [if_neg h3] at h ⊢
    by_cases h4 : w.groups.any (fun kv => portClash rPort wPort kv.2) = true
    · rw [if_pos h4]; rfl
    rw [if_neg h4] at h ⊢
    rw [groupMapper.Create_groups, if_neg (by rw [h]; simp)]
    rfl

theorem RemoveGroup_effect (env : Env) (k : String) (w : World) :
    (RemoveGroup env k w).2.groups = w.groups ∨
    ∃ g, w.groups.get k = some g ∧ g.servers = [] ∧
      (RemoveGroup env k w).2.groups = w.groups.delete g.name := by
  unfold RemoveGroup
  rw [withLock_groups]
  cases hg : w.groups.get k with
  | none =>
    have hg' : (w.emit Event.lock).groups.get k = none := hg
    simp only [hg']
    exact Or.inl rfl
  | some g =>
    have hg' : (w.emit Event.lock).groups.get k = some g := hg
    simp only [hg']
    split_ifs with h1
    · exact Or.inl rfl
    · rw [groupMapper.Remove_groups]
      split_ifs
      · right
        exact ⟨g, rfl, List.length_eq_zero.mp (by simpa using h1), rfl⟩
      · exact Or.inl rfl

theorem ResyncGroup_effect (env : Env) (k : String) (w : World) (hwf : w.groups.WF) :
    (ResyncGroup env k w).2.groups = w.groups ∨
    ∃ g g', w.groups.get k = some g ∧
      (ResyncGroup env k w).2.groups = w.groups.set k g' ∧ Reordered g g' := by
  unfold ResyncGroup
  rw [withLock_groups]
  cases hg : w.groups.get k with
  | none =>
    have hg' : (w.emit Event.lock).groups.get k = none := hg
    simp only [hg']
    exact Or.inl rfl
  | some g =>
    right
    have hg' : (w.emit Event.lock).groups.get k = some g := hg
    simp only [hg']
    have hn : g.name = k := Groups.name_of_get hwf hg
    obtain ⟨g', h1, h2⟩ := writeThrough_effect env k { g with outOfSync := false }
      (w.emit Event.lock)
      (fun w1 => ((resyncGroup env k { g with outOfSync := false } w1).1,
        (resyncGroup env k { g with outOfSync := false } w1).2.2)) hn
      (fun w1 hw1 => ⟨_, (resyncGroup_effect env k _ w1 hw1 hn).1,
        (resyncGroup_effect env k _ w1 hw1 hn).2⟩)
    exact ⟨g, g', rfl, h1, (show Reordered g { g with outOfSync := false } from
      ⟨rfl, List.Perm.refl _, fun h => by simp at h, fun h => h⟩).trans h2⟩

theorem switchIndex_nil (env : Env) (g : Group) (m : String) (h : g.servers = []) :
    switchIndex env g m = -1 := by
  unfold switchIndex
  rw [h]
  simp [getServerIndexFrom, runIdIndexFrom]

theorem trySwitchGroupMaster_effect (env : Env) (k m : String) (w : World) (hwf : w.groups.WF) :
    (trySwitchGroupMaster env k m w).2.groups = w.groups ∨
    ∃ g g', w.groups.get k = some g ∧
      (trySwitchGroupMaster env k m w).2.groups = w.groups.set k g' ∧ Reordered g g' := by
  unfold trySwitchGroupMaster
  cases hg : w.groups.get k with
  | none => exact Or.inl rfl
  | some g =>
    dsimp only
    split_ifs with h1 h2
    · exact Or.inl rfl
    · exact Or.inl rfl
    · right
      have hne : g.servers ≠ [] := fun h => h1 (switchIndex_nil env g m h)
      refine ⟨g, switchedGroup g (switchIndex env g m), rfl, ?_, rfl, swapServers_perm _ _,
        fun _ => Or.inr hne, fun h => h⟩
      exact writeThrough_groups env k _ w _ (show g.name = k from Groups.name_of_get hwf hg)
        (fun w1 => refreshGSLBBackendInfo_groups env w1)

/-- An operation whose effect on the group map is nothing or one reordering
write keeps the invariants of the map. -/
theorem Reordered.effect_preserves {gs gs' : Groups} {k : String}
    (heff : gs' = gs ∨ ∃ g g', gs.get k = some g ∧ gs' = gs.set k g' ∧ Reordered g g')
    (hwf : gs.WF) :
    gs'.WF ∧ (AddrUnique gs → AddrUnique gs') ∧ (EmptyInSync gs → EmptyInSync gs') := by
  rcases heff with h | ⟨g, g', h1, h2, h3⟩
  · rw [h]; exact ⟨hwf, id, id⟩
  · rw [h2]
    have := Reordered.preserves h1 (Groups.name_of_get hwf h1) h3
    exact ⟨this.1 hwf, this.2.1, this.2.2⟩

theorem switchLoop_preserves (env : Env) (masters : List (String × String)) (w : World)
    (hwf : w.groups.WF) :
    (masters.foldl (fun acc kv => (trySwitchGroupMaster env kv.1 kv.2 acc).2) w).groups.WF ∧
    (AddrUnique w.groups → AddrUnique
      (masters.foldl (fun acc kv => (trySwitchGroupMaster env kv.1 kv.2 acc).2) w).groups) ∧
    (EmptyInSync w.groups → EmptyInSync
      (masters.foldl (fun acc kv => (trySwitchGroupMaster env kv.1 kv.2 acc).2) w).groups) := by
  induction masters generalizing w with
  | nil => exact ⟨hwf, id, id⟩
  | cons kv rest ih =>
    simp only [List.foldl_cons]
    have h1 := Reordered.effect_preserves (trySwitchGroupMaster_effect env kv.1 kv.2 w hwf) hwf
    have h2 := ih (trySwitchGroupMaster env kv.1 kv.2 w).2 h1.1
    exact ⟨h2.1, fun h => h2.2.1 (h1.2.1 h), fun h => h2.2.2 (h1.2.2 h)⟩

theorem switchMasters_preserves (env : Env) (masters : List (String × String)) (w : World)
    (hwf : w.groups.WF) :
    (switchMasters env masters w).2.groups.WF ∧
    (AddrUnique w.groups → AddrUnique (switchMasters env masters w).2.groups) ∧
    (EmptyInSync w.groups → EmptyInSync (switchMasters env masters w).2.groups) := by
  unfold switchMasters
  rw [withLock_groups]
  split_ifs
  · exact ⟨hwf, id, id⟩
  · exact switchLoop_preserves env masters _ hwf

theorem delServerAt_name (g : Group) (i : Int) : (delServerAt g i).name = g.name := by
  unfold delServerAt
  dsimp only
  split_ifs <;> rfl

theorem delServerAt_servers (g : Group) (i : Int) :
    (delServerAt g i).servers = g.servers.eraseIdx i.toNat := by
  unfold delServerAt
  dsimp only
  rw [List.eraseIdx_eq_take_drop_succ]
  split_ifs <;> rfl

theorem delServerAt_emptyInSync (g : Group) (i : Int) (h : (delServerAt g i).servers = []) :
    (delServerAt g i).outOfSync = false := by
  unfold delServerAt at h ⊢
  dsimp only at h ⊢
  split_ifs at h ⊢ with h1 h2 h3
  · rfl
  · exact absurd (congrArg List.length h) h2
  · rfl
  · exact absurd (congrArg List.length h) h3

theorem Groups.addrs_delete_sublist (gs : Groups) (k : String) :
    (Groups.addrs (gs.delete k)).Sublist (Groups.addrs gs) := by
  induction gs with
  | nil => exact List.Sublist.refl _
  | cons kv rest ih =>
    unfold Groups.delete at ih ⊢
    rw [List.filter_cons]
    split_ifs
    · exact List.Sublist.append (List.Sublist.refl _) ih
    · exact (ih.trans (List.sublist_append_right _ _))

theorem Groups.mem_delete {gs : Groups} {k : String} {kv : String × Group}
    (h : kv ∈ gs.delete k) : kv ∈ gs := by
  unfold Groups.delete at h
  exact (List.mem_filter.mp h).1

/-! ### C1 -/

/-- C1, the claim as written fails: a record left in state "finished" with a
promoting index other than 0 is accepted for the server at that index, the
call returns nil, and the master is still the old one. -/
theorem GroupPromoteServer_finished_keeps_master :
    (GroupPromoteServer envAllOk "g" "B"
      (mkWorld [mkGroup "g" ["A", "B"] 1 "finished"])).1 = none ∧
    ((GroupPromoteServer envAllOk "g" "B"
      (mkWorld [mkGroup "g" ["A", "B"] 1 "finished"])).2.groups.get "g").map
        (fun g => g.servers.map (fun s => s.addr)) = some ["A", "B"] := by
  decide

/-- C1 (amended): for every state of the group in which the promoting state
"finished" occurs only together with promoting index 0, and every address, if
`GroupPromoteServer` returns nil then afterwards the first server of the group
has that address and promoting is cleared (state "", index 0). -/
theorem GroupPromoteServer_master_is_addr (env : Env) (groupName addr : String) (w : World)
    (hwf : w.groups.WF)
    (hfin : ∀ g, w.groups.get groupName = some g →
      g.promoting.state = ActionFinished → g.promoting.index = 0)
    (hok : (GroupPromoteServer env groupName addr w).1 = none) :
    ∃ g', (GroupPromoteServer env groupName addr w).2.groups.get groupName = some g' ∧
      g'.servers.head?.map (fun s => s.addr) = some addr ∧
      g'.promoting.state = "" ∧ g'.promoting.index = 0 := by
  obtain ⟨g, hg⟩ := GroupPromoteServer_found env groupName addr w hok
  have hname : g.name = groupName := Groups.name_of_get hwf hg
  obtain ⟨hidx, hget⟩ := GroupPromoteServer_get env groupName addr g w hg (hfin g hg) hok
  rw [hname] at hget
  refine ⟨_, hget, ?_, rfl, rfl⟩
  obtain ⟨-, hlt, s, hs, hsa⟩ := GetServerIndex_found g addr hidx
  have h0 := swapServers_get g.servers (g.GetServerIndex addr).toNat 0 hlt
  simp only [finishedRecord, List.head?_eq_getElem?, h0]
  split_ifs with hz
  · rw [← hz] at hs
    simp [hs, hsa]
  · simp [hs, hsa]

/-- C1 (amended), at a group [A, B, C] without promotion, promoted on B. -/
theorem GroupPromoteServer_master_is_addr_witness :
    (mkWorld [mkGroup "g" ["A", "B", "C"] 0 ""]).groups.WF ∧
    (GroupPromoteServer envAllOk "g" "B" (mkWorld [mkGroup "g" ["A", "B", "C"] 0 ""])).1 = none ∧
    ∃ g', (GroupPromoteServer envAllOk "g" "B"
        (mkWorld [mkGroup "g" ["A", "B", "C"] 0 ""])).2.groups.get "g" = some g' ∧
      g'.servers.head?.map (fun s => s.addr) = some "B" ∧
      g'.promoting.state = "" ∧ g'.promoting.index = 0 :=
  ⟨by decide, by decide,
    GroupPromoteServer_master_is_addr envAllOk "g" "B" (mkWorld [mkGroup "g" ["A", "B", "C"] 0 ""])
      (by decide)
      (by
        intro g hg hs
        have hg' : some (mkGroup "g" ["A", "B", "C"] 0 "") = some g := hg
        rw [← Option.some.inj hg']
        rfl)
      (by decide)⟩

/-! ### C2 -/

/-- C2: for a group without promotion in progress and an address found at an
index i > 0, a `GroupPromoteServer` that returns nil leaves a server list of
the same length in which position 0 holds the old entry i, position i the old
entry 0 and every other position its old entry, with promoting equal to
state "" and index 0. -/
theorem GroupPromoteServer_exchanges (env : Env) (groupName addr : String) (w : World)
    (g : Group) (hwf : w.groups.WF) (hg : w.groups.get groupName = some g)
    (hno : g.promoting.state = ActionNothing) (hi : 0 < g.GetServerIndex addr)
    (hok : (GroupPromoteServer env groupName addr w).1 = none) :
    ∃ g', (GroupPromoteServer env groupName addr w).2.groups.get groupName = some g' ∧
      g'.servers.length = g.servers.length ∧
      (∀ j, g'.servers[j]? =
        if j = 0 then g.servers[(g.GetServerIndex addr).toNat]?
        else if j = (g.GetServerIndex addr).toNat then g.servers[0]?
        else g.servers[j]?) ∧
      g'.promoting = ⟨0, ""⟩ := by
  have hname : g.name = groupName := Groups.name_of_get hwf hg
  have hfin : g.promoting.state = ActionFinished → g.promoting.index = 0 := by
    intro h; rw [hno] at h; exact absurd h (by decide)
  obtain ⟨hidx, hget⟩ := GroupPromoteServer_get env groupName addr g w hg hfin hok
  rw [hname] at hget
  obtain ⟨-, hlt, -⟩ := GetServerIndex_found g addr hidx
  refine ⟨_, hget, swapServers_length _ _, ?_, rfl⟩
  intro j
  have hpos : 0 < (g.GetServerIndex addr).toNat := by omega
  simp only [finishedRecord]
  rw [swapServers_get _ _ _ hlt]
  by_cases hj0 : j = 0
  · subst hj0
    simp [Nat.ne_of_lt hpos]
  · simp [hj0]

/-- C2 at the group [A, B, C] promoted on B: the list becomes [B, A, C]. -/
theorem GroupPromoteServer_exchanges_witness :
    ((GroupPromoteServer envAllOk "g" "B"
        (mkWorld [mkGroup "g" ["A", "B", "C"] 0 ""])).2.groups.get "g").map
      (fun g => g.servers.map (fun s => s.addr)) = some ["B", "A", "C"] ∧
    ∃ g', (GroupPromoteServer envAllOk "g" "B"
        (mkWorld [mkGroup "g" ["A", "B", "C"] 0 ""])).2.groups.get "g" = some g' ∧
      g'.servers.length = (mkGroup "g" ["A", "B", "C"] 0 "").servers.length ∧
      (∀ j, g'.servers[j]? =
        if j = 0 then (mkGroup "g" ["A", "B", "C"] 0 "").servers[
          ((mkGroup "g" ["A", "B", "C"] 0 "").GetServerIndex "B").toNat]?
        else if j = ((mkGroup "g" ["A", "B", "C"] 0 "").GetServerIndex "B").toNat then
          (mkGroup "g" ["A", "B", "C"] 0 "").servers[0]?
        else (mkGroup "g" ["A", "B", "C"] 0 "").servers[j]?) ∧
      g'.promoting = ⟨0, ""⟩ :=
  ⟨by decide,
   GroupPromoteServer_exchanges envAllOk "g" "B" (mkWorld [mkGroup "g" ["A", "B", "C"] 0 ""])
    (mkGroup "g" ["A", "B", "C"] 0 "") (by decide) (by decide) (by decide) (by decide)
    (by decide)⟩

/-! ### C3 -/

/-- C3: for an existing group and an address that is a member at index i,
`GroupPromoteServer` returns an error and does nothing but take and release
the lock (group map, sentinel record and store untouched) when a promotion is
in progress and i differs from the promoting index, or when no promotion is in
progress and i is 0. -/
theorem GroupPromoteServer_rejects (env : Env) (groupName addr : String) (w : World)
    (g : Group) (hg : w.groups.get groupName = some g)
    (hmem : g.GetServerIndex addr ≠ -1)
    (hcase : (g.promoting.state ≠ ActionNothing ∧ g.GetServerIndex addr ≠ g.promoting.index) ∨
      (g.promoting.state = ActionNothing ∧ g.GetServerIndex addr = 0)) :
    (GroupPromoteServer env groupName addr w).1 ≠ none ∧
    (GroupPromoteServer env groupName addr w).2 =
      { w with trace := w.trace ++ [Event.lock, Event.unlock] } := by
  unfold GroupPromoteServer withLock
  have hg' : (w.emit Event.lock).groups.get groupName = some g := hg
  simp only [hg']
  unfold promoteDispatch
  rw [if_neg hmem]
  rcases hcase with ⟨h1, h2⟩ | ⟨h1, h2⟩
  · rw [if_pos ⟨h1, h2⟩]
    simp [World.emit]
  · rw [if_neg (by rintro ⟨h, -⟩; exact h h1), if_pos ⟨h1, h2⟩]
    simp [World.emit]

/-- C3 at a group [A, B, C] that is promoting index 1: promoting C (index 2)
is rejected and nothing changes. -/
theorem GroupPromoteServer_rejects_witness :
    (GroupPromoteServer envAllOk "g" "C"
      (mkWorld [mkGroup "g" ["A", "B", "C"] 1 "preparing"])).1 ≠ none ∧
    (GroupPromoteServer envAllOk "g" "C"
      (mkWorld [mkGroup "g" ["A", "B", "C"] 1 "preparing"])).2 =
      { mkWorld [mkGroup "g" ["A", "B", "C"] 1 "preparing"] with
        trace := (mkWorld [mkGroup "g" ["A", "B", "C"] 1 "preparing"]).trace ++
          [Event.lock, Event.unlock] } :=
  GroupPromoteServer_rejects envAllOk "g" "C" (mkWorld [mkGroup "g" ["A", "B", "C"] 1 "preparing"])
    (mkGroup "g" ["A", "B", "C"] 1 "preparing") (by decide) (by decide)
    (Or.inl ⟨by decide, by decide⟩)


/-! ### C4 -/

/-- C4, the code at a failing input: group [A, B] promoted on B while the
`doSyncAction` towards A fails.  `resyncGroup` sets `outOfSync` and stores the
record with `outOfSync = true`; the write of the finished stage that follows
stores a record with `outOfSync = false`, so the final write changes
`outOfSync` besides `promoting`. -/
theorem GroupPromoteServer_final_write_drops_outOfSync :
    (GroupPromoteServer (envFailAt 5) "g" "B" (mkWorld [mkGroup "g" ["A", "B"] 0 ""])).1 = none ∧
    (GroupPromoteServer (envFailAt 5) "g" "B"
        (mkWorld [mkGroup "g" ["A", "B"] 0 ""])).2.trace.drop 4 =
      [Event.doSyncAction "B" "NO:ONE" true, Event.doSyncAction "A" "B" false,
       Event.storeUpdateGroup { mkGroup "g" ["B", "A"] 0 "finished" with outOfSync := true } true,
       Event.storeUpdateGroup (mkGroup "g" ["B", "A"] 0 "") true, Event.unlock] ∧
    ((GroupPromoteServer (envFailAt 5) "g" "B"
        (mkWorld [mkGroup "g" ["A", "B"] 0 ""])).2.groups.get "g").map
      (fun g => g.outOfSync) = some false := by
  decide

/-! ### C5 -/

theorem CreateGroup_addrUnique (env : Env) (name : String) (r wp : Int) (w : World)
    (hu : AddrUnique w.groups) : AddrUnique (CreateGroup env name r wp w).2.groups := by
  rcases CreateGroup_effect env name r wp w with h | h
  · rw [h]; exact hu
  · obtain ⟨-, -, -, -, -, h6⟩ := CreateGroup_ok env name r wp w h
    rw [h6]
    unfold AddrUnique at hu ⊢
    rw [Groups.addrs_append]
    simpa [Groups.addrs] using hu

theorem RemoveGroup_addrUnique (env : Env) (name : String) (w : World)
    (hu : AddrUnique w.groups) : AddrUnique (RemoveGroup env name w).2.groups := by
  rcases RemoveGroup_effect env name w with h | ⟨g, -, -, h⟩
  · rw [h]; exact hu
  · rw [h]
    exact List.Nodup.sublist (Groups.addrs_delete_sublist _ _) hu

theorem AddGroupServer_addrUnique (env : Env) (name addr : String) (w : World)
    (hwf : w.groups.WF) (hu : AddrUnique w.groups) :
    AddrUnique (AddGroupServer env name addr w).2.groups := by
  rcases AddGroupServer_effect env name addr w hwf with h | ⟨g, h1, h2, h3⟩
  · rw [h]; exact hu
  · rw [h3]
    have hfresh : addr ∉ Groups.addrs w.groups := by
      intro hmem
      rw [(serverExists_iff _ _).mpr hmem] at h1
      exact absurd h1 (by decide)
    apply AddrUnique_set hu h2
    · simp only [List.map_append, List.map_cons, List.map_nil]
      rw [List.nodup_append]
      refine ⟨Groups.addrs_nodup_of_get hu h2, by simp, ?_⟩
      intro a ha hb
      simp only [List.mem_singleton] at hb
      subst hb
      exact hfresh (Groups.addrs_mem_of_get h2 ha)
    · intro a ha
      simp only [List.map_append, List.map_cons, List.map_nil, List.mem_append,
        List.mem_singleton] at ha
      rcases ha with ha | ha
      · exact Or.inl ha
      · right; rw [ha]; exact hfresh

theorem DelGroupServer_addrUnique (env : Env) (name addr : String) (w : World)
    (hwf : w.groups.WF) (hu : AddrUnique w.groups) :
    AddrUnique (DelGroupServer env name addr w).2.groups := by
  rcases DelGroupServer_effect env name addr w hwf with h | ⟨g, h1, -, -, h3⟩
  · rw [h]; exact hu
  · rw [h3]
    apply AddrUnique_set_sublist hu h1
    rw [delServerAt_servers]
    exact List.eraseIdx_sublist _ _

theorem AddGroupServer_duplicate (env : Env) (name addr : String) (w : World)
    (h : addr ∈ Groups.addrs w.groups) :
    (AddGroupServer env name addr w).1 ≠ none ∧
    (AddGroupServer env name addr w).2.groups = w.groups := by
  unfold AddGroupServer
  split_ifs
  · simp
  · rw [withLock_fst, withLock_groups]
    have hse : serverExists (w.emit Event.lock).groups addr = true :=
      (serverExists_iff _ _).mpr h
    simp only [hse, if_true]
    exact ⟨by simp, rfl⟩

/-- C5: from a well-formed group map in which every server address occurs at
most once over all groups, `CreateGroup`, `RemoveGroup`, `AddGroupServer`,
`DelGroupServer`, `GroupPromoteServer` and the HA master switch
(`switchMasters`) each leave a map with the same property, whatever they
return; and `AddGroupServer` with an address already present in some group
returns an error and leaves the map as it is. -/
theorem group_operations_keep_addresses_unique (env : Env) (w : World)
    (hwf : w.groups.WF) (hu : AddrUnique w.groups) :
    (∀ name r wp, AddrUnique (CreateGroup env name r wp w).2.groups) ∧
    (∀ name, AddrUnique (RemoveGroup env name w).2.groups) ∧
    (∀ name addr, AddrUnique (AddGroupServer env name addr w).2.groups) ∧
    (∀ name addr, AddrUnique (DelGroupServer env name addr w).2.groups) ∧
    (∀ name addr, AddrUnique (GroupPromoteServer env name addr w).2.groups) ∧
    (∀ masters, AddrUnique (switchMasters env masters w).2.groups) ∧
    (∀ name addr, addr ∈ Groups.addrs w.groups →
      (AddGroupServer env name addr w).1 ≠ none ∧
      (AddGroupServer env name addr w).2.groups = w.groups) :=
  ⟨fun name r wp => CreateGroup_addrUnique env name r wp w hu,
   fun name => RemoveGroup_addrUnique env name w hu,
   fun name addr => AddGroupServer_addrUnique env name addr w hwf hu,
   fun name addr => DelGroupServer_addrUnique env name addr w hwf hu,
   fun name addr =>
     (Reordered.effect_preserves (GroupPromoteServer_effect env name addr w hwf) hwf).2.1 hu,
   fun masters => (switchMasters_preserves env masters w hwf).2.1 hu,
   fun name addr h => AddGroupServer_duplicate env name addr w h⟩

/-- C5 at the two groups g = [A, B] and h = [C]. -/
theorem group_operations_keep_addresses_unique_witness :
    twoGroups.groups.WF ∧ AddrUnique twoGroups.groups ∧
    AddrUnique (AddGroupServer envAllOk "h" "D" twoGroups).2.groups ∧
    (AddGroupServer envAllOk "h" "D" twoGroups).1 = none ∧
    (AddGroupServer envAllOk "h" "A" twoGroups).1 ≠ none :=
  ⟨by decide, by decide,
   (group_operations_keep_addresses_unique envAllOk twoGroups (by decide) (by decide)).2.2.1
     "h" "D",
   by decide,
   ((group_operations_keep_addresses_unique envAllOk twoGroups (by decide) (by decide)).2.2.2.2.2.2
     "h" "A" (by decide)).1⟩


/-! ### C6 -/

theorem portClash_false {r wp : Int} {g : Group} (h : portClash r wp g = false) :
    r ≠ g.proxyReadPort ∧ r ≠ g.proxyWritePort ∧ wp ≠ g.proxyReadPort ∧ wp ≠ g.proxyWritePort := by
  unfold portClash at h
  simp only [Bool.or_eq_false_iff, decide_eq_false_iff_not] at h
  exact ⟨h.1.1, h.1.2, h.2.1, h.2.2⟩

/-- C6: on a group map with pairwise disjoint port sets, a `CreateGroup` that
returns nil was given two different ports neither of which is the read or
write port of an existing group, and leaves a group map whose port sets are
again pairwise disjoint; a `CreateGroup` one of whose ports is a port of an
existing group returns an error and leaves the group map unchanged. -/
theorem CreateGroup_keeps_ports_disjoint (env : Env) (name : String) (r wp : Int) (w : World)
    (hd : PortsDisjoint w.groups) :
    ((CreateGroup env name r wp w).1 = none →
      r ≠ wp ∧
      (∀ kv ∈ w.groups, r ≠ kv.2.proxyReadPort ∧ r ≠ kv.2.proxyWritePort ∧
        wp ≠ kv.2.proxyReadPort ∧ wp ≠ kv.2.proxyWritePort) ∧
      PortsDisjoint (CreateGroup env name r wp w).2.groups) ∧
    ((∃ kv ∈ w.groups, r = kv.2.proxyReadPort ∨ r = kv.2.proxyWritePort ∨
        wp = kv.2.proxyReadPort ∨ wp = kv.2.proxyWritePort) →
      (CreateGroup env name r wp w).1 ≠ none ∧
      (CreateGroup env name r wp w).2.groups = w.groups) := by
  have hkey : (CreateGroup env name r wp w).1 = none →
      r ≠ wp ∧
      (∀ kv ∈ w.groups, r ≠ kv.2.proxyReadPort ∧ r ≠ kv.2.proxyWritePort ∧
        wp ≠ kv.2.proxyReadPort ∧ wp ≠ kv.2.proxyWritePort) ∧
      PortsDisjoint (CreateGroup env name r wp w).2.groups := by
    intro hok
    obtain ⟨-, -, h3, -, h5, h6⟩ := CreateGroup_ok env name r wp w hok
    have hall : ∀ kv ∈ w.groups, r ≠ kv.2.proxyReadPort ∧ r ≠ kv.2.proxyWritePort ∧
        wp ≠ kv.2.proxyReadPort ∧ wp ≠ kv.2.proxyWritePort := by
      intro kv hkv
      apply portClash_false
      cases hc : portClash r wp kv.2 with
      | false => rfl
      | true =>
        have : w.groups.any (fun kv => portClash r wp kv.2) = true :=
          List.any_eq_true.mpr ⟨kv, hkv, hc⟩
        rw [this] at h5
        exact absurd h5 (by decide)
    refine ⟨h3, hall, ?_⟩
    rw [h6]
    unfold PortsDisjoint at hd ⊢
    rw [List.pairwise_append]
    refine ⟨hd, List.pairwise_singleton _ _, ?_⟩
    intro a ha b hb
    simp only [List.mem_singleton] at hb
    subst hb
    obtain ⟨c1, c2, c3, c4⟩ := hall a ha
    exact ⟨Ne.symm c1, Ne.symm c3, Ne.symm c2, Ne.symm c4⟩
  refine ⟨hkey, ?_⟩
  rintro ⟨kv, hkv, hclash⟩
  have hne : (CreateGroup env name r wp w).1 ≠ none := by
    intro hok
    obtain ⟨c1, c2, c3, c4⟩ := (hkey hok).2.1 kv hkv
    rcases hclash with h | h | h | h
    · exact c1 h
    · exact c2 h
    · exact c3 h
    · exact c4 h
  refine ⟨hne, ?_⟩
  rcases CreateGroup_effect env name r wp w with h | h
  · exact h
  · exact absurd h hne

/-- C6 on the scenario of the specification: `CreateGroup("g1", 11000, 12000)`
on an empty product succeeds and keeps ports disjoint; the following
`CreateGroup("g2", 12000, 13000)` fails with the port-conflict error and
leaves the groups unchanged. -/
theorem CreateGroup_keeps_ports_disjoint_witness :
    PortsDisjoint (mkWorld []).groups ∧
    (CreateGroup envAllOk "g1" 11000 12000 (mkWorld [])).1 = none ∧
    PortsDisjoint (CreateGroup envAllOk "g1" 11000 12000 (mkWorld [])).2.groups ∧
    (CreateGroup envAllOk "g2" 12000 13000
      (CreateGroup envAllOk "g1" 11000 12000 (mkWorld [])).2).1 = some Err.portConflict ∧
    (CreateGroup envAllOk "g2" 12000 13000
      (CreateGroup envAllOk "g1" 11000 12000 (mkWorld [])).2).2.groups =
      (CreateGroup envAllOk "g1" 11000 12000 (mkWorld [])).2.groups :=
  ⟨by decide, by decide,
   ((CreateGroup_keeps_ports_disjoint envAllOk "g1" 11000 12000 (mkWorld []) (by decide)).1
     (by decide)).2.2,
   by decide,
   ((CreateGroup_keeps_ports_disjoint envAllOk "g2" 12000 13000
      (CreateGroup envAllOk "g1" 11000 12000 (mkWorld [])).2 (by decide)).2
      ⟨("g1", { name := "g1", servers := [], promoting := ⟨0, ActionNothing⟩,
                outOfSync := false, proxyReadPort := 11000, proxyWritePort := 12000,
                createTime := envAllOk.now }), by decide, Or.inr (Or.inl rfl)⟩).2⟩


/-! ### C7 -/

/-- C7: for every group g registered under its name with more than one
server, `DelGroupServer(g.name, g.servers[0].addr)` returns the error "can't
remove master, still in use" and does nothing but take and release the lock,
so the server list and the `outOfSync` flag of the group are unchanged. -/
theorem DelGroupServer_master_rejected (env : Env) (w : World) (g : Group)
    (hg : w.groups.get g.name = some g) (hlen : 1 < g.servers.length) :
    (DelGroupServer env g.name g.GetMaster w).1 = some Err.cantRemoveMaster ∧
    (DelGroupServer env g.name g.GetMaster w).2 =
      { w with trace := w.trace ++ [Event.lock, Event.unlock] } ∧
    (DelGroupServer env g.name g.GetMaster w).2.groups.get g.name = some g := by
  have hidx : g.GetServerIndex g.GetMaster = 0 := by
    unfold Group.GetServerIndex Group.GetMaster
    cases hs : g.servers with
    | nil => rw [hs] at hlen; simp at hlen
    | cons s0 rest => simp [getServerIndexFrom]
  have hmain : DelGroupServer env g.name g.GetMaster w =
      (some Err.cantRemoveMaster, { w with trace := w.trace ++ [Event.lock, Event.unlock] }) := by
    unfold DelGroupServer withLock
    have hg' : (w.emit Event.lock).groups.get g.name = some g := hg
    simp only [hg']
    rw [if_neg (by rw [hidx]; decide), if_pos ⟨hidx, hlen⟩]
    simp [World.emit]
  rw [hmain]
  exact ⟨rfl, rfl, hg⟩

/-- C7 at the group g = [A, B] of the two-group state: deleting A is
rejected. -/
theorem DelGroupServer_master_rejected_witness :
    (DelGroupServer envAllOk "g" "A" twoGroups).1 = some Err.cantRemoveMaster ∧
    (DelGroupServer envAllOk "g" "A" twoGroups).2 =
      { twoGroups with trace := twoGroups.trace ++ [Event.lock, Event.unlock] } ∧
    (DelGroupServer envAllOk "g" "A" twoGroups).2.groups.get "g" =
      some (mkGroup "g" ["A", "B"] 0 "") :=
  DelGroupServer_master_rejected envAllOk twoGroups (mkGroup "g" ["A", "B"] 0 "")
    (by decide) (by decide)


/-! ### C8 -/

theorem GroupForceFullSyncServer_groups (env : Env) (k addr : String) (w : World) :
    (GroupForceFullSyncServer env k addr w).2.groups = w.groups := by
  unfold GroupForceFullSyncServer
  rw [withLock_groups]
  cases hg : (w.emit Event.lock).groups.get k with
  | none => rfl
  | some g =>
    dsimp only
    split_ifs
    · rfl
    · rfl
    · rfl
    · split <;> rfl

theorem CreateGroup_preserves (env : Env) (name : String) (r wp : Int) (w : World)
    (hwf : w.groups.WF) (he : EmptyInSync w.groups) :
    (CreateGroup env name r wp w).2.groups.WF ∧
    EmptyInSync (CreateGroup env name r wp w).2.groups := by
  rcases CreateGroup_effect env name r wp w with h | h
  · rw [h]; exact ⟨hwf, he⟩
  · obtain ⟨-, -, -, -, -, h6⟩ := CreateGroup_ok env name r wp w h
    rw [h6]
    constructor
    · intro kv hkv
      rcases List.mem_append.mp hkv with h1 | h1
      · exact hwf kv h1
      · simp only [List.mem_singleton] at h1
        rw [h1]
    · intro kv hkv
      rcases List.mem_append.mp hkv with h1 | h1
      · exact he kv h1
      · simp only [List.mem_singleton] at h1
        rw [h1]
        intro _; rfl

theorem RemoveGroup_preserves (env : Env) (name : String) (w : World)
    (hwf : w.groups.WF) (he : EmptyInSync w.groups) :
    (RemoveGroup env name w).2.groups.WF ∧ EmptyInSync (RemoveGroup env name w).2.groups := by
  rcases RemoveGroup_effect env name w with h | ⟨g, -, -, h⟩
  · rw [h]; exact ⟨hwf, he⟩
  · rw [h]
    exact ⟨fun kv hkv => hwf kv (Groups.mem_delete hkv),
      fun kv hkv => he kv (Groups.mem_delete hkv)⟩

theorem AddGroupServer_preserves (env : Env) (name addr : String) (w : World)
    (hwf : w.groups.WF) (he : EmptyInSync w.groups) :
    (AddGroupServer env name addr w).2.groups.WF ∧
    EmptyInSync (AddGroupServer env name addr w).2.groups := by
  rcases AddGroupServer_effect env name addr w hwf with h | ⟨g, -, h2, h3⟩
  · rw [h]; exact ⟨hwf, he⟩
  · rw [h3]
    refine ⟨Groups.WF_set hwf (show g.name = name from Groups.name_of_get hwf h2),
      EmptyInSync_set he ?_⟩
    intro hempty
    simp at hempty

theorem DelGroupServer_preserves (env : Env) (name addr : String) (w : World)
    (hwf : w.groups.WF) (he : EmptyInSync w.groups) :
    (DelGroupServer env name addr w).2.groups.WF ∧
    EmptyInSync (DelGroupServer env name addr w).2.groups := by
  rcases DelGroupServer_effect env name addr w hwf with h | ⟨g, h1, -, -, h3⟩
  · rw [h]; exact ⟨hwf, he⟩
  · rw [h3]
    exact ⟨Groups.WF_set hwf ((delServerAt_name _ _).trans (Groups.name_of_get hwf h1)),
      EmptyInSync_set he (delServerAt_emptyInSync _ _)⟩

/-- Every group operation keeps the group map well formed and its empty
groups in sync. -/
theorem GroupOp.run_preserves (env : Env) (op : GroupOp) (w : World)
    (hwf : w.groups.WF) (he : EmptyInSync w.groups) :
    (op.run env w).2.groups.WF ∧ EmptyInSync (op.run env w).2.groups := by
  cases op with
  | createGroup name r wp => exact CreateGroup_preserves env name r wp w hwf he
  | removeGroup name => exact RemoveGroup_preserves env name w hwf he
  | addGroupServer name addr => exact AddGroupServer_preserves env name addr w hwf he
  | delGroupServer name addr => exact DelGroupServer_preserves env name addr w hwf he
  | resyncGroup name =>
    have := Reordered.effect_preserves (ResyncGroup_effect env name w hwf) hwf
    exact ⟨this.1, this.2.2 he⟩
  | groupPromoteServer name addr =>
    have := Reordered.effect_preserves (GroupPromoteServer_effect env name addr w hwf) hwf
    exact ⟨this.1, this.2.2 he⟩
  | groupForceFullSyncServer name addr =>
    show (GroupForceFullSyncServer env name addr w).2.groups.WF ∧
      EmptyInSync (GroupForceFullSyncServer env name addr w).2.groups
    rw [GroupForceFullSyncServer_groups]
    exact ⟨hwf, he⟩
  | haSwitch masters =>
    have := switchMasters_preserves env masters w hwf
    exact ⟨this.1, this.2.2 he⟩

theorem Reachable.invariant {w : World} (h : Reachable w) :
    w.groups.WF ∧ EmptyInSync w.groups := by
  induction h with
  | init w h =>
    rw [h]
    exact ⟨fun kv hkv => by simp at hkv, fun kv hkv => by simp at hkv⟩
  | step env op w _ ih => exact GroupOp.run_preserves env op w ih.1 ih.2

theorem delServerAt_outOfSync (g : Group) (i : Int) (hi : i ≠ 0)
    (hlen : (delServerAt g i).servers.length ≠ 0) : (delServerAt g i).outOfSync = true := by
  unfold delServerAt at hlen ⊢
  simp only [hi, ne_eq, not_false_eq_true, if_true] at hlen ⊢
  split_ifs at hlen ⊢ with h
  · exact absurd h hlen
  · rfl

theorem DelGroupServer_ok (env : Env) (k addr : String) (w : World) (g : Group)
    (hwf : w.groups.WF) (hg : w.groups.get k = some g)
    (hok : (DelGroupServer env k addr w).1 = none) :
    g.GetServerIndex addr ≠ -1 ∧
    (DelGroupServer env k addr w).2.groups =
      w.groups.set k (delServerAt g (g.GetServerIndex addr)) := by
  rcases DelGroupServer_effect env k addr w hwf with h | ⟨g₀, h1, h2, -, h4⟩
  · exfalso
    unfold DelGroupServer at hok h
    rw [withLock_fst] at hok
    rw [withLock_groups] at h
    have hg' : (w.emit Event.lock).groups.get k = some g := hg
    simp only [hg'] at hok h
    by_cases c1 : g.GetServerIndex addr = -1
    · rw [if_pos c1] at hok; simp at hok
    rw [if_neg c1] at hok h
    by_cases c2 : g.GetServerIndex addr = 0 ∧ g.servers.length > 1
    · rw [if_pos c2] at hok; simp at hok
    rw [if_neg c2] at hok h
    obtain ⟨ho, hrest⟩ := thenDo_none hok
    rw [hrest] at hok h
    have hn : (delServerAt g (g.GetServerIndex addr)).name = k :=
      (delServerAt_name _ _).trans (Groups.name_of_get hwf hg)
    have hw := writeThrough_groups env k (delServerAt g (g.GetServerIndex addr))
      (outOfSyncBySentinel env (w.emit Event.lock)).2 (fun w2 => refreshGSLBBackendInfo env w2)
      hn (fun w1 => refreshGSLBBackendInfo_groups env w1)
    rw [hw, outOfSyncBySentinel_groups] at h
    have hlen := congrArg (fun gs : Groups => (gs.get k).map (fun x => x.servers.length)) h
    simp only [World.emit, Groups.get_set_self, hg, Option.map_some', delServerAt_servers] at hlen
    have hfound := GetServerIndex_found g addr c1
    rw [List.length_eraseIdx] at hlen
    simp only [Option.some.injEq] at hlen
    rw [if_pos hfound.2.1] at hlen
    omega
  · rw [hg] at h1
    have hgg : g = g₀ := Option.some.inj h1
    subst hgg
    exact ⟨h2, h4⟩

/-- A successful `DelGroupServer` of a server at an index other than 0 leaves
the group with at least one server and with `outOfSync` set. -/
theorem DelGroupServer_nonmaster (env : Env) (k addr : String) (w : World) (g : Group)
    (hwf : w.groups.WF) (hg : w.groups.get k = some g)
    (hok : (DelGroupServer env k addr w).1 = none) (hidx : g.GetServerIndex addr ≠ 0) :
    ∃ g', (DelGroupServer env k addr w).2.groups.get k = some g' ∧
      g'.servers = g.servers.eraseIdx (g.GetServerIndex addr).toNat ∧
      g'.servers ≠ [] ∧ g'.outOfSync = true := by
  obtain ⟨h2, h4⟩ := DelGroupServer_ok env k addr w g hwf hg hok
  obtain ⟨hnn, hlt, -⟩ := GetServerIndex_found g addr h2
  have hpos : 0 < (g.GetServerIndex addr).toNat := by omega
  have hlen : (delServerAt g (g.GetServerIndex addr)).servers.length ≠ 0 := by
    rw [delServerAt_servers, List.length_eraseIdx, if_pos hlt]
    omega
  refine ⟨_, by rw [h4]; exact Groups.get_set_self _ _ _, delServerAt_servers _ _, ?_, ?_⟩
  · intro h
    rw [h] at hlen
    exact hlen rfl
  · exact delServerAt_outOfSync g _ hidx hlen


/-- C8: in every state reachable from a product without groups through
`CreateGroup`, `RemoveGroup`, `AddGroupServer`, `DelGroupServer`,
`ResyncGroup`, `GroupPromoteServer`, `GroupForceFullSyncServer` and the HA
master switch, in any environments and whether the calls succeed or fail,
each group without servers has `outOfSync = false`; and from such a state a
`DelGroupServer` that returns nil for a server at an index other than 0 leaves
the group with the other servers, not empty, and with `outOfSync = true`. -/
theorem reachable_empty_group_in_sync (w : World) (h : Reachable w) :
    (∀ kv ∈ w.groups, kv.2.servers = [] → kv.2.outOfSync = false) ∧
    (∀ (env : Env) (k addr : String) (g : Group), w.groups.get k = some g →
      (DelGroupServer env k addr w).1 = none → g.GetServerIndex addr ≠ 0 →
      ∃ g', (DelGroupServer env k addr w).2.groups.get k = some g' ∧
        g'.servers = g.servers.eraseIdx (g.GetServerIndex addr).toNat ∧
        g'.servers ≠ [] ∧ g'.outOfSync = true) :=
  ⟨(Reachable.invariant h).2,
   fun env k addr g hg hok hidx =>
     DelGroupServer_nonmaster env k addr w g (Reachable.invariant h).1 hg hok hidx⟩

/-- C8 on two reachable states: after creating g and adding A and B, deleting
B succeeds and leaves g = [A] out of sync; after deleting A as well, the
empty group is in sync again. -/
theorem reachable_empty_group_in_sync_witness :
    Reachable reachedAB ∧ Reachable reachedEmptied ∧
    (DelGroupServer envAllOk "g" "B" reachedAB).1 = none ∧
    (∃ g', (DelGroupServer envAllOk "g" "B" reachedAB).2.groups.get "g" = some g' ∧
      g'.servers = (mkGroup "g" ["A", "B"] 0 "").servers.eraseIdx
        ((mkGroup "g" ["A", "B"] 0 "").GetServerIndex "B").toNat ∧
      g'.servers ≠ [] ∧ g'.outOfSync = true) ∧
    reachedEmptied.groups = [("g", mkGroup "g" [] 0 "")] ∧
    (mkGroup "g" [] 0 "").outOfSync = false :=
  have hAB : Reachable reachedAB :=
    Reachable.step _ _ _ (Reachable.step _ _ _ (Reachable.step _ _ _
      (Reachable.init (mkWorld []) rfl)))
  have hE : Reachable reachedEmptied := Reachable.step _ _ _ (Reachable.step _ _ _ hAB)
  ⟨hAB, hE, by decide,
   (reachable_empty_group_in_sync reachedAB hAB).2 envAllOk "g" "B"
     (mkGroup "g" ["A", "B"] 0 "") (by decide) (by decide) (by decide),
   by decide,
   (reachable_empty_group_in_sync reachedEmptied hE).1 ("g", mkGroup "g" [] 0 "")
     (by decide) rfl⟩


/-! ### C9 -/

/-- C9: for an existing group, `GroupForceFullSyncServer` returns an error and
does nothing but take and release the lock whenever the address is that of
`servers[0]` or the promoting state is not ""; in every case the group map is
not modified, and the events of the call are either just lock and unlock or
lock, one `doForceFullSyncAction` and unlock, where the action goes to the
given address, found at an index greater than 0 of a group that is not
promoting, with `servers[0].addr` as master argument. -/
theorem GroupForceFullSyncServer_guard (env : Env) (groupName addr : String) (w : World)
    (g : Group) (hg : w.groups.get groupName = some g) :
    ((g.servers.head?.map (fun s => s.addr) = some addr ∨ g.promoting.state ≠ "") →
      (GroupForceFullSyncServer env groupName addr w).1 ≠ none ∧
      (GroupForceFullSyncServer env groupName addr w).2 =
        { w with trace := w.trace ++ [Event.lock, Event.unlock] }) ∧
    (GroupForceFullSyncServer env groupName addr w).2.groups = w.groups ∧
    ((GroupForceFullSyncServer env groupName addr w).2.trace =
        w.trace ++ [Event.lock, Event.unlock] ∨
      ∃ (i : Nat) (s0 : GroupServer) (ok : Bool),
        0 < i ∧ g.servers[i]? = some ⟨addr⟩ ∧ g.servers[0]? = some s0 ∧
        g.promoting.state = "" ∧
        (GroupForceFullSyncServer env groupName addr w).2.trace =
          w.trace ++ [Event.lock, Event.doForceFullSyncAction addr s0.addr ok, Event.unlock]) := by
  have hg' : (w.emit Event.lock).groups.get groupName = some g := hg
  refine ⟨?_, GroupForceFullSyncServer_groups env groupName addr w, ?_⟩
  · intro hcase
    unfold GroupForceFullSyncServer
    by_cases c1 : g.GetServerIndex addr = -1
    · simp only [withLock, hg', if_pos c1]
      simp [World.emit]
    by_cases c2 : g.GetServerIndex addr = 0
    · simp only [withLock, hg', if_neg c1, if_pos c2]
      simp [World.emit]
    by_cases c3 : g.promoting.state ≠ ActionNothing
    · simp only [withLock, hg', if_neg c1, if_neg c2, if_pos c3]
      simp [World.emit]
    exfalso
    rcases hcase with h | h
    · apply c2
      unfold Group.GetServerIndex
      cases hs : g.servers with
      | nil => rw [hs] at h; simp at h
      | cons s0 rest =>
        rw [hs] at h
        simp only [List.head?_cons, Option.map_some', Option.some.injEq] at h
        simp [getServerIndexFrom, h]
    · exact c3 h
  · unfold GroupForceFullSyncServer
    by_cases c1 : g.GetServerIndex addr = -1
    · left
      simp only [withLock, hg', if_pos c1]
      simp [World.emit]
    by_cases c2 : g.GetServerIndex addr = 0
    · left
      simp only [withLock, hg', if_neg c1, if_pos c2]
      simp [World.emit]
    by_cases c3 : g.promoting.state ≠ ActionNothing
    · left
      simp only [withLock, hg', if_neg c1, if_neg c2, if_pos c3]
      simp [World.emit]
    right
    obtain ⟨hnn, hlt, s, hs, hsa⟩ := GetServerIndex_found g addr c1
    have h0 : 0 < g.servers.length := by omega
    have hs' : g.servers[(g.GetServerIndex addr).toNat]? = some ⟨addr⟩ := by
      rw [hs, ← hsa]
    refine ⟨(g.GetServerIndex addr).toNat, g.servers[0], env.ok (w.trace.length + 1),
      by omega, hs', List.getElem?_eq_getElem h0, by simpa [ActionNothing] using c3, ?_⟩
    simp only [withLock, hg', if_neg c1, if_neg c2, if_neg c3, hs',
      List.getElem?_eq_getElem h0]
    simp [doForceFullSyncAction, World.emit]

/-- C9 at the group g = [A, B]: a full sync of the master A is refused
without any command, a full sync of B is sent to B with master A. -/
theorem GroupForceFullSyncServer_guard_witness :
    ((GroupForceFullSyncServer envAllOk "g" "A" twoGroups).1 ≠ none ∧
      (GroupForceFullSyncServer envAllOk "g" "A" twoGroups).2 =
        { twoGroups with trace := twoGroups.trace ++ [Event.lock, Event.unlock] }) ∧
    (GroupForceFullSyncServer envAllOk "g" "B" twoGroups).2.trace =
      [Event.lock, Event.doForceFullSyncAction "B" "A" true, Event.unlock] :=
  ⟨(GroupForceFullSyncServer_guard envAllOk "g" "A" twoGroups (mkGroup "g" ["A", "B"] 0 "")
      (by decide)).1 (Or.inl (by decide)),
   by decide⟩


/-! ### C10 -/

theorem syncActions_append (a b : List Event) :
    syncActions (a ++ b) = syncActions a ++ syncActions b := by
  induction a with
  | nil => rfl
  | cons e rest ih => cases e <;> simp [syncActions, ih]

theorem resyncLoop_actions_succ (env : Env) (n m : String) (l : List GroupServer) (i : Nat)
    (errs : List SyncFailure) (w : World) :
    syncActions (resyncLoop env n m l (i + 1) errs w).2.trace =
      syncActions w.trace ++ l.map (fun s => (s.addr, m)) := by
  induction l generalizing i errs w with
  | nil => simp [resyncLoop]
  | cons v vs ih =>
    simp only [resyncLoop, Nat.succ_ne_zero, if_false]
    rw [ih]
    simp [doSyncAction, World.emit, syncActions_append, syncActions]

theorem groupMapper.Update_actions (env : Env) (g : Group) (w : World) :
    syncActions (groupMapper.Update env g w).2.trace = syncActions w.trace := by
  unfold groupMapper.Update
  by_cases h : env.ok w.trace.length <;>
    simp [h, World.emit, World.setGroup, syncActions_append, syncActions]

/-- C10: for every group, every environment (so whichever of the actions
fail) and every state, the `doSyncAction` calls that `resyncGroup` adds to the
trace are exactly, in this order, `("NO:ONE")` to the first server and
`(servers[0].addr)` to each further server in index order, one call per
server; for a group without servers it returns nil and changes nothing. -/
theorem resyncGroup_actions (env : Env) (k : String) (g : Group) (w : World) :
    syncActions (resyncGroup env k g w).2.2.trace =
      syncActions w.trace ++ expectedSyncActions g.servers ∧
    (expectedSyncActions g.servers).length = g.servers.length ∧
    (expectedSyncActions g.servers).map (fun p => p.1) = g.servers.map (fun s => s.addr) ∧
    resyncGroup env k { g with servers := [] } w = (none, { g with servers := [] }, w) := by
  refine ⟨?_, ?_, ?_, rfl⟩
  · unfold resyncGroup
    cases hs : g.servers with
    | nil => simp [expectedSyncActions]
    | cons s0 rest =>
      have hloop : syncActions (resyncLoop env g.name s0.addr (s0 :: rest) 0 [] w).2.trace =
          syncActions w.trace ++ expectedSyncActions (s0 :: rest) := by
        simp only [resyncLoop, if_true]
        rw [resyncLoop_actions_succ]
        simp [doSyncAction, World.emit, syncActions_append, syncActions, expectedSyncActions]
      dsimp only
      split_ifs
      · split
        · rw [groupMapper.Update_actions]; exact hloop
        · rw [groupMapper.Update_actions]; exact hloop
      · exact hloop
  · cases g.servers <;> simp [expectedSyncActions]
  · cases g.servers <;> simp [expectedSyncActions]


/-! ### The promoting state in reachable states -/

theorem AllFinishedAtZero_set {gs : Groups} {k : String} {g' : Group}
    (hf : AllFinishedAtZero gs) (h' : FinishedAtZero g') : AllFinishedAtZero (gs.set k g') := by
  intro kv hkv
  rcases Groups.mem_set hkv with h | h
  · rw [h]; exact h'
  · exact hf kv h

theorem Reordered.effect_finished {gs gs' : Groups} {k : String}
    (heff : gs' = gs ∨ ∃ g g', gs.get k = some g ∧ gs' = gs.set k g' ∧ Reordered g g')
    (hf : AllFinishedAtZero gs) : AllFinishedAtZero gs' := by
  rcases heff with h | ⟨g, g', h1, h2, h3⟩
  · rw [h]; exact hf
  · rw [h2]
    exact AllFinishedAtZero_set hf (h3.2.2.2 (hf (k, g) (Groups.mem_of_get h1)))

theorem switchLoop_finished (env : Env) (masters : List (String × String)) (w : World)
    (hwf : w.groups.WF) (hf : AllFinishedAtZero w.groups) :
    AllFinishedAtZero
      (masters.foldl (fun acc kv => (trySwitchGroupMaster env kv.1 kv.2 acc).2) w).groups := by
  induction masters generalizing w with
  | nil => exact hf
  | cons kv rest ih =>
    simp only [List.foldl_cons]
    have heff := trySwitchGroupMaster_effect env kv.1 kv.2 w hwf
    exact ih _ (Reordered.effect_preserves heff hwf).1 (Reordered.effect_finished heff hf)

theorem delServerAt_promoting (g : Group) (i : Int) :
    (delServerAt g i).promoting = g.promoting := by
  unfold delServerAt
  dsimp only
  split_ifs <;> rfl

/-- Every group operation keeps "finished" tied to index 0. -/
theorem GroupOp.run_finished (env : Env) (op : GroupOp) (w : World)
    (hwf : w.groups.WF) (hf : AllFinishedAtZero w.groups) :
    AllFinishedAtZero (op.run env w).2.groups := by
  cases op with
  | createGroup name r wp =>
    show AllFinishedAtZero (CreateGroup env name r wp w).2.groups
    rcases CreateGroup_effect env name r wp w with h | h
    · rw [h]; exact hf
    · obtain ⟨-, -, -, -, -, h6⟩ := CreateGroup_ok env name r wp w h
      rw [h6]
      intro kv hkv
      rcases List.mem_append.mp hkv with h1 | h1
      · exact hf kv h1
      · simp only [List.mem_singleton] at h1
        rw [h1]
        intro _; rfl
  | removeGroup name =>
    show AllFinishedAtZero (RemoveGroup env name w).2.groups
    rcases RemoveGroup_effect env name w with h | ⟨g, -, -, h⟩
    · rw [h]; exact hf
    · rw [h]; exact fun kv hkv => hf kv (Groups.mem_delete hkv)
  | addGroupServer name addr =>
    show AllFinishedAtZero (AddGroupServer env name addr w).2.groups
    rcases AddGroupServer_effect env name addr w hwf with h | ⟨g, -, h2, h3⟩
    · rw [h]; exact hf
    · rw [h3]
      exact AllFinishedAtZero_set hf (hf (name, g) (Groups.mem_of_get h2))
  | delGroupServer name addr =>
    show AllFinishedAtZero (DelGroupServer env name addr w).2.groups
    rcases DelGroupServer_effect env name addr w hwf with h | ⟨g, h1, -, -, h3⟩
    · rw [h]; exact hf
    · rw [h3]
      apply AllFinishedAtZero_set hf
      unfold FinishedAtZero
      rw [delServerAt_promoting]
      exact hf (name, g) (Groups.mem_of_get h1)
  | resyncGroup name => exact Reordered.effect_finished (ResyncGroup_effect env name w hwf) hf
  | groupPromoteServer name addr =>
    exact Reordered.effect_finished (GroupPromoteServer_effect env name addr w hwf) hf
  | groupForceFullSyncServer name addr =>
    show AllFinishedAtZero (GroupForceFullSyncServer env name addr w).2.groups
    rw [GroupForceFullSyncServer_groups]
    exact hf
  | haSwitch masters =>
    show AllFinishedAtZero (switchMasters env masters w).2.groups
    unfold switchMasters
    rw [withLock_groups]
    split_ifs
    · exact hf
    · exact switchLoop_finished env masters _ hwf hf

theorem Reachable.all_finished_at_zero {w : World} (h : Reachable w) :
    AllFinishedAtZero w.groups := by
  induction h with
  | init w h =>
    rw [h]
    exact fun kv hkv => by simp at hkv
  | step env op w hw ih => exact GroupOp.run_finished env op w (Reachable.invariant hw).1 ih

/-- In every reachable state a group whose promoting state is "finished" has
promoting index 0. -/
theorem Reachable.finished_at_zero {w : World} (h : Reachable w) (k : String) (g : Group)
    (hg : w.groups.get k = some g) (hs : g.promoting.state = ActionFinished) :
    g.promoting.index = 0 :=
  Reachable.all_finished_at_zero h (k, g) (Groups.mem_of_get hg) hs

/-! ### C11 -/

theorem syncOutcomes_append (a b : List Event) :
    syncOutcomes (a ++ b) = syncOutcomes a ++ syncOutcomes b := by
  induction a with
  | nil => rfl
  | cons e rest ih => cases e <;> simp [syncOutcomes, ih]

theorem failedServers_append (a b : List Event) :
    failedServers (a ++ b) = failedServers a ++ failedServers b := by
  simp [failedServers, syncOutcomes_append, List.filterMap_append]

/-- The loop of `resyncGroup` appends one `doSyncAction` event per server and
one entry to the error list per failed call. -/
theorem resyncLoop_outcomes (env : Env) (n m : String) (l : List GroupServer) (i : Nat)
    (errs : List SyncFailure) (w : World) :
    ∃ (ev : List Event) (F : List SyncFailure),
      (resyncLoop env n m l i errs w).2.trace = w.trace ++ ev ∧
      (resyncLoop env n m l i errs w).1 = errs ++ F ∧
      F.filterMap SyncFailure.server = failedServers ev ∧
      (syncOutcomes ev).map (fun p => p.1) = l.map (fun s => s.addr) := by
  induction l generalizing i errs w with
  | nil => exact ⟨[], [], by simp [resyncLoop], by simp [resyncLoop], rfl, rfl⟩
  | cons v vs ih =>
    simp only [resyncLoop]
    obtain ⟨ev, F, h1, h2, h3, h4⟩ := ih (i + 1)
      (if (doSyncAction env v.addr (if i = 0 then "NO:ONE" else m) w).1 = true then errs
        else errs ++ [SyncFailure.doSyncAction n v.addr (if i = 0 then "NO:ONE" else m)])
      (doSyncAction env v.addr (if i = 0 then "NO:ONE" else m) w).2
    rw [h1, h2]
    by_cases hok : env.ok w.trace.length = true
    · refine ⟨Event.doSyncAction v.addr (if i = 0 then "NO:ONE" else m) true :: ev, F, ?_, ?_, ?_, ?_⟩
      · simp [doSyncAction, World.emit, hok]
      · simp [doSyncAction, hok]
      · rw [h3]; simp [failedServers, syncOutcomes]
      · simp [syncOutcomes, h4]
    · have hok' : env.ok w.trace.length = false := by simpa using hok
      refine ⟨Event.doSyncAction v.addr (if i = 0 then "NO:ONE" else m) false :: ev,
        SyncFailure.doSyncAction n v.addr (if i = 0 then "NO:ONE" else m) :: F, ?_, ?_, ?_, ?_⟩
      · simp [doSyncAction, World.emit, hok']
      · simp [doSyncAction, hok']
      · simp only [List.filterMap_cons, SyncFailure.server, h3]
        simp [failedServers, syncOutcomes]
      · simp [syncOutcomes, h4]

theorem groupMapper.Update_trace (env : Env) (g : Group) (w : World) :
    (groupMapper.Update env g w).2.trace =
      w.trace ++ [Event.storeUpdateGroup g (env.ok w.trace.length)] := by
  unfold groupMapper.Update
  by_cases h : env.ok w.trace.length <;> simp [h, World.emit, World.setGroup]

/-- What `resyncGroup` adds to the trace and what it returns, in terms of the
outcomes of its `doSyncAction` calls. -/
theorem resyncGroup_outcomes (env : Env) (k : String) (g : Group) (w : World) :
    ∃ ev : List Event,
      (resyncGroup env k g w).2.2.trace = w.trace ++ ev ∧
      (syncOutcomes ev).map (fun p => p.1) = g.servers.map (fun s => s.addr) ∧
      ((resyncGroup env k g w).1 = none →
        failedServers ev = [] ∧ (resyncGroup env k g w).2.1 = g) ∧
      (failedServers ev ≠ [] →
        ∃ es, (resyncGroup env k g w).1 = some (Err.multi es) ∧
          es.filterMap SyncFailure.server = failedServers ev ∧
          (resyncGroup env k g w).2.1 = { g with outOfSync := true }) := by
  unfold resyncGroup
  split
  · exact ⟨[], by simp, by simp [*, syncOutcomes], fun _ => ⟨rfl, rfl⟩, fun h => absurd rfl h⟩
  · rename_i s0 rest hs
    obtain ⟨ev, F, h1, h2, h3, h4⟩ := resyncLoop_outcomes env g.name s0.addr g.servers 0 [] w
    simp only [List.nil_append] at h2
    dsimp only
    by_cases hF : (resyncLoop env g.name s0.addr g.servers 0 [] w).1 ≠ []
    · rw [if_pos hF]
      have htr : (groupMapper.Update env { g with outOfSync := true }
          ((resyncLoop env g.name s0.addr g.servers 0 [] w).2.setGroup k
            { g with outOfSync := true })).2.trace =
          w.trace ++ (ev ++ [Event.storeUpdateGroup { g with outOfSync := true }
            (env.ok (w.trace ++ ev).length)]) := by
        rw [groupMapper.Update_trace]
        simp [World.setGroup, h1]
      have hso : ∀ e, syncOutcomes (ev ++ [Event.storeUpdateGroup { g with outOfSync := true } e]) =
          syncOutcomes ev := by
        intro e; simp [syncOutcomes_append, syncOutcomes]
      have hfs : ∀ e, failedServers (ev ++ [Event.storeUpdateGroup { g with outOfSync := true } e]) =
          failedServers ev := by
        intro e; unfold failedServers; rw [hso]
      refine ⟨ev ++ [Event.storeUpdateGroup { g with outOfSync := true }
        (env.ok (w.trace ++ ev).length)], ?_, ?_, ?_, ?_⟩
      · split <;> exact htr
      · rw [hso]; exact h4
      · intro hnone
        split at hnone <;> simp at hnone
      · intro _
        rw [hfs, ← h3, ← h2]
        split
        · exact ⟨_, rfl, by simp [List.filterMap_append, SyncFailure.server], rfl⟩
        · exact ⟨_, rfl, rfl, rfl⟩
    · rw [if_neg hF]
      have hF' : F = [] := by
        rw [h2] at hF; simpa using hF
      refine ⟨ev, h1, h4, fun _ => ⟨?_, rfl⟩, ?_⟩
      · rw [← h3, hF']; rfl
      · intro hne
        rw [← h3, hF'] at hne
        exact absurd rfl hne

theorem failed_sublist (l : List (String × Bool)) :
    (l.filterMap (fun p => if p.2 then none else some p.1)).Sublist (l.map (fun p => p.1)) := by
  induction l with
  | nil => exact List.Sublist.refl _
  | cons p rest ih =>
    obtain ⟨a, b⟩ := p
    cases b
    · simpa using ih.cons₂ a
    · simpa using ih.cons a

theorem all_ok_of_no_failed (l : List (String × Bool))
    (h : l.filterMap (fun p => if p.2 then none else some p.1) = []) :
    l = (l.map (fun p => p.1)).map (fun a => (a, true)) := by
  induction l with
  | nil => rfl
  | cons p rest ih =>
    obtain ⟨a, b⟩ := p
    cases b
    · simp at h
    · simp only [List.filterMap_cons, if_true] at h
      simp only [List.map_cons, List.cons.injEq, true_and]
      exact ih h

/-- C11: for every existing group, every environment and every state,
`ResyncGroup` adds events to the trace such that: the servers whose
`doSyncAction` failed come in server order; if it returns nil, every server of
the group got a successful `doSyncAction` and the group's `outOfSync` is
false; if at least one `doSyncAction` failed, it returns a multi-error whose
entries for failed calls are exactly the failed servers in server order
(followed by at most the entry of a failed store write), and the group's
`outOfSync` is true. -/
theorem ResyncGroup_result (env : Env) (k : String) (w : World) (g : Group)
    (hwf : w.groups.WF) (hg : w.groups.get k = some g) :
    ∃ ev : List Event,
      (ResyncGroup env k w).2.trace = w.trace ++ ev ∧
      (failedServers ev).Sublist (g.servers.map (fun s => s.addr)) ∧
      ((ResyncGroup env k w).1 = none →
        syncOutcomes ev = g.servers.map (fun s => (s.addr, true)) ∧
        ∃ g', (ResyncGroup env k w).2.groups.get k = some g' ∧ g'.outOfSync = false) ∧
      (failedServers ev ≠ [] →
        ∃ es g', (ResyncGroup env k w).1 = some (Err.multi es) ∧
          es.filterMap SyncFailure.server = failedServers ev ∧
          (ResyncGroup env k w).2.groups.get k = some g' ∧ g'.outOfSync = true) := by
  have hn : g.name = k := Groups.name_of_get hwf hg
  have hg' : (w.emit Event.lock).groups.get k = some g := hg
  unfold ResyncGroup withLock
  simp only [hg']
  have hUt := groupMapper.Update_trace env { g with outOfSync := false }
    ((w.emit Event.lock).setGroup k { g with outOfSync := false })
  have hUg := groupMapper.Update_groups_same env { g with outOfSync := false }
    ((w.emit Event.lock).setGroup k { g with outOfSync := false })
    (by show (w.groups.set k _).get g.name = _; rw [hn]; exact Groups.get_set_self _ _ _)
  cases hu : (groupMapper.Update env { g with outOfSync := false }
      ((w.emit Event.lock).setGroup k { g with outOfSync := false })).1 with
  | some e =>
    rw [thenDo_some hu]
    refine ⟨[Event.lock, Event.storeUpdateGroup { g with outOfSync := false }
      (env.ok (w.trace ++ [Event.lock]).length), Event.unlock], ?_, ?_, ?_, ?_⟩
    · show (groupMapper.Update env _ _).2.trace ++ [Event.unlock] = _
      rw [hUt]
      simp [World.emit, World.setGroup]
    · simp [failedServers, syncOutcomes]
    · intro h; simp at h
    · intro h; simp [failedServers, syncOutcomes] at h
  | none =>
    rw [thenDo_of_none hu]
    have hget1 : (groupMapper.Update env { g with outOfSync := false }
        ((w.emit Event.lock).setGroup k { g with outOfSync := false })).2.groups.get k =
        some { g with outOfSync := false } := by
      rw [hUg]; exact Groups.get_set_self _ _ _
    obtain ⟨e1, -⟩ := resyncGroup_effect env k { g with outOfSync := false } _ hget1 hn
    obtain ⟨ev, t1, t2, t3, t4⟩ := resyncGroup_outcomes env k { g with outOfSync := false }
      (groupMapper.Update env { g with outOfSync := false }
        ((w.emit Event.lock).setGroup k { g with outOfSync := false })).2
    have hso : syncOutcomes ([Event.lock, Event.storeUpdateGroup { g with outOfSync := false }
        (env.ok (w.trace ++ [Event.lock]).length)] ++ ev ++ [Event.unlock]) = syncOutcomes ev := by
      simp [syncOutcomes_append, syncOutcomes]
    have hfs : failedServers ([Event.lock, Event.storeUpdateGroup { g with outOfSync := false }
        (env.ok (w.trace ++ [Event.lock]).length)] ++ ev ++ [Event.unlock]) = failedServers ev := by
      unfold failedServers; rw [hso]
    refine ⟨[Event.lock, Event.storeUpdateGroup { g with outOfSync := false }
      (env.ok (w.trace ++ [Event.lock]).length)] ++ ev ++ [Event.unlock], ?_, ?_, ?_, ?_⟩
    · show (resyncGroup env k _ _).2.2.trace ++ [Event.unlock] = _
      rw [t1, hUt]
      simp [World.emit, World.setGroup]
    · rw [hfs]
      have := failed_sublist (syncOutcomes ev)
      rw [t2] at this
      exact this
    · intro hnone
      obtain ⟨f1, f2⟩ := t3 hnone
      refine ⟨?_, { g with outOfSync := false }, ?_, rfl⟩
      · rw [hso, all_ok_of_no_failed (syncOutcomes ev) f1, t2]
        simp
      · show (resyncGroup env k _ _).2.2.groups.get k = _
        rw [e1, f2]
        exact Groups.get_set_self _ _ _
    · intro hne
      rw [hfs] at hne ⊢
      obtain ⟨es, f1, f2, f3⟩ := t4 hne
      refine ⟨es, { g with outOfSync := true }, f1, f2, ?_, rfl⟩
      show (resyncGroup env k _ _).2.2.groups.get k = _
      rw [e1, f3]
      exact Groups.get_set_self _ _ _

/-- C11 at the group g = [A, B] of the two-group state, with the
`doSyncAction` towards B failing: the error names B and the group is out of
sync. -/
theorem ResyncGroup_result_witness :
    twoGroups.groups.WF ∧
    (ResyncGroup (envFailAt 3) "g" twoGroups).1 =
      some (Err.multi [SyncFailure.doSyncAction "g" "B" "A"]) ∧
    ((ResyncGroup (envFailAt 3) "g" twoGroups).2.groups.get "g").map (fun g => g.outOfSync) =
      some true ∧
    ∃ ev : List Event,
      (ResyncGroup (envFailAt 3) "g" twoGroups).2.trace = twoGroups.trace ++ ev ∧
      (failedServers ev).Sublist ((mkGroup "g" ["A", "B"] 0 "").servers.map (fun s => s.addr)) ∧
      ((ResyncGroup (envFailAt 3) "g" twoGroups).1 = none →
        syncOutcomes ev = (mkGroup "g" ["A", "B"] 0 "").servers.map (fun s => (s.addr, true)) ∧
        ∃ g', (ResyncGroup (envFailAt 3) "g" twoGroups).2.groups.get "g" = some g' ∧
          g'.outOfSync = false) ∧
      (failedServers ev ≠ [] →
        ∃ es g', (ResyncGroup (envFailAt 3) "g" twoGroups).1 = some (Err.multi es) ∧
          es.filterMap SyncFailure.server = failedServers ev ∧
          (ResyncGroup (envFailAt 3) "g" twoGroups).2.groups.get "g" = some g' ∧
          g'.outOfSync = true) :=
  ⟨by decide, by decide, by decide,
   ResyncGroup_result (envFailAt 3) "g" twoGroups (mkGroup "g" ["A", "B"] 0 "")
     (by decide) (by decide)⟩

/-! ### C12 -/

theorem resyncLoop_all_ok (env : Env) (hok : ∀ n, env.ok n = true) (n m : String)
    (l : List GroupServer) (i : Nat) (errs : List SyncFailure) (w : World) :
    (resyncLoop env n m l i errs w).1 = errs := by
  induction l generalizing i errs w with
  | nil => rfl
  | cons v vs ih =>
    simp only [resyncLoop, doSyncAction, hok, if_true]
    exact ih _ _ _

theorem resyncGroup_all_ok (env : Env) (hok : ∀ n, env.ok n = true) (k : String) (g : Group)
    (w : World) : (resyncGroup env k g w).1 = none := by
  unfold resyncGroup
  split
  · rfl
  · dsimp only
    rw [resyncLoop_all_ok env hok]
    simp

theorem groupMapper.Update_all_ok (env : Env) (hok : ∀ n, env.ok n = true) (g : Group)
    (w : World) : (groupMapper.Update env g w).1 = none := by
  unfold groupMapper.Update
  simp [hok]

theorem resyncAllOne_all_ok (env : Env) (hok : ∀ n, env.ok n = true) (st : Future × World)
    (kv : String × Group) : (resyncAllOne env st kv).1 = st.1.Add := by
  unfold resyncAllOne
  simp only [groupMapper.Update_all_ok env hok, resyncGroup_all_ok env hok]

theorem resyncAll_pending (env : Env) (hok : ∀ n, env.ok n = true) (gs : Groups)
    (st : Future × World) :
    (gs.foldl (resyncAllOne env) st).1.pending = st.1.pending + gs.length := by
  induction gs generalizing st with
  | nil => rfl
  | cons kv rest ih =>
    simp only [List.foldl_cons, List.length_cons]
    rw [ih, resyncAllOne_all_ok env hok]
    simp only [Future.Add]
    omega

/-- C12, the code against the claim: when the product has at least one group
and every store update and every `doSyncAction` succeeds, no goroutine of
`ResyncGroupAll` calls `fut.Done`, so `fut.Wait()` is blocked and the call
never returns. -/
theorem ResyncGroupAll_blocks (env : Env) (w : World) (hok : ∀ n, env.ok n = true)
    (hne : w.groups ≠ []) : (ResyncGroupAll env w).1 = none := by
  have hp := resyncAll_pending env hok w.groups (⟨0, []⟩, w.emit Event.lock)
  have hpos : 0 < w.groups.length := List.length_pos.mpr hne
  unfold ResyncGroupAll
  have hw : ((w.groups.foldl (resyncAllOne env) (⟨0, []⟩, w.emit Event.lock)).1).Wait = none := by
    unfold Future.Wait
    rw [if_neg]
    simp only [] at hp
    omega
  rw [hw]

/-- C12 at the two groups g = [A, B] and h = [C] with every call succeeding:
all three `doSyncAction` calls are made and succeed, the call does not return
and the lock is not released; with the update of g failing instead
and h succeeding it does not return either. -/
theorem ResyncGroupAll_blocks_witness :
    (ResyncGroupAll envAllOk twoGroups).1 = none ∧
    syncOutcomes (ResyncGroupAll envAllOk twoGroups).2.trace =
      [("A", true), ("B", true), ("C", true)] ∧
    (ResyncGroupAll envAllOk twoGroups).2.trace.getLast? ≠ some Event.unlock ∧
    (ResyncGroupAll (envFailAt 1) twoGroups).1 = none ∧
    (ResyncGroupAll envAllOk (mkWorld [])).1 = some none :=
  ⟨ResyncGroupAll_blocks envAllOk twoGroups (fun _ => rfl) (by decide),
   by decide, by decide, by decide, by decide⟩

/-! ### C13 -/

theorem assocGet_set_self {α : Type} (l : List (String × α)) (k : String) (v : α) :
    assocGet (assocSet l k v) k = some v := by
  induction l with
  | nil => simp [assocSet, assocGet]
  | cons kv rest ih =>
    obtain ⟨k', v'⟩ := kv
    by_cases h : k' = k
    · simp [assocSet, assocGet, h]
    · simp [assocSet, assocGet, h, ih]

theorem assocGet_set_ne {α : Type} (l : List (String × α)) (k k' : String) (v : α)
    (h : k' ≠ k) : assocGet (assocSet l k v) k' = assocGet l k' := by
  induction l with
  | nil => simp [assocSet, assocGet, Ne.symm h]
  | cons kv rest ih =>
    obtain ⟨k₀, v₀⟩ := kv
    by_cases h₀ : k₀ = k
    · subst h₀
      simp [assocSet, assocGet, Ne.symm h]
    · by_cases h₁ : k₀ = k'
      · subst h₁
        simp [assocSet, assocGet, h]
      · simp [assocSet, assocGet, h₀, h₁, ih]

theorem MastersState.sound_extend {st : MastersState} {E : List (String × SentinelMaster)}
    (hs : st.Sound E) (kv : String × SentinelMaster)
    (hkeep : ∃ m, assocGet st.current kv.1 = some m ∧ kv.2.epoch ≤ m.epoch) :
    st.Sound (E ++ [kv]) := by
  obtain ⟨m, hm, hle⟩ := hkeep
  intro g
  have hg := hs g
  refine ⟨hg.1, ?_⟩
  cases hc : assocGet st.current g with
  | none =>
    have h2 := hg.2
    rw [hc] at h2
    simp only
    intro e he
    rcases List.mem_append.mp he with he | he
    · exact h2 e he
    · simp only [List.mem_singleton] at he
      rw [he]
      intro hk
      rw [hk, hc] at hm
      exact absurd hm (by simp)
  | some m' =>
    have h2 := hg.2
    rw [hc] at h2
    simp only
    refine ⟨List.mem_append_left _ h2.1, ?_⟩
    intro e he hk
    rcases List.mem_append.mp he with he | he
    · exact h2.2 e he hk
    · simp only [List.mem_singleton] at he
      rw [he] at hk ⊢
      rw [hk, hc] at hm
      rw [← Option.some.inj hm] at hle
      exact hle

theorem MastersState.sound_replace {st : MastersState} {E : List (String × SentinelMaster)}
    (hs : st.Sound E) (kv : String × SentinelMaster)
    (hnew : ∀ m, assocGet st.current kv.1 = some m → m.epoch < kv.2.epoch) :
    MastersState.Sound
      { st with current := assocSet st.current kv.1 kv.2,
                masters := assocSet st.masters kv.1 kv.2.addr } (E ++ [kv]) := by
  intro g
  have hg := hs g
  by_cases hk : g = kv.1
  · subst hk
    simp only [assocGet_set_self, Option.map_some', true_and]
    refine ⟨List.mem_append_right _ (by simp), ?_⟩
    intro e he hke
    rcases List.mem_append.mp he with he | he
    · cases hc : assocGet st.current kv.1 with
      | none =>
        have h2 := hg.2
        rw [hc] at h2
        exact absurd hke (h2 e he)
      | some m =>
        have h2 := hg.2
        rw [hc] at h2
        have := h2.2 e he hke
        have := hnew m hc
        omega
    · simp only [List.mem_singleton] at he
      rw [he]
  · simp only [assocGet_set_ne _ _ _ _ hk]
    refine ⟨hg.1, ?_⟩
    cases hc : assocGet st.current g with
    | none =>
      have h2 := hg.2
      rw [hc] at h2
      simp only
      intro e he
      rcases List.mem_append.mp he with he | he
      · exact h2 e he
      · simp only [List.mem_singleton] at he
        rw [he]
        exact fun h => hk h.symm
    | some m' =>
      have h2 := hg.2
      rw [hc] at h2
      simp only
      refine ⟨List.mem_append_left _ h2.1, ?_⟩
      intro e he hke
      rcases List.mem_append.mp he with he | he
      · exact h2.2 e he hke
      · simp only [List.mem_singleton] at he
        rw [he] at hke
        exact absurd hke.symm hk

theorem MastersState.merge_sound {st : MastersState} {E : List (String × SentinelMaster)}
    (hs : st.Sound E) (kv : String × SentinelMaster) : (st.merge kv).Sound (E ++ [kv]) := by
  unfold MastersState.merge
  cases hc : assocGet st.current kv.1 with
  | none =>
    simp only
    exact MastersState.sound_replace hs kv (fun m hm => by rw [hc] at hm; simp at hm)
  | some cur =>
    simp only
    split_ifs with hlt
    · exact MastersState.sound_replace hs kv (fun m hm => by
        rw [hc] at hm; rw [← Option.some.inj hm]; exact hlt)
    · exact MastersState.sound_extend hs kv ⟨cur, hc, by omega⟩

theorem MastersState.merge_voted (st : MastersState) (kv : String × SentinelMaster) :
    (st.merge kv).voted = st.voted := by
  unfold MastersState.merge
  split
  · rfl
  · split_ifs <;> rfl

theorem MastersState.foldl_sound (m : List (String × SentinelMaster)) {st : MastersState}
    {E : List (String × SentinelMaster)} (hs : st.Sound E) :
    (m.foldl MastersState.merge st).Sound (E ++ m) ∧
    (m.foldl MastersState.merge st).voted = st.voted := by
  induction m generalizing st E with
  | nil => simpa using hs
  | cons kv rest ih =>
    simp only [List.foldl_cons]
    have := ih (MastersState.merge_sound hs kv)
    rw [MastersState.merge_voted] at this
    simpa using this

theorem replyEntries_cons_none (rest : List SentinelReply) :
    replyEntries (none :: rest) = replyEntries rest := by
  simp [replyEntries]

theorem replyEntries_cons_some (m : List (String × SentinelMaster)) (rest : List SentinelReply) :
    replyEntries (some m :: rest) = m ++ replyEntries rest := by
  simp [replyEntries]

/-- When the context is not cancelled, the loop of `Masters` reads every
arrival and ends in the majority test. -/
theorem mastersLoop_spec (n : Nat) (ctx : CtxState) (hctx : ctx ≠ CtxState.canceled)
    (arrivals : List SentinelReply) (alive : Nat) (st : MastersState)
    (E : List (String × SentinelMaster)) (hlen : arrivals.length ≤ alive) (hs : st.Sound E) :
    ∃ st' : MastersState, st'.Sound (E ++ replyEntries arrivals) ∧
      st'.voted = st.voted + successfulReplies arrivals ∧
      mastersLoop n ctx alive arrivals st = st'.finish n := by
  induction arrivals generalizing alive st E with
  | nil =>
    refine ⟨st, by simpa [replyEntries] using hs, by simp [successfulReplies], ?_⟩
    cases alive <;> simp [mastersLoop, hctx]
  | cons r rest ih =>
    cases alive with
    | zero => simp at hlen
    | succ a =>
      have hlen' : rest.length ≤ a := by simpa using hlen
      cases r with
      | none =>
        obtain ⟨st', h1, h2, h3⟩ := ih a st E hlen' hs
        refine ⟨st', by rw [replyEntries_cons_none]; exact h1, ?_, by simp [mastersLoop, h3]⟩
        rw [h2]; simp [successfulReplies]
      | some m =>
        obtain ⟨f1, f2⟩ := MastersState.foldl_sound m hs
        have hs' : MastersState.Sound { m.foldl MastersState.merge st with
            voted := (m.foldl MastersState.merge st).voted + 1 } (E ++ m) := f1
        obtain ⟨st', h1, h2, h3⟩ := ih a _ (E ++ m) hlen' hs'
        refine ⟨st', ?_, ?_, by simp [mastersLoop, h3]⟩
        · rw [replyEntries_cons_some, ← List.append_assoc]; exact h1
        · rw [h2]
          have hv : ({ m.foldl MastersState.merge st with
              voted := (m.foldl MastersState.merge st).voted + 1 } : MastersState).voted =
              st.voted + 1 := by
            show (m.foldl MastersState.merge st).voted + 1 = _
            rw [f2]
          have hc : successfulReplies (some m :: rest) = successfulReplies rest + 1 := by
            simp [successfulReplies]
          rw [hv, hc]
          omega

/-- C13: for `n` sentinels whose replies (a failure, or a map from group to
address and config-epoch) arrive as a list of at most `n` values, with `k`
successful ones and the context not cancelled: if `k < n/2 + 1` then `Masters`
returns the lost-majority error for `k` of `n`; if `k ≥ n/2 + 1` then it
returns a map in which a group named by no successful reply is absent and
every group named by some successful reply has the address of one of its
reply entries whose config-epoch is greatest among all its entries. -/
theorem Masters_quorum (n : Nat) (ctx : CtxState) (arrivals : List SentinelReply)
    (hctx : ctx ≠ CtxState.canceled) (hlen : arrivals.length ≤ n) :
    (successfulReplies arrivals < n / 2 + 1 →
      Masters n ctx arrivals =
        Except.error (MastersErr.lostMajority (successfulReplies arrivals) n)) ∧
    (n / 2 + 1 ≤ successfulReplies arrivals →
      ∃ masters, Masters n ctx arrivals = Except.ok masters ∧
        ∀ g,
          ((∀ e ∈ replyEntries arrivals, e.1 ≠ g) → assocGet masters g = none) ∧
          ((∃ e ∈ replyEntries arrivals, e.1 = g) →
            ∃ m, (g, m) ∈ replyEntries arrivals ∧ assocGet masters g = some m.addr ∧
              ∀ e ∈ replyEntries arrivals, e.1 = g → e.2.epoch ≤ m.epoch)) := by
  have hinit : MastersState.Sound ⟨[], [], 0⟩ [] := by
    intro g
    simp [assocGet]
  obtain ⟨st', h1, h2, h3⟩ := mastersLoop_spec n ctx hctx arrivals n ⟨[], [], 0⟩ [] hlen hinit
  simp only [List.nil_append, Nat.zero_add] at h1 h2
  unfold Masters
  rw [h3]
  unfold MastersState.finish
  rw [h2]
  constructor
  · intro hk
    rw [if_pos (by omega)]
  · intro hk
    rw [if_neg (by omega)]
    refine ⟨st'.masters, rfl, ?_⟩
    intro g
    have hg := h1 g
    cases hc : assocGet st'.current g with
    | none =>
      have h2' := hg.2
      rw [hc] at h2'
      refine ⟨fun _ => by rw [hg.1, hc]; rfl, ?_⟩
      rintro ⟨e, he, hk⟩
      exact absurd hk (h2' e he)
    | some m =>
      have h2' := hg.2
      rw [hc] at h2'
      refine ⟨fun hno => absurd rfl (hno (g, m) h2'.1), ?_⟩
      intro _
      exact ⟨m, h2'.1, by rw [hg.1, hc]; rfl, h2'.2⟩

/-- C13 on three sentinels: with one unreachable the masters of the other two
are returned, the greater epoch winning; with two unreachable the majority of
2 is lost. -/
theorem Masters_quorum_witness :
    Masters 3 CtxState.live
      [some [("g", ⟨"A", 1⟩)], none, some [("g", ⟨"B", 2⟩), ("h", ⟨"C", 0⟩)]] =
      Except.ok [("g", "B"), ("h", "C")] ∧
    Masters 3 CtxState.live [some [("g", ⟨"A", 1⟩)], none, none] =
      Except.error (MastersErr.lostMajority 1 3) ∧
    (successfulReplies [some [("g", ⟨"A", 1⟩)], none, none] < 3 / 2 + 1 →
      Masters 3 CtxState.live [some [("g", ⟨"A", 1⟩)], none, none] =
        Except.error (MastersErr.lostMajority
          (successfulReplies [some [("g", ⟨"A", 1⟩)], none, none]) 3)) :=
  ⟨rfl, rfl,
   (Masters_quorum 3 CtxState.live [some [("g", ⟨"A", 1⟩)], none, none]
     (by decide) (by decide)).1⟩

/-! ### C14 -/

/-- C14, the claim as written fails: "a" and "a-b" are valid product names, and
the client of product "a" accepts the wire name "a-b-g" that product "a-b"
gives its group "g", as its own group "b-g"; the client of "a-b" accepts the
wire name that product "a" gives its group "b-g". -/
theorem isSameProduct_accepts_other_product :
    validateProduct "a" = true ∧ validateProduct "a-b" = true ∧
    isSameProduct "a" (NodeName "a-b" "g") = ("b-g", true) ∧
    isSameProduct "a-b" (NodeName "a" "b-g") = ("g", true) := by
  decide

theorem NodeName_data (product groupName : String) :
    (NodeName product groupName).data = product.data ++ '-' :: groupName.data := by
  simp [NodeName, String.data_append]

/-- A name the client of `product` accepts starts with the product and a
dash. -/
theorem isSameProduct_prefix (product name : String) (h : (isSameProduct product name).2 = true) :
    product.data ++ ['-'] <+: name.data := by
  unfold isSameProduct at h
  by_cases hp : product.data.isPrefixOf name.data = true
  · rw [if_neg (by simpa using hp)] at h
    by_cases hs : (name.data.drop product.data.length).length ≤ 1 ∨
        (name.data.drop product.data.length).head? ≠ some '-'
    · rw [if_pos hs] at h
      simp at h
    · obtain ⟨t, ht⟩ := List.isPrefixOf_iff_prefix.mp hp
      have hd : name.data.drop product.data.length = t := by
        rw [← ht]; simp
      rw [hd] at hs
      cases t with
      | nil => simp at hs
      | cons c t' =>
        have hc : c = '-' := by
          by_contra hne
          exact hs (Or.inr (by simpa using hne))
        subst hc
        exact ⟨t', by rw [← ht]; simp⟩
  · rw [if_pos (by simpa using hp)] at h
    simp at h

/-- C14 (amended): for product names P ≠ Q neither of which, followed by a
dash, is a prefix of the other, and every group name g, the client of product
P rejects the wire name that product Q produces for g. -/
theorem isSameProduct_rejects (P Q g : String) (hne : P ≠ Q)
    (hPQ : ¬ (P.data ++ ['-'] <+: Q.data)) (hQP : ¬ (Q.data ++ ['-'] <+: P.data)) :
    (isSameProduct P (NodeName Q g)).2 = false := by
  cases hres : (isSameProduct P (NodeName Q g)).2 with
  | false => rfl
  | true =>
    exfalso
    have h1 := isSameProduct_prefix P (NodeName Q g) hres
    rw [NodeName_data] at h1
    have h2 : Q.data ++ ['-'] <+: Q.data ++ '-' :: g.data := ⟨g.data, by simp⟩
    have h3 : P.data <+: Q.data ++ '-' :: g.data :=
      (List.prefix_append _ _).trans h1
    have h4 : Q.data <+: Q.data ++ '-' :: g.data := List.prefix_append _ _
    rcases Nat.lt_trichotomy P.data.length Q.data.length with hlt | heq | hgt
    · exact hPQ (List.prefix_of_prefix_length_le h1 h4 (by simp only [List.length_append, List.length_singleton]; omega))
    · have hpre := List.prefix_of_prefix_length_le h3 h4 (by omega)
      have := List.IsPrefix.eq_of_length hpre heq
      exact hne (String.ext this)
    · exact hQP (List.prefix_of_prefix_length_le h2 h3 (by simp only [List.length_append, List.length_singleton]; omega))

/-- C14 (amended) at the valid products "a" and "b": the client of "a" rejects
the wire name "b-g". -/
theorem isSameProduct_rejects_witness :
    validateProduct "a" = true ∧ validateProduct "b" = true ∧
    (isSameProduct "a" (NodeName "b" "g")).2 = false :=
  ⟨by decide, by decide,
   isSameProduct_rejects "a" "b" "g" (by decide) (by decide) (by decide)⟩

/-! ### The GSLB projection -/

theorem doFunc_get_self (sg : GSLBBackends) (st : String) (p : Int) (a : String) :
    assocGet (doFunc sg st p a) st =
      some ⟨backendServers sg st ++ [a],
        match assocGet sg st with
        | some b => b.port
        | none => p⟩ := by
  unfold doFunc backendServers
  cases h : assocGet sg st with
  | none => simp [assocGet_set_self]
  | some b => simp [assocGet_set_self]

theorem doFunc_get_ne (sg : GSLBBackends) (st st' : String) (p : Int) (a : String)
    (h : st' ≠ st) : assocGet (doFunc sg st p a) st' = assocGet sg st' := by
  unfold doFunc
  cases assocGet sg st with
  | none => simp [assocGet_set_ne _ _ _ _ h]
  | some b => simp [assocGet_set_ne _ _ _ _ h]

/-- From the second round on, the inner loop fails when a server with live
stats reports another master, and otherwise lists under "Read" the servers
that serve reads. -/
theorem backendLoop_succ (stats : ServerStats) (g : Group) (m : String) :
    ∀ (l : List GroupServer) (i : Nat) (sg : GSLBBackends),
      backendLoop stats g m l (i + 1) sg =
        if l.all (reportsMaster stats m) then
          some ((l.filter (servesReads stats m)).foldl
            (fun sg s => doFunc sg "Read" g.proxyReadPort s.addr) sg)
        else none := by
  intro l
  induction l with
  | nil => intro i sg; simp [backendLoop]
  | cons s rest ih =>
    intro i sg
    unfold backendLoop
    cases h : liveStats stats s.addr with
    | none =>
      simp only [ih, List.all_cons, reportsMaster, servesReads, h, Bool.true_and]
      simp [List.filter_cons, servesReads, h]
    | some rs =>
      by_cases h1 : rs.MasterAddr = m
      · by_cases h2 : rs.MasterLinkStatus = MasterLinkStatusUp
        · simp [ih, List.filter_cons, reportsMaster, servesReads, h, h1, h2]
        · simp [ih, List.filter_cons, reportsMaster, servesReads, h, h1, h2]
      · simp [reportsMaster, h, h1]

theorem readFold_write (p : Int) (l : List GroupServer) :
    ∀ sg : GSLBBackends,
      assocGet (l.foldl (fun sg s => doFunc sg "Read" p s.addr) sg) "Write" =
        assocGet sg "Write" := by
  induction l with
  | nil => intro sg; rfl
  | cons s rest ih =>
    intro sg
    rw [List.foldl_cons, ih, doFunc_get_ne _ _ _ _ _ (by decide)]

theorem readFold_servers (p : Int) (l : List GroupServer) :
    ∀ sg : GSLBBackends,
      backendServers (l.foldl (fun sg s => doFunc sg "Read" p s.addr) sg) "Read" =
        backendServers sg "Read" ++ l.map (fun s => s.addr) := by
  induction l with
  | nil => intro sg; simp
  | cons s rest ih =>
    intro sg
    rw [List.foldl_cons, ih]
    have : backendServers (doFunc sg "Read" p s.addr) "Read" =
        backendServers sg "Read" ++ [s.addr] := by
      conv_lhs => unfold backendServers
      rw [doFunc_get_self]
    rw [this]; simp

theorem readFold_port (p : Int) (l : List GroupServer) :
    ∀ (sg : GSLBBackends) (b : GSLBBackend), assocGet sg "Read" = some b →
      ∃ b', assocGet (l.foldl (fun sg s => doFunc sg "Read" p s.addr) sg) "Read" = some b' ∧
        b'.port = b.port := by
  induction l with
  | nil => intro sg b h; exact ⟨b, h, rfl⟩
  | cons s rest ih =>
    intro sg b h
    rw [List.foldl_cons]
    obtain ⟨b', h1, h2⟩ := ih (doFunc sg "Read" p s.addr) _ (doFunc_get_self sg "Read" p s.addr)
    refine ⟨b', h1, ?_⟩
    rw [h2, h]

/-- The backend group of a group with servers, in closed form. -/
theorem groupBackend_eq (stats : ServerStats) (g : Group) (s0 : GroupServer)
    (rest : List GroupServer) (hs : g.servers = s0 :: rest) :
    groupBackend stats g =
      if rest.all (reportsMaster stats s0.addr) then
        some ⟨g.name, (rest.filter (servesReads stats s0.addr)).foldl
          (fun sg s => doFunc sg "Read" g.proxyReadPort s.addr)
          (match liveStats stats s0.addr with
           | none => []
           | some _ =>
             doFunc (doFunc [] "Read" g.proxyReadPort s0.addr) "Write" g.proxyWritePort
               s0.addr)⟩
      else none := by
  unfold groupBackend
  rw [hs]
  simp only []
  unfold backendLoop
  cases h : liveStats stats s0.addr with
  | none =>
    simp only [Nat.zero_add, backendLoop_succ]
    split <;> simp
  | some rs =>
    simp only [Nat.zero_add, backendLoop_succ, ne_eq, not_true_eq_false, false_and, if_false,
      if_true]
    split <;> simp

/-- The backend groups of the result are those of the groups of the map. -/
theorem haproxyBackends_mem (stats : ServerStats) (groups : Groups)
    (bs : List GSLBBackendGroup) (hres : haproxyBackends stats groups = Except.ok bs)
    (bg : GSLBBackendGroup) :
    bg ∈ bs ↔ ∃ kv ∈ groups, groupBackend stats kv.2 = some bg := by
  unfold haproxyBackends at hres
  split at hres
  · cases hres
  · injection hres with hres
    subst hres
    simp only [List.mem_filterMap, sortGroups]
    constructor
    · rintro ⟨g, hg, hb⟩
      have hg' := (List.perm_insertionSort _ _).mem_iff.mp hg
      obtain ⟨kv, hkv, rfl⟩ := List.mem_map.mp hg'
      exact ⟨kv, hkv, hb⟩
    · rintro ⟨kv, hkv, hb⟩
      exact ⟨kv.2, (List.perm_insertionSort _ _).mem_iff.mpr (List.mem_map.mpr ⟨kv, hkv, rfl⟩), hb⟩

theorem reportsMaster_all (stats : ServerStats) (m : String) (l : List GroupServer) :
    l.all (reportsMaster stats m) = true ↔
      ∀ s ∈ l, ∀ rs, liveStats stats s.addr = some rs → rs.MasterAddr = m := by
  simp only [List.all_eq_true]
  constructor
  · intro h s hs rs hrs
    have := h s hs
    simpa [reportsMaster, hrs] using this
  · intro h s hs
    unfold reportsMaster
    cases hrs : liveStats stats s.addr with
    | none => rfl
    | some rs => simpa using h s hs rs hrs

theorem servesReads_iff (stats : ServerStats) (m : String) (s : GroupServer) :
    servesReads stats m s = true ↔
      ∃ rs, liveStats stats s.addr = some rs ∧ rs.MasterAddr = m ∧
        rs.MasterLinkStatus = "up" := by
  unfold servesReads
  cases hrs : liveStats stats s.addr with
  | none => simp
  | some rs => simp [MasterLinkStatusUp]

theorem masterRound_eq (rp wp : Int) (a : String) :
    doFunc (doFunc [] "Read" rp a) "Write" wp a =
      [("Read", ⟨[a], rp⟩), ("Write", ⟨[a], wp⟩)] := by
  simp [doFunc, assocGet, assocSet]

/-! ### C15 -/

/-- C15, the claim as written fails: in the group [A, B, C] the replica B
reports the master A with link status "up", yet it is listed nowhere, because
C reports the master X and the whole group is left out of the result. -/
theorem haproxyBackends_drops_group :
    groupsABC = [("g", mkGroup "g" ["A", "B", "C"] 0 "")] ∧
    (∃ rs, liveStats statsSplit "B" = some rs ∧ rs.MasterAddr = "A" ∧
      rs.MasterLinkStatus = "up") ∧
    haproxyBackends statsSplit groupsABC = Except.ok [] :=
  ⟨rfl, ⟨_, rfl, by decide, by decide⟩, rfl⟩

/-- C15 (amended): the result of `haproxyBackends` holds exactly the backend
groups of the groups of the map; for a group in which no replica has the
master's address, if every replica with live stats reports the master
`servers[0].addr` then the group's backend group is in the result, and a
replica's address is listed under "Read" there if and only if the replica has
live stats that report the master `servers[0].addr` and the link status "up";
if some replica with live stats reports another master, the group has no
backend group. -/
theorem haproxyBackends_read_replicas (stats : ServerStats) (groups : Groups)
    (bs : List GSLBBackendGroup) (k : String) (g : Group) (s0 : GroupServer)
    (rest : List GroupServer)
    (hres : haproxyBackends stats groups = Except.ok bs)
    (hmem : (k, g) ∈ groups) (hs : g.servers = s0 :: rest)
    (hne : ∀ s ∈ rest, s.addr ≠ s0.addr) :
    (∀ bg, bg ∈ bs ↔ ∃ kv ∈ groups, groupBackend stats kv.2 = some bg) ∧
    ((∀ s ∈ rest, ∀ rs, liveStats stats s.addr = some rs → rs.MasterAddr = s0.addr) →
      ∃ bg ∈ bs, groupBackend stats g = some bg ∧ bg.name = g.name ∧
        ∀ s ∈ rest, (s.addr ∈ backendServers bg.serverGroup "Read" ↔
          ∃ rs, liveStats stats s.addr = some rs ∧ rs.MasterAddr = s0.addr ∧
            rs.MasterLinkStatus = "up")) ∧
    ((∃ s ∈ rest, ∃ rs, liveStats stats s.addr = some rs ∧ rs.MasterAddr ≠ s0.addr) →
      groupBackend stats g = none) := by
  have hgb := groupBackend_eq stats g s0 rest hs
  refine ⟨haproxyBackends_mem stats groups bs hres, ?_, ?_⟩
  · intro hall
    rw [if_pos ((reportsMaster_all stats s0.addr rest).mpr hall)] at hgb
    refine ⟨_, (haproxyBackends_mem stats groups bs hres _).mpr ⟨(k, g), hmem, hgb⟩, hgb, rfl,
      ?_⟩
    intro s hsr
    rw [← servesReads_iff]
    show s.addr ∈ backendServers (List.foldl _ _ _) "Read" ↔ _
    rw [readFold_servers]
    simp only [List.mem_append, List.mem_map, List.mem_filter]
    constructor
    · rintro (h | ⟨s', ⟨_, h1⟩, h2⟩)
      · exfalso
        cases hl : liveStats stats s0.addr with
        | none => rw [hl] at h; simp [backendServers, assocGet] at h
        | some rs =>
          rw [hl] at h
          simp only [masterRound_eq] at h
          simp [backendServers, assocGet] at h
          exact hne s hsr h
      · unfold servesReads at h1 ⊢
        rw [← h2]
        exact h1
    · intro h
      exact Or.inr ⟨s, ⟨hsr, h⟩, rfl⟩
  · rintro ⟨s, hsr, rs, hrs, hne'⟩
    rw [if_neg] at hgb
    · exact hgb
    · intro hall
      exact hne' ((reportsMaster_all stats s0.addr rest).mp hall s hsr rs hrs)

/-- C15 (amended) at the example of the claim: for the group [A, B, C] with B
reporting the master A / up and C reporting the master A / down, the result
is Write = {A} at the write port and Read = {A, B} at the read port. -/
theorem haproxyBackends_read_replicas_witness :
    haproxyBackends statsABC groupsABC =
      Except.ok [⟨"g", [("Read", ⟨["A", "B"], 11000⟩), ("Write", ⟨["A"], 12000⟩)]⟩] ∧
    ∃ bg ∈ [(⟨"g", [("Read", ⟨["A", "B"], 11000⟩), ("Write", ⟨["A"], 12000⟩)]⟩ :
        GSLBBackendGroup)],
      groupBackend statsABC (mkGroup "g" ["A", "B", "C"] 0 "") = some bg ∧
      bg.name = (mkGroup "g" ["A", "B", "C"] 0 "").name ∧
      ∀ s ∈ [(⟨"B"⟩ : GroupServer), ⟨"C"⟩],
        (s.addr ∈ backendServers bg.serverGroup "Read" ↔
          ∃ rs, liveStats statsABC s.addr = some rs ∧
            rs.MasterAddr = (⟨"A"⟩ : GroupServer).addr ∧ rs.MasterLinkStatus = "up") :=
  ⟨rfl,
   (haproxyBackends_read_replicas statsABC groupsABC _ "g" (mkGroup "g" ["A", "B", "C"] 0 "")
     ⟨"A"⟩ [⟨"B"⟩, ⟨"C"⟩] rfl (by decide) rfl (by decide)).2.1 (by decide)⟩

/-! ### C16 -/

/-- C16, the claim as written fails: the master A of the group [A, B, C] has no
live stats, yet the group's backend group is emitted, and it lists A neither
under "Write" nor under "Read". -/
theorem haproxyBackends_emits_without_master :
    groupsABC = [("g", mkGroup "g" ["A", "B", "C"] 0 "")] ∧
    liveStats statsNoMaster "A" = none ∧
    haproxyBackends statsNoMaster groupsABC =
      Except.ok [⟨"g", [("Read", ⟨["B"], 11000⟩)]⟩] :=
  ⟨rfl, rfl, rfl⟩

/-- C16 (amended): every backend group that `haproxyBackends` emits is the
backend group of a group of the map with at least one server and bears its
name; when the master `servers[0]` of that group has live stats, the backend
group lists exactly `servers[0].addr` under "Write" with the port
`proxyWritePort` and lists `servers[0].addr` under "Read" with the port
`proxyReadPort`; when it has none, the backend group has no "Write" entry. -/
theorem haproxyBackends_master (stats : ServerStats) (groups : Groups)
    (bs : List GSLBBackendGroup) (bg : GSLBBackendGroup)
    (hres : haproxyBackends stats groups = Except.ok bs) (hbg : bg ∈ bs) :
    ∃ k g s0 rest, (k, g) ∈ groups ∧ g.servers = s0 :: rest ∧
      groupBackend stats g = some bg ∧ bg.name = g.name ∧
      ((∃ rs, liveStats stats s0.addr = some rs) →
        assocGet bg.serverGroup "Write" = some ⟨[s0.addr], g.proxyWritePort⟩ ∧
        ∃ b, assocGet bg.serverGroup "Read" = some b ∧ s0.addr ∈ b.servers ∧
          b.port = g.proxyReadPort) ∧
      (liveStats stats s0.addr = none → assocGet bg.serverGroup "Write" = none) := by
  obtain ⟨⟨k, g⟩, hmem, hgb⟩ := (haproxyBackends_mem stats groups bs hres bg).mp hbg
  simp only at hgb
  cases hs : g.servers with
  | nil => simp [groupBackend, hs] at hgb
  | cons s0 rest =>
    rw [groupBackend_eq stats g s0 rest hs] at hgb
    split at hgb
    · injection hgb with hgb
      subst hgb
      refine ⟨k, g, s0, rest, hmem, hs, ?_, rfl, ?_, ?_⟩
      · rw [groupBackend_eq stats g s0 rest hs, if_pos (by assumption)]
      · rintro ⟨rs, hrs⟩
        simp only [hrs, masterRound_eq]
        refine ⟨?_, ?_⟩
        · rw [readFold_write]; simp [assocGet]
        · obtain ⟨b', h1, h2⟩ := readFold_port g.proxyReadPort
            (rest.filter (servesReads stats s0.addr))
            [("Read", ⟨[s0.addr], g.proxyReadPort⟩), ("Write", ⟨[s0.addr], g.proxyWritePort⟩)]
            ⟨[s0.addr], g.proxyReadPort⟩ (by simp [assocGet])
          refine ⟨b', h1, ?_, h2⟩
          have h3 := readFold_servers g.proxyReadPort (rest.filter (servesReads stats s0.addr))
            [("Read", ⟨[s0.addr], g.proxyReadPort⟩), ("Write", ⟨[s0.addr], g.proxyWritePort⟩)]
          unfold backendServers at h3
          rw [h1] at h3
          simp only [assocGet, if_true] at h3
          rw [h3]
          simp
      · intro hnone
        simp only [hnone]
        rw [readFold_write]; rfl
    · cases hgb

/-- C16 (amended) at the group [A, B, C] with live stats for all three
servers: the emitted backend group lists A under "Write" and "Read". -/
theorem haproxyBackends_master_witness :
    haproxyBackends statsABC groupsABC =
      Except.ok [⟨"g", [("Read", ⟨["A", "B"], 11000⟩), ("Write", ⟨["A"], 12000⟩)]⟩] ∧
    ∃ k g s0 rest, (k, g) ∈ groupsABC ∧ g.servers = s0 :: rest ∧
      groupBackend statsABC g =
        some ⟨"g", [("Read", ⟨["A", "B"], 11000⟩), ("Write", ⟨["A"], 12000⟩)]⟩ ∧
      (⟨"g", [("Read", ⟨["A", "B"], 11000⟩), ("Write", ⟨["A"], 12000⟩)]⟩ :
        GSLBBackendGroup).name = g.name ∧
      ((∃ rs, liveStats statsABC s0.addr = some rs) →
        assocGet (⟨"g", [("Read", ⟨["A", "B"], 11000⟩), ("Write", ⟨["A"], 12000⟩)]⟩ :
          GSLBBackendGroup).serverGroup "Write" = some ⟨[s0.addr], g.proxyWritePort⟩ ∧
        ∃ b, assocGet (⟨"g", [("Read", ⟨["A", "B"], 11000⟩), ("Write", ⟨["A"], 12000⟩)]⟩ :
            GSLBBackendGroup).serverGroup "Read" = some b ∧ s0.addr ∈ b.servers ∧
          b.port = g.proxyReadPort) ∧
      (liveStats statsABC s0.addr = none →
        assocGet (⟨"g", [("Read", ⟨["A", "B"], 11000⟩), ("Write", ⟨["A"], 12000⟩)]⟩ :
          GSLBBackendGroup).serverGroup "Write" = none) :=
  ⟨rfl, haproxyBackends_master statsABC groupsABC _ _ rfl (List.mem_singleton.mpr rfl)⟩

/-! ### C17 -/

theorem getServerIndexFrom_none (l : List GroupServer) (addr : String) (i : Nat)
    (h : ∀ s ∈ l, s.addr ≠ addr) : getServerIndexFrom l addr i = -1 := by
  induction l generalizing i with
  | nil => rfl
  | cons v vs ih =>
    have hv : v.addr ≠ addr := h v (List.mem_cons_self _ _)
    simp only [getServerIndexFrom, hv, if_false]
    exact ih (i + 1) (fun s hs => h s (List.mem_cons_of_mem _ hs))

theorem getServerIndexFrom_first (l : List GroupServer) (addr : String) (i idx : Nat)
    (s : GroupServer) (hget : l[idx]? = some s) (hs : s.addr = addr)
    (hfirst : ∀ j s', j < idx → l[j]? = some s' → s'.addr ≠ addr) :
    getServerIndexFrom l addr i = ((i + idx : Nat) : Int) := by
  induction l generalizing i idx with
  | nil => simp at hget
  | cons v vs ih =>
    cases idx with
    | zero =>
      simp at hget
      subst hget
      simp [getServerIndexFrom, hs]
    | succ n =>
      have hv : v.addr ≠ addr := hfirst 0 v (Nat.succ_pos n) (by simp)
      simp only [getServerIndexFrom, hv, if_false]
      rw [ih (i + 1) n (by simpa using hget)
        (fun j s' hj hs' => hfirst (j + 1) s' (by omega) (by simpa using hs'))]
      congr 1
      omega

theorem runIdIndexFrom_none (env : Env) (m : String) (l : List GroupServer) (i : Nat)
    (h : ∀ s ∈ l, ¬ (env.runId m ≠ "" ∧ env.runId m = env.runId s.addr)) :
    runIdIndexFrom env m l i = -1 := by
  induction l generalizing i with
  | nil => rfl
  | cons v vs ih =>
    have hv := h v (List.mem_cons_self _ _)
    rw [runIdIndexFrom, if_neg hv]
    exact ih (i + 1) (fun s hs => h s (List.mem_cons_of_mem _ hs))

theorem runIdIndexFrom_first (env : Env) (m : String) (l : List GroupServer) (i idx : Nat)
    (s : GroupServer) (hget : l[idx]? = some s)
    (hs : env.runId m ≠ "" ∧ env.runId m = env.runId s.addr)
    (hfirst : ∀ j s', j < idx → l[j]? = some s' →
      ¬ (env.runId m ≠ "" ∧ env.runId m = env.runId s'.addr)) :
    runIdIndexFrom env m l i = ((i + idx : Nat) : Int) := by
  induction l generalizing i idx with
  | nil => simp at hget
  | cons v vs ih =>
    cases idx with
    | zero =>
      simp at hget
      subst hget
      rw [runIdIndexFrom, if_pos hs]
      simp
    | succ n =>
      have hv := hfirst 0 v (Nat.succ_pos n) (by simp)
      rw [runIdIndexFrom, if_neg hv]
      rw [ih (i + 1) n (by simpa using hget)
        (fun j s' hj hs' => hfirst (j + 1) s' (by omega) (by simpa using hs'))]
      congr 1
      omega

/-- The index closure returns the index of the claim: the first server with
the address `m`, or failing that the first server with the non-empty run-id of
`m`. -/
theorem switchIndex_eq (env : Env) (g : Group) (m : String) (idx : Nat) (s : GroupServer)
    (hget : g.servers[idx]? = some s)
    (hidx : (s.addr = m ∧ ∀ j s', j < idx → g.servers[j]? = some s' → s'.addr ≠ m) ∨
      ((∀ s' ∈ g.servers, s'.addr ≠ m) ∧ env.runId m ≠ "" ∧
        env.runId s.addr = env.runId m ∧
        ∀ j s', j < idx → g.servers[j]? = some s' → env.runId s'.addr ≠ env.runId m)) :
    switchIndex env g m = (idx : Int) := by
  unfold switchIndex
  rcases hidx with ⟨h1, h2⟩ | ⟨h1, h2, h3, h4⟩
  · have := getServerIndexFrom_first g.servers m 0 idx s hget h1 h2
    rw [Nat.zero_add] at this
    rw [this, if_pos (by omega)]
  · rw [getServerIndexFrom_none g.servers m 0 h1, if_neg (by simp)]
    have := runIdIndexFrom_first env m g.servers 0 idx s hget ⟨h2, h3.symm⟩
      (fun j s' hj hs' h => h4 j s' hj hs' h.2.symm)
    rw [Nat.zero_add] at this
    exact this

theorem groupMapper.Update_sentinel (env : Env) (g : Group) (w : World) :
    (groupMapper.Update env g w).2.sentinel = w.sentinel := by
  unfold groupMapper.Update
  by_cases h : env.ok w.trace.length <;> simp [h, World.emit, World.setGroup]

theorem trySwitchGroupMaster_sentinel (env : Env) (k m : String) (w : World) :
    (trySwitchGroupMaster env k m w).2.sentinel = w.sentinel := by
  unfold trySwitchGroupMaster
  cases w.groups.get k with
  | none => rfl
  | some g =>
    dsimp only
    split_ifs
    · rfl
    · rfl
    · cases hu : (groupMapper.Update env (switchedGroup g (switchIndex env g m))
          (w.setGroup k (switchedGroup g (switchIndex env g m)))).1 with
      | some e =>
        rw [thenDo_some hu]
        exact groupMapper.Update_sentinel env _ _
      | none =>
        rw [thenDo_of_none hu]
        exact groupMapper.Update_sentinel env _ _

/-- C17: for a group g of the map and a reported master address m, let idx be
the first index whose address is m, or failing that the first index whose
run-id is the non-empty run-id of m. If there is no such index,
`trySwitchGroupMaster` returns an error and changes nothing; if idx is 0 it
returns nil and changes nothing; otherwise the record of the group becomes g
with `servers[0]` and `servers[idx]` exchanged and `outOfSync = true`, every
other field and every other server as before. -/
theorem trySwitchGroupMaster_cases (env : Env) (k m : String) (w : World) (g : Group)
    (hwf : w.groups.WF) (hg : w.groups.get k = some g) :
    ((∀ s ∈ g.servers, s.addr ≠ m ∧ ¬ (env.runId m ≠ "" ∧ env.runId s.addr = env.runId m)) →
      trySwitchGroupMaster env k m w = (some Err.masterNotInGroup, w)) ∧
    (∀ idx s, g.servers[idx]? = some s →
      ((s.addr = m ∧ ∀ j s', j < idx → g.servers[j]? = some s' → s'.addr ≠ m) ∨
       ((∀ s' ∈ g.servers, s'.addr ≠ m) ∧ env.runId m ≠ "" ∧
         env.runId s.addr = env.runId m ∧
         ∀ j s', j < idx → g.servers[j]? = some s' → env.runId s'.addr ≠ env.runId m)) →
      (idx = 0 → trySwitchGroupMaster env k m w = (none, w)) ∧
      (idx ≠ 0 →
        (trySwitchGroupMaster env k m w).2.groups =
          w.groups.set k { g with servers := swapServers g.servers idx, outOfSync := true } ∧
        (trySwitchGroupMaster env k m w).2.sentinel = w.sentinel ∧
        ∀ j, (swapServers g.servers idx)[j]? =
          if j = idx then g.servers[0]? else if j = 0 then g.servers[idx]?
          else g.servers[j]?)) := by
  refine ⟨?_, ?_⟩
  · intro h
    have hsi : switchIndex env g m = -1 := by
      unfold switchIndex
      rw [getServerIndexFrom_none g.servers m 0 (fun s hs => (h s hs).1), if_neg (by simp)]
      exact runIdIndexFrom_none env m g.servers 0
        (fun s hs hh => (h s hs).2 ⟨hh.1, hh.2.symm⟩)
    unfold trySwitchGroupMaster
    rw [hg]
    simp only [hsi, if_true]
  · intro idx s hget hidx
    have hsi := switchIndex_eq env g m idx s hget hidx
    have hlt : idx < g.servers.length := (List.getElem?_eq_some_iff.mp hget).1
    refine ⟨?_, ?_⟩
    · intro h0
      subst h0
      unfold trySwitchGroupMaster
      rw [hg]
      simp [hsi]
    · intro h0
      refine ⟨?_, trySwitchGroupMaster_sentinel env k m w, fun j => swapServers_get g.servers idx j hlt⟩
      unfold trySwitchGroupMaster
      rw [hg]
      dsimp only
      rw [hsi, if_neg (by omega), if_neg (by omega)]
      have := writeThrough_groups env k (switchedGroup g (idx : Int)) w
        (fun w1 => refreshGSLBBackendInfo env w1)
        (show g.name = k from Groups.name_of_get hwf hg)
        (fun w1 => refreshGSLBBackendInfo_groups env w1)
      rw [this]
      simp [switchedGroup]

/-- C17 on the two-group state: the master B reported for g = [A, B] exchanges
A and B, and the master X reported with the run-id of A changes nothing. -/
theorem trySwitchGroupMaster_cases_witness :
    twoGroups.groups.WF ∧ twoGroups.groups.get "g" = some (mkGroup "g" ["A", "B"] 0 "") ∧
    ((trySwitchGroupMaster envAllOk "g" "B" twoGroups).2.groups =
        twoGroups.groups.set "g"
          { mkGroup "g" ["A", "B"] 0 "" with
            servers := swapServers (mkGroup "g" ["A", "B"] 0 "").servers 1, outOfSync := true } ∧
      (trySwitchGroupMaster envAllOk "g" "B" twoGroups).2.sentinel = twoGroups.sentinel ∧
      ∀ j, (swapServers (mkGroup "g" ["A", "B"] 0 "").servers 1)[j]? =
        if j = 1 then (mkGroup "g" ["A", "B"] 0 "").servers[0]?
        else if j = 0 then (mkGroup "g" ["A", "B"] 0 "").servers[1]?
        else (mkGroup "g" ["A", "B"] 0 "").servers[j]?) ∧
    swapServers (mkGroup "g" ["A", "B"] 0 "").servers 1 = [⟨"B"⟩, ⟨"A"⟩] ∧
    trySwitchGroupMaster envSameRunId "g" "X" twoGroups = (none, twoGroups) ∧
    trySwitchGroupMaster envAllOk "g" "X" twoGroups = (some Err.masterNotInGroup, twoGroups) :=
  ⟨by decide, by decide,
   ((trySwitchGroupMaster_cases envAllOk "g" "B" twoGroups (mkGroup "g" ["A", "B"] 0 "")
      (by decide) (by decide)).2 1 ⟨"B"⟩ rfl
      (Or.inl ⟨rfl, by
        intro j s' hj hs'
        have hj0 : j = 0 := by omega
        subst hj0
        simp [mkGroup] at hs'
        subst hs'
        decide⟩)).2 (by decide),
   rfl, rfl, rfl⟩

/-! ### C18 -/

/-- C18, the claim as written fails: on a started service, a `Close` whose
`topomMapper.Delete` fails returns an error and `IsOnline` is still true;
every later `Close` returns nil at once and `IsOnline` stays true. -/
theorem Close_failed_delete_stays_online :
    Lifecycle.Start [true] true Lifecycle.new = some (none, Lifecycle.running) ∧
    (Lifecycle.Close false Lifecycle.running).1 = some LifecycleErr.deleteTopomFailed ∧
    (Lifecycle.Close false Lifecycle.running).2.IsOnline = true ∧
    ∀ deleteOk,
      Lifecycle.Close deleteOk (Lifecycle.Close false Lifecycle.running).2 =
        (none, (Lifecycle.Close false Lifecycle.running).2) ∧
      (Lifecycle.Close deleteOk (Lifecycle.Close false Lifecycle.running).2).2.IsOnline =
        true := by
  refine ⟨by decide, by decide, by decide, ?_⟩
  intro deleteOk
  cases deleteOk <;> decide

/-- C18 (amended): a `Close` that finds the service not yet closed and whose
`topomMapper.Delete` succeeds returns nil, and then `IsOnline` is false and
the Topom node is gone; when the `Delete` fails it returns the error, having
marked the service closed, and leaves `online` and the Topom node as they
were; a `Close` on a service already closed returns nil and changes nothing. -/
theorem Close_online (deleteOk : Bool) (s : Lifecycle) :
    (s.closed = 0 → deleteOk = true →
      (Lifecycle.Close deleteOk s).1 = none ∧
      (Lifecycle.Close deleteOk s).2.IsOnline = false ∧
      (Lifecycle.Close deleteOk s).2.topomNode = false) ∧
    (s.closed = 0 → deleteOk = false →
      (Lifecycle.Close deleteOk s).1 = some LifecycleErr.deleteTopomFailed ∧
      (Lifecycle.Close deleteOk s).2 = { s with closed := 1, done := true }) ∧
    (s.closed ≠ 0 → Lifecycle.Close deleteOk s = (none, s)) := by
  refine ⟨?_, ?_, ?_⟩
  · intro h hd
    simp [Lifecycle.Close, h, hd, Lifecycle.IsOnline]
  · intro h hd
    simp [Lifecycle.Close, h, hd]
  · intro h
    simp [Lifecycle.Close, h]

/-- C18 (amended) on a started service: a `Close` whose `Delete` succeeds
returns nil and leaves the service offline. -/
theorem Close_online_witness :
    Lifecycle.running.closed = 0 ∧
    (Lifecycle.Close true Lifecycle.running).1 = none ∧
    (Lifecycle.Close true Lifecycle.running).2.IsOnline = false ∧
    (Lifecycle.Close true Lifecycle.running).2.topomNode = false :=
  ⟨rfl, (Close_online true Lifecycle.running).1 rfl rfl⟩

/-! ### C19 -/

theorem thenDo_sentinel (r : Option Err × World) (rest : World → Option Err × World)
    (hrest : ∀ w1 : World, (rest w1).2.sentinel = w1.sentinel) :
    (thenDo r rest).2.sentinel = r.2.sentinel := by
  unfold thenDo
  cases r.1 with
  | some e => rfl
  | none => exact hrest _

theorem sentinelMapper.Update_sentinel_same (env : Env) (s : Sentinel) (w : World)
    (h : w.sentinel = s) : (sentinelMapper.Update env s w).2.sentinel = s := by
  unfold sentinelMapper.Update
  by_cases hok : env.ok w.trace.length <;> simp [hok, World.emit, h]

theorem outOfSyncBySentinel_sentinel (env : Env) (w : World) :
    (outOfSyncBySentinel env w).2.sentinel =
      markOutOfSync w.sentinel := by
  unfold outOfSyncBySentinel markOutOfSync
  split_ifs
  · exact sentinelMapper.Update_sentinel_same env _ _ rfl
  · rfl

theorem resyncLoop_sentinel (env : Env) (n m : String) (l : List GroupServer) (i : Nat)
    (errs : List SyncFailure) (w : World) :
    (resyncLoop env n m l i errs w).2.sentinel = w.sentinel := by
  induction l generalizing i errs w with
  | nil => rfl
  | cons v vs ih => simp [resyncLoop, ih, doSyncAction, World.emit]

theorem resyncGroup_sentinel (env : Env) (k : String) (g : Group) (w : World) :
    (resyncGroup env k g w).2.2.sentinel = w.sentinel := by
  unfold resyncGroup
  split
  · rfl
  · dsimp only
    split
    · split <;>
        simp [groupMapper.Update_sentinel, World.setGroup, resyncLoop_sentinel]
    · exact resyncLoop_sentinel _ _ _ _ _ _ _

theorem promoteSentinel_sentinel (env : Env) (g : Group) (w : World) :
    (promoteSentinel env g w).2.sentinel =
      markOutOfSync w.sentinel := by
  unfold promoteSentinel markOutOfSync
  by_cases h : w.sentinel.servers.length > 0
  · rw [if_pos h, if_pos (by omega)]
    rw [thenDo_sentinel _ _ (fun w1 => rfl)]
    exact sentinelMapper.Update_sentinel_same env _ _ rfl
  · rw [if_neg h, if_neg (by omega)]

theorem promotePrepared_sentinel (env : Env) (k : String) (g : Group) (w : World) :
    (promotePrepared env k g w).2.sentinel =
      markOutOfSync w.sentinel := by
  unfold promotePrepared
  rw [thenDo_sentinel, promoteSentinel_sentinel]
  intro w1
  rw [thenDo_sentinel, groupMapper.Update_sentinel]
  · rfl
  · intro w2
    unfold promoteFinished
    rw [groupMapper.Update_sentinel, resyncGroup_sentinel]

theorem promotePreparing_sentinel (env : Env) (k : String) (g : Group) (w : World)
    (h : (promotePreparing env k g w).1 = none) :
    (promotePreparing env k g w).2.sentinel =
      markOutOfSync w.sentinel := by
  unfold promotePreparing at h ⊢
  rw [(thenDo_none h).2, promotePrepared_sentinel, groupMapper.Update_sentinel]
  rfl

theorem promoteNothing_sentinel (env : Env) (k : String) (g : Group) (index : Int) (w : World)
    (h : (promoteNothing env k g index w).1 = none) :
    (promoteNothing env k g index w).2.sentinel =
      markOutOfSync w.sentinel := by
  unfold promoteNothing at h ⊢
  have h2 := (thenDo_none h).2
  rw [h2] at h ⊢
  rw [promotePreparing_sentinel env k _ _ h, groupMapper.Update_sentinel]
  rfl

theorem AddGroupServer_sentinel (env : Env) (k addr : String) (w : World)
    (h : (AddGroupServer env k addr w).1 = none) :
    (AddGroupServer env k addr w).2.sentinel =
      markOutOfSync w.sentinel := by
  unfold AddGroupServer at h ⊢
  split_ifs at h ⊢ with h1
  unfold withLock at h ⊢
  dsimp only at h ⊢
  split_ifs at h ⊢ with h2
  cases hg : (w.emit Event.lock).groups.get k with
  | none => rw [hg] at h; cases h
  | some g =>
    simp only [hg]
    show (thenDo _ _).2.sentinel = _
    rw [thenDo_sentinel, outOfSyncBySentinel_sentinel]
    · rfl
    · intro w1
      rw [thenDo_sentinel, groupMapper.Update_sentinel]
      · rfl
      · intro w2; rfl

theorem DelGroupServer_sentinel (env : Env) (k addr : String) (w : World)
    (h : (DelGroupServer env k addr w).1 = none) :
    (DelGroupServer env k addr w).2.sentinel =
      markOutOfSync w.sentinel := by
  unfold DelGroupServer withLock at h ⊢
  dsimp only at h ⊢
  cases hg : (w.emit Event.lock).groups.get k with
  | none => rw [hg] at h; cases h
  | some g =>
    simp only [hg] at h ⊢
    split_ifs at h ⊢ with h1 h2
    show (thenDo _ _).2.sentinel = _
    rw [thenDo_sentinel, outOfSyncBySentinel_sentinel]
    · rfl
    · intro w1
      rw [thenDo_sentinel, groupMapper.Update_sentinel]
      · rfl
      · intro w2; rfl

theorem GroupPromoteServer_sentinel (env : Env) (k addr : String) (w : World) (g : Group)
    (hg : w.groups.get k = some g) (hst : g.promoting.state ≠ ActionFinished)
    (h : (GroupPromoteServer env k addr w).1 = none) :
    (GroupPromoteServer env k addr w).2.sentinel =
      markOutOfSync w.sentinel := by
  unfold GroupPromoteServer withLock at h ⊢
  dsimp only at h ⊢
  have hg' : (w.emit Event.lock).groups.get k = some g := hg
  simp only [hg'] at h ⊢
  show (promoteDispatch env k addr g (w.emit Event.lock)).2.sentinel = _
  unfold promoteDispatch at h ⊢
  split_ifs at h ⊢ with h1 h2 h3 h4 h5 h6
  · exact promoteNothing_sentinel env k g _ _ h
  · exact promotePreparing_sentinel env k g _ h
  · exact promotePrepared_sentinel env k g _

theorem markOutOfSync_spec (s s' : Sentinel) (h : s' = markOutOfSync s) :
    s'.servers = s.servers ∧ (s.servers ≠ [] → s'.outOfSync = true) ∧
    (s.servers = [] → s' = s) := by
  subst h
  unfold markOutOfSync
  by_cases hs : s.servers = []
  · simp [hs]
  · have : s.servers.length ≠ 0 := fun h0 => hs (List.length_eq_zero.mp h0)
    simp [this, hs]

/-- C19, the claim as written fails: without sentinels a successful
`AddGroupServer` leaves `outOfSync` of the sentinel record false, and with the
sentinel S a successful `trySwitchGroupMaster` that exchanges A and B leaves
it false as well. -/
theorem topology_change_leaves_sentinel_in_sync :
    twoGroups.sentinel = ⟨[], false⟩ ∧
    (AddGroupServer envAllOk "g" "D" twoGroups).1 = none ∧
    ((AddGroupServer envAllOk "g" "D" twoGroups).2.groups.get "g").map (fun g => g.servers) =
      some [⟨"A"⟩, ⟨"B"⟩, ⟨"D"⟩] ∧
    (AddGroupServer envAllOk "g" "D" twoGroups).2.sentinel.outOfSync = false ∧
    twoGroupsWatched.sentinel = ⟨["S"], false⟩ ∧
    (trySwitchGroupMaster envAllOk "g" "B" twoGroupsWatched).1 = none ∧
    ((trySwitchGroupMaster envAllOk "g" "B" twoGroupsWatched).2.groups.get "g").map
      (fun g => g.servers) = some [⟨"B"⟩, ⟨"A"⟩] ∧
    (trySwitchGroupMaster envAllOk "g" "B" twoGroupsWatched).2.sentinel.outOfSync = false := by
  decide

/-- C19 (amended): a successful `AddGroupServer`, a successful `DelGroupServer`
and a successful `GroupPromoteServer` on a group whose promotion is not in the
state finished keep the sentinel server list and leave the sentinel record with
`outOfSync = true` when that list is not empty, and leave the record as it was
when the list is empty; `trySwitchGroupMaster` never changes the sentinel
record. -/
theorem topology_change_marks_sentinel (env : Env) (k addr : String) (w : World) :
    ((AddGroupServer env k addr w).1 = none →
      (AddGroupServer env k addr w).2.sentinel.servers = w.sentinel.servers ∧
      (w.sentinel.servers ≠ [] → (AddGroupServer env k addr w).2.sentinel.outOfSync = true) ∧
      (w.sentinel.servers = [] → (AddGroupServer env k addr w).2.sentinel = w.sentinel)) ∧
    ((DelGroupServer env k addr w).1 = none →
      (DelGroupServer env k addr w).2.sentinel.servers = w.sentinel.servers ∧
      (w.sentinel.servers ≠ [] → (DelGroupServer env k addr w).2.sentinel.outOfSync = true) ∧
      (w.sentinel.servers = [] → (DelGroupServer env k addr w).2.sentinel = w.sentinel)) ∧
    (∀ g, w.groups.get k = some g → g.promoting.state ≠ ActionFinished →
      (GroupPromoteServer env k addr w).1 = none →
      (GroupPromoteServer env k addr w).2.sentinel.servers = w.sentinel.servers ∧
      (w.sentinel.servers ≠ [] →
        (GroupPromoteServer env k addr w).2.sentinel.outOfSync = true) ∧
      (w.sentinel.servers = [] → (GroupPromoteServer env k addr w).2.sentinel = w.sentinel)) ∧
    (trySwitchGroupMaster env k addr w).2.sentinel = w.sentinel :=
  ⟨fun h => markOutOfSync_spec _ _ (AddGroupServer_sentinel env k addr w h),
   fun h => markOutOfSync_spec _ _ (DelGroupServer_sentinel env k addr w h),
   fun g hg hst h => markOutOfSync_spec _ _ (GroupPromoteServer_sentinel env k addr w g hg hst h),
   trySwitchGroupMaster_sentinel env k addr w⟩

/-- C19 (amended) on the two-group state watched by the sentinel S: adding D
to g and promoting B in g both succeed and leave the sentinel record out of
sync. -/
theorem topology_change_marks_sentinel_witness :
    ((AddGroupServer envAllOk "g" "D" twoGroupsWatched).1 = none ∧
      (AddGroupServer envAllOk "g" "D" twoGroupsWatched).2.sentinel.outOfSync = true) ∧
    ((GroupPromoteServer envAllOk "g" "B" twoGroupsWatched).1 = none ∧
      (GroupPromoteServer envAllOk "g" "B" twoGroupsWatched).2.sentinel.outOfSync = true) :=
  ⟨⟨by decide,
    ((topology_change_marks_sentinel envAllOk "g" "D" twoGroupsWatched).1 (by decide)).2.1
      (by decide)⟩,
   ⟨by decide,
    ((topology_change_marks_sentinel envAllOk "g" "B" twoGroupsWatched).2.2.1
      (mkGroup "g" ["A", "B"] 0 "") (by decide) (by decide) (by decide)).2.1 (by decide)⟩⟩

/-! ### C20 -/

theorem Groups.get_append_new (gs : Groups) (k : String) (g : Group) (h : gs.get k = none) :
    Groups.get (gs ++ [(k, g)]) k = some g := by
  induction gs with
  | nil => simp [Groups.get]
  | cons kv rest ih =>
    obtain ⟨k', g'⟩ := kv
    by_cases hk : k' = k
    · simp [Groups.get, hk] at h
    · simp only [Groups.get, hk, if_false] at h
      simp [Groups.get, hk, ih h]

theorem Groups.delete_append_new (gs : Groups) (k : String) (g : Group) (h : gs.get k = none) :
    Groups.delete (gs ++ [(k, g)]) k = gs := by
  induction gs with
  | nil => simp [Groups.delete]
  | cons kv rest ih =>
    obtain ⟨k', g'⟩ := kv
    by_cases hk : k' = k
    · simp [Groups.get, hk] at h
    · simp only [Groups.get, hk, if_false] at h
      have := ih h
      unfold Groups.delete at this ⊢
      simp [List.filter_cons, hk] at this ⊢
      exact this

/-- C20: a `CreateGroup(name, r, w)` that returns nil leaves under `name` a
group with an empty server list, the given ports, `outOfSync` false and no
promotion; a `RemoveGroup(name)` that follows returns nil and restores the
group map to what it was before the `CreateGroup` (when the store refuses the
delete it returns that error and keeps the map); `RemoveGroup` on a missing
group or on a group with at least one server returns an error and changes
nothing. -/
theorem CreateGroup_RemoveGroup_round_trip (env : Env) (name : String) (rPort wPort : Int)
    (w : World) :
    ((CreateGroup env name rPort wPort w).1 = none →
      (CreateGroup env name rPort wPort w).2.groups.get name =
        some { name := name, servers := [], promoting := ⟨0, ""⟩, outOfSync := false,
               proxyReadPort := rPort, proxyWritePort := wPort, createTime := env.now } ∧
      (env.ok ((CreateGroup env name rPort wPort w).2.trace.length + 1) = true →
        (RemoveGroup env name (CreateGroup env name rPort wPort w).2).1 = none ∧
        (RemoveGroup env name (CreateGroup env name rPort wPort w).2).2.groups = w.groups) ∧
      (env.ok ((CreateGroup env name rPort wPort w).2.trace.length + 1) = false →
        (RemoveGroup env name (CreateGroup env name rPort wPort w).2).1 =
          some (Err.groupStoreFailed name) ∧
        (RemoveGroup env name (CreateGroup env name rPort wPort w).2).2.groups =
          (CreateGroup env name rPort wPort w).2.groups)) ∧
    (w.groups.get name = none →
      RemoveGroup env name w = (some Err.groupNotFound, (w.emit Event.lock).emit Event.unlock)) ∧
    (∀ g, w.groups.get name = some g → g.servers ≠ [] →
      RemoveGroup env name w = (some Err.groupNotEmpty, (w.emit Event.lock).emit Event.unlock)) := by
  refine ⟨?_, ?_, ?_⟩
  · intro hok
    obtain ⟨-, -, -, hnone, -, hgroups⟩ := CreateGroup_ok env name rPort wPort w hok
    have hget : (CreateGroup env name rPort wPort w).2.groups.get name =
        some { name := name, servers := [], promoting := ⟨0, ""⟩, outOfSync := false,
               proxyReadPort := rPort, proxyWritePort := wPort, createTime := env.now } := by
      rw [hgroups]
      exact Groups.get_append_new _ _ _ hnone
    have hget' : ((CreateGroup env name rPort wPort w).2.emit Event.lock).groups.get name =
        some { name := name, servers := [], promoting := ⟨0, ""⟩, outOfSync := false,
               proxyReadPort := rPort, proxyWritePort := wPort, createTime := env.now } := hget
    refine ⟨hget, ?_, ?_⟩
    · intro hstore
      unfold RemoveGroup withLock
      simp only [hget']
      simp only [groupMapper.Remove, World.emit, List.length_append, List.length_singleton,
        hstore]
      simp only [List.length_nil, ne_eq, not_true_eq_false, if_false, if_true, true_and]
      rw [hgroups]
      exact Groups.delete_append_new _ _ _ hnone
    · intro hstore
      unfold RemoveGroup withLock
      simp only [hget']
      simp [groupMapper.Remove, World.emit, hstore]
  · intro hnone
    have hnone' : (w.emit Event.lock).groups.get name = none := hnone
    unfold RemoveGroup withLock
    simp only [hnone']
  · intro g hg hne
    have hg' : (w.emit Event.lock).groups.get name = some g := hg
    have hlen : g.servers.length ≠ 0 := fun h => hne (List.length_eq_zero.mp h)
    unfold RemoveGroup withLock
    simp only [hg', hlen, ne_eq, not_false_eq_true, if_true]

/-- C20 on a product without groups: `CreateGroup("g1", 11000, 12000)` leaves
the empty group g1, the `RemoveGroup("g1")` that follows returns nil and the
group map is empty again; `RemoveGroup` on the group g = [A, B] is refused. -/
theorem CreateGroup_RemoveGroup_round_trip_witness :
    (CreateGroup envAllOk "g1" 11000 12000 (mkWorld [])).1 = none ∧
    ((CreateGroup envAllOk "g1" 11000 12000 (mkWorld [])).2.groups.get "g1" =
        some { name := "g1", servers := [], promoting := ⟨0, ""⟩, outOfSync := false,
               proxyReadPort := 11000, proxyWritePort := 12000, createTime := envAllOk.now } ∧
      (RemoveGroup envAllOk "g1" (CreateGroup envAllOk "g1" 11000 12000 (mkWorld [])).2).1 =
        none ∧
      (RemoveGroup envAllOk "g1" (CreateGroup envAllOk "g1" 11000 12000 (mkWorld [])).2).2.groups =
        (mkWorld []).groups) ∧
    RemoveGroup envAllOk "g" twoGroups =
      (some Err.groupNotEmpty, (twoGroups.emit Event.lock).emit Event.unlock) :=
  ⟨by decide,
   ⟨((CreateGroup_RemoveGroup_round_trip envAllOk "g1" 11000 12000 (mkWorld [])).1
      (by decide)).1,
    ((CreateGroup_RemoveGroup_round_trip envAllOk "g1" 11000 12000 (mkWorld [])).1
      (by decide)).2.1 rfl⟩,
   (CreateGroup_RemoveGroup_round_trip envAllOk "g" 0 0 twoGroups).2.2
     (mkGroup "g" ["A", "B"] 0 "") (by decide) (by decide)⟩

/-! ### C21 -/

/-- C21 at the failing inputs: on the group g = [A, B], with the store write of
`groupMapper.Update` failing, `AddGroupServer`, `DelGroupServer`,
`GroupPromoteServer` and `ResyncGroup` each return the store error, and the
group map then holds the server list [A, B, D], the server list [A] with
`outOfSync` true, the promotion (1, preparing), and `outOfSync` false instead
of true. -/
theorem failed_store_write_changes_cache :
    (twoGroups.groups.get "g" = some (mkGroup "g" ["A", "B"] 0 "") ∧
      (mkGroup "g" ["A", "B"] 0 "").servers = [⟨"A"⟩, ⟨"B"⟩] ∧
      (mkGroup "g" ["A", "B"] 0 "").promoting = ⟨0, ""⟩ ∧
      (mkGroup "g" ["A", "B"] 0 "").outOfSync = false) ∧
    ((AddGroupServer (envFailAt 1) "g" "D" twoGroups).1 = some (Err.groupStoreFailed "g") ∧
      ((AddGroupServer (envFailAt 1) "g" "D" twoGroups).2.groups.get "g").map
        (fun g => g.servers) = some [⟨"A"⟩, ⟨"B"⟩, ⟨"D"⟩]) ∧
    ((DelGroupServer (envFailAt 1) "g" "B" twoGroups).1 = some (Err.groupStoreFailed "g") ∧
      ((DelGroupServer (envFailAt 1) "g" "B" twoGroups).2.groups.get "g").map
        (fun g => (g.servers, g.outOfSync)) = some ([⟨"A"⟩], true)) ∧
    ((GroupPromoteServer (envFailAt 1) "g" "B" twoGroups).1 =
        some (Err.groupStoreFailed "g") ∧
      ((GroupPromoteServer (envFailAt 1) "g" "B" twoGroups).2.groups.get "g").map
        (fun g => g.promoting) = some ⟨1, "preparing"⟩) ∧
    ((outOfSyncAB.groups.get "g").map (fun g => g.outOfSync) = some true ∧
      (ResyncGroup (envFailAt 1) "g" outOfSyncAB).1 = some (Err.groupStoreFailed "g") ∧
      ((ResyncGroup (envFailAt 1) "g" outOfSyncAB).2.groups.get "g").map
        (fun g => g.outOfSync) = some false) := by
  decide

/-! ### C28 -/

/-- C28 at the failing input: after `CreateGroup`, three `AddGroupServer` and a
`GroupPromoteServer("g", "C")` whose first store write fails, the group holds
the pending promotion (2, preparing); `DelGroupServer("g", "C")` then succeeds
and leaves the servers [A, B] with the promotion index 2, beyond the list, and
`DelGroupServer("g", "B")` instead succeeds and leaves the servers [A, C], C
shifted to index 1, with the promotion index 2; from there
`GroupPromoteServer` is refused for C as for every other server. -/
theorem DelGroupServer_breaks_pending_promotion :
    Reachable reachedPending ∧
    reachedPending.groups.get "g" =
      some (mkGroup "g" ["A", "B", "C"] 2 "preparing") ∧
    Reachable reachedDangling ∧
    (GroupOp.delGroupServer "g" "C").run envAllOk reachedPending =
      (none, reachedDangling) ∧
    reachedDangling.groups.get "g" =
      some { mkGroup "g" ["A", "B"] 2 "preparing" with outOfSync := true } ∧
    Reachable reachedShifted ∧
    (GroupOp.delGroupServer "g" "B").run envAllOk reachedPending =
      (none, reachedShifted) ∧
    reachedShifted.groups.get "g" =
      some { mkGroup "g" ["A", "C"] 2 "preparing" with outOfSync := true } ∧
    (GroupPromoteServer envAllOk "g" "C" reachedShifted).1 = some (Err.isPromotingIndex 2) ∧
    (GroupForceFullSyncServer envAllOk "g" "C" reachedPending).1 = some Err.isPromoting := by
  have hABC : Reachable reachedABC :=
    Reachable.step _ _ _ (Reachable.step _ _ _ (Reachable.step _ _ _ (Reachable.step _ _ _
      (Reachable.init (mkWorld []) rfl))))
  have hP : Reachable reachedPending := Reachable.step _ _ _ hABC
  exact ⟨hP, by decide, Reachable.step _ _ _ hP, rfl, by decide, Reachable.step _ _ _ hP, rfl,
    by decide, by decide, by decide⟩

/-! ### C29 -/

/-- C29 at the failing input: on a service that never started, while another
instance holds the Topom node of the product, `Close` calls
`topomMapper.Delete` and the node is gone; so it is on a service whose `Start`
is still retrying `topomMapper.Create`. -/
theorem Close_deletes_foreign_node :
    Lifecycle.outsider.started = 0 ∧ Lifecycle.outsider.online = 0 ∧
    Lifecycle.outsider.topomNode = true ∧
    Lifecycle.Close true Lifecycle.outsider =
      (none, { Lifecycle.outsider with closed := 1, done := true, topomNode := false }) ∧
    Lifecycle.Start [false, false] true Lifecycle.outsider = none ∧
    (Lifecycle.Close true { Lifecycle.outsider with started := 1 }).2.topomNode = false := by
  decide

/-! ### C23 -/

theorem SameSection.unchanged (t : List Event) : SameSection t t :=
  ⟨[], by simp, by simp⟩

theorem SameSection.followedBy {t1 t2 t3 : List Event} (h1 : SameSection t1 t2)
    (h2 : SameSection t2 t3) : SameSection t1 t3 := by
  obtain ⟨e1, rfl, h1⟩ := h1
  obtain ⟨e2, rfl, h2⟩ := h2
  refine ⟨e1 ++ e2, by simp, ?_⟩
  intro e he
  rcases List.mem_append.mp he with h | h
  · exact h1 e h
  · exact h2 e h

theorem SameSection.emit (t : List Event) (e : Event) (h : e.isMutex = false) :
    SameSection t (t ++ [e]) :=
  ⟨[e], rfl, by simpa using h⟩

theorem thenDo_section (w : World) (r : Option Err × World)
    (rest : World → Option Err × World)
    (h1 : SameSection w.trace r.2.trace)
    (h2 : ∀ w1 : World, SameSection w1.trace (rest w1).2.trace) :
    SameSection w.trace (thenDo r rest).2.trace := by
  unfold thenDo
  cases r.1 with
  | some e => exact h1
  | none => exact h1.followedBy (h2 _)

theorem section_of_emit (w w' : World) (e : Event) (h : e.isMutex = false)
    (ht : w'.trace = w.trace ++ [e]) : SameSection w.trace w'.trace :=
  ⟨[e], ht, by simpa using h⟩

theorem groupMapper.Update_section (env : Env) (g : Group) (w : World) :
    SameSection w.trace (groupMapper.Update env g w).2.trace := by
  refine section_of_emit _ _ (Event.storeUpdateGroup g (env.ok w.trace.length)) rfl ?_
  unfold groupMapper.Update
  by_cases h : env.ok w.trace.length <;> simp [h, World.emit, World.setGroup]

theorem groupMapper.Create_section (env : Env) (g : Group) (w : World) :
    SameSection w.trace (groupMapper.Create env g w).2.trace := by
  refine section_of_emit _ _ (Event.storeUpdateGroup g (env.ok w.trace.length)) rfl ?_
  unfold groupMapper.Create
  by_cases h : env.ok w.trace.length <;> simp [h, World.emit, World.setGroup]

theorem groupMapper.Remove_section (env : Env) (g : Group) (w : World) :
    SameSection w.trace (groupMapper.Remove env g w).2.trace := by
  refine section_of_emit _ _ (Event.storeDeleteGroup g.name (env.ok w.trace.length)) rfl ?_
  unfold groupMapper.Remove
  by_cases h : env.ok w.trace.length <;> simp [h, World.emit]

theorem sentinelMapper.Update_same_section (env : Env) (s : Sentinel) (w : World) :
    SameSection w.trace (sentinelMapper.Update env s w).2.trace := by
  refine section_of_emit _ _ (Event.storeUpdateSentinel s (env.ok w.trace.length)) rfl ?_
  unfold sentinelMapper.Update
  by_cases h : env.ok w.trace.length <;> simp [h, World.emit]

theorem refreshGSLBBackendInfo_section (env : Env) (w : World) :
    SameSection w.trace (refreshGSLBBackendInfo env w).2.trace :=
  section_of_emit _ _ (Event.refreshGSLBBackendInfo (env.ok w.trace.length)) rfl rfl

theorem outOfSyncBySentinel_section (env : Env) (w : World) :
    SameSection w.trace (outOfSyncBySentinel env w).2.trace := by
  unfold outOfSyncBySentinel
  split_ifs
  · exact sentinelMapper.Update_same_section env _ _
  · exact SameSection.unchanged _

theorem resyncLoop_section (env : Env) (n m : String) (l : List GroupServer) (i : Nat)
    (errs : List SyncFailure) (w : World) :
    SameSection w.trace (resyncLoop env n m l i errs w).2.trace := by
  induction l generalizing i errs w with
  | nil => exact SameSection.unchanged _
  | cons v vs ih =>
    unfold resyncLoop
    exact (section_of_emit w (doSyncAction env v.addr (if i = 0 then "NO:ONE" else m) w).2
      (Event.doSyncAction v.addr (if i = 0 then "NO:ONE" else m) (env.ok w.trace.length))
      rfl rfl).followedBy (ih _ _ _)

theorem resyncGroup_section (env : Env) (k : String) (g : Group) (w : World) :
    SameSection w.trace (resyncGroup env k g w).2.2.trace := by
  unfold resyncGroup
  split
  · exact SameSection.unchanged _
  · rename_i s0 rest hs
    dsimp only
    split
    · have h : SameSection w.trace (groupMapper.Update env { g with outOfSync := true }
          ((resyncLoop env g.name s0.addr g.servers 0 [] w).2.setGroup k
            { g with outOfSync := true })).2.trace :=
        (resyncLoop_section env g.name s0.addr g.servers 0 [] w).followedBy
          (groupMapper.Update_section env { g with outOfSync := true }
            ((resyncLoop env g.name s0.addr g.servers 0 [] w).2.setGroup k
              { g with outOfSync := true }))
      split <;> exact h
    · exact resyncLoop_section _ _ _ _ _ _ _

theorem withLock_section (body : World → Option Err × World) (w : World)
    (h : ∀ w1 : World, SameSection w1.trace (body w1).2.trace) :
    OneSection w.trace (withLock body w).2.trace := by
  obtain ⟨mid, h1, h2⟩ := h (w.emit Event.lock)
  refine Or.inr ⟨mid, ?_, h2⟩
  show (body (w.emit Event.lock)).2.trace ++ [Event.unlock] = _
  rw [h1]
  simp [World.emit]

theorem CreateGroup_section (env : Env) (name : String) (rPort wPort : Int) (w : World) :
    OneSection w.trace (CreateGroup env name rPort wPort w).2.trace := by
  unfold CreateGroup
  split_ifs
  · exact Or.inl rfl
  · exact Or.inl rfl
  · apply withLock_section
    intro w1
    dsimp only
    split_ifs
    · exact SameSection.unchanged _
    · exact SameSection.unchanged _
    · exact groupMapper.Create_section env _ _

theorem RemoveGroup_section (env : Env) (name : String) (w : World) :
    OneSection w.trace (RemoveGroup env name w).2.trace := by
  unfold RemoveGroup
  apply withLock_section
  intro w1
  dsimp only
  split
  · exact SameSection.unchanged _
  · split_ifs
    · exact SameSection.unchanged _
    · exact groupMapper.Remove_section env _ _

theorem ResyncGroup_section (env : Env) (name : String) (w : World) :
    OneSection w.trace (ResyncGroup env name w).2.trace := by
  unfold ResyncGroup
  apply withLock_section
  intro w1
  dsimp only
  split
  · exact SameSection.unchanged _
  · rename_i g hg
    apply thenDo_section
    · exact groupMapper.Update_section env _ _
    · intro w2
      exact resyncGroup_section env name _ w2

theorem AddGroupServer_section (env : Env) (name addr : String) (w : World) :
    OneSection w.trace (AddGroupServer env name addr w).2.trace := by
  unfold AddGroupServer
  split_ifs
  · exact Or.inl rfl
  · apply withLock_section
    intro w1
    dsimp only
    split_ifs
    · exact SameSection.unchanged _
    · split
      · exact SameSection.unchanged _
      · apply thenDo_section
        · exact outOfSyncBySentinel_section env _
        · intro w2
          apply thenDo_section
          · exact groupMapper.Update_section env _ _
          · intro w3
            exact refreshGSLBBackendInfo_section env w3

theorem DelGroupServer_section (env : Env) (name addr : String) (w : World) :
    OneSection w.trace (DelGroupServer env name addr w).2.trace := by
  unfold DelGroupServer
  apply withLock_section
  intro w1
  dsimp only
  split
  · exact SameSection.unchanged _
  · split_ifs
    · exact SameSection.unchanged _
    · exact SameSection.unchanged _
    · apply thenDo_section
      · exact outOfSyncBySentinel_section env _
      · intro w2
        apply thenDo_section
        · exact groupMapper.Update_section env _ _
        · intro w3
          exact refreshGSLBBackendInfo_section env w3

theorem promoteSentinel_section (env : Env) (g : Group) (w : World) :
    SameSection w.trace (promoteSentinel env g w).2.trace := by
  unfold promoteSentinel
  split_ifs
  · apply thenDo_section
    · exact sentinelMapper.Update_same_section env _ _
    · intro w1
      exact section_of_emit w1 _
        (Event.sentinelRemoveGroups w1.sentinel.servers g.name (env.ok w1.trace.length)) rfl rfl
  · exact SameSection.unchanged _

theorem promotePrepared_section (env : Env) (k : String) (g : Group) (w : World) :
    SameSection w.trace (promotePrepared env k g w).2.trace := by
  unfold promotePrepared
  apply thenDo_section
  · exact promoteSentinel_section env g w
  · intro w1
    apply thenDo_section
    · exact groupMapper.Update_section env _ _
    · intro w2
      unfold promoteFinished
      exact (resyncGroup_section env k (promotedGroup g) w2).followedBy
        (groupMapper.Update_section env _ _)

theorem promotePreparing_section (env : Env) (k : String) (g : Group) (w : World) :
    SameSection w.trace (promotePreparing env k g w).2.trace := by
  unfold promotePreparing
  apply thenDo_section
  · exact groupMapper.Update_section env _ _
  · intro w1
    exact promotePrepared_section env k _ w1

theorem promoteNothing_section (env : Env) (k : String) (g : Group) (index : Int)
    (w : World) : SameSection w.trace (promoteNothing env k g index w).2.trace := by
  unfold promoteNothing
  apply thenDo_section
  · exact groupMapper.Update_section env _ _
  · intro w1
    exact promotePreparing_section env k _ w1

theorem GroupPromoteServer_section (env : Env) (name addr : String) (w : World) :
    OneSection w.trace (GroupPromoteServer env name addr w).2.trace := by
  unfold GroupPromoteServer
  apply withLock_section
  intro w1
  dsimp only
  split
  · exact SameSection.unchanged _
  · rename_i g hg
    unfold promoteDispatch
    split_ifs
    · exact SameSection.unchanged _
    · exact SameSection.unchanged _
    · exact SameSection.unchanged _
    · exact promoteNothing_section env name g _ w1
    · exact promotePreparing_section env name g w1
    · exact promotePrepared_section env name g w1
    · exact groupMapper.Update_section env _ _
    · exact SameSection.unchanged _

theorem GroupForceFullSyncServer_section (env : Env) (name addr : String) (w : World) :
    OneSection w.trace (GroupForceFullSyncServer env name addr w).2.trace := by
  unfold GroupForceFullSyncServer
  apply withLock_section
  intro w1
  dsimp only
  split
  · exact SameSection.unchanged _
  · rename_i g hg
    split_ifs
    · exact SameSection.unchanged _
    · exact SameSection.unchanged _
    · exact SameSection.unchanged _
    · split
      · rename_i target master h1 h2
        exact section_of_emit w1 _
          (Event.doForceFullSyncAction target.addr master.addr (env.ok w1.trace.length)) rfl rfl
      · exact SameSection.unchanged _

theorem trySwitchGroupMaster_section (env : Env) (k m : String) (w : World) :
    SameSection w.trace (trySwitchGroupMaster env k m w).2.trace := by
  unfold trySwitchGroupMaster
  split
  · exact SameSection.unchanged _
  · split_ifs
    · exact SameSection.unchanged _
    · exact SameSection.unchanged _
    · apply thenDo_section
      · exact groupMapper.Update_section env _ _
      · intro w1
        exact refreshGSLBBackendInfo_section env w1

theorem switchLoop_section (env : Env) (masters : List (String × String)) (w : World) :
    SameSection w.trace
      (masters.foldl (fun acc kv => (trySwitchGroupMaster env kv.1 kv.2 acc).2) w).trace := by
  induction masters generalizing w with
  | nil => exact SameSection.unchanged _
  | cons kv rest ih =>
    simp only [List.foldl_cons]
    exact (trySwitchGroupMaster_section env kv.1 kv.2 w).followedBy (ih _)

theorem switchMasters_section (env : Env) (masters : List (String × String)) (w : World) :
    OneSection w.trace (switchMasters env masters w).2.trace := by
  unfold switchMasters
  apply withLock_section
  intro w1
  dsimp only
  split_ifs
  · exact SameSection.unchanged _
  · exact switchLoop_section env masters { w1 with haMasters := some masters }

theorem networkCalls_section (mid : List Event) (h : ∀ e ∈ mid, e.isMutex = false) :
    networkCallsOutsideLock true (mid ++ [Event.unlock]) = [] ∧
    networkCallsUnderLock true (mid ++ [Event.unlock]) = mid.filter Event.isNetwork := by
  induction mid with
  | nil => exact ⟨rfl, rfl⟩
  | cons e rest ih =>
    have hr := ih (fun e' he' => h e' (List.mem_cons_of_mem _ he'))
    have he := h e (List.mem_cons_self _ _)
    cases e <;>
      first
      | (simp [Event.isMutex] at he; done)
      | simp [networkCallsOutsideLock, networkCallsUnderLock, Event.isNetwork, hr.1, hr.2]

/-- C23, the claim as written fails: `ResyncGroup` on g = [A, B] issues both of
its `SetMaster` calls between `lock` and `unlock`, and `GroupPromoteServer`
on the state watched by the sentinel S issues the Sentinel `RemoveGroups` and
both `SetMaster` calls between `lock` and `unlock`. -/
theorem network_calls_under_lock :
    (ResyncGroup envAllOk "g" twoGroups).2.trace =
      [Event.lock,
       Event.storeUpdateGroup (mkGroup "g" ["A", "B"] 0 "") true,
       Event.doSyncAction "A" "NO:ONE" true,
       Event.doSyncAction "B" "A" true,
       Event.unlock] ∧
    networkCallsUnderLock false (ResyncGroup envAllOk "g" twoGroups).2.trace =
      [Event.doSyncAction "A" "NO:ONE" true, Event.doSyncAction "B" "A" true] ∧
    networkCallsUnderLock false (GroupPromoteServer envAllOk "g" "B" twoGroupsWatched).2.trace =
      [Event.sentinelRemoveGroups ["S"] "g" true,
       Event.doSyncAction "B" "NO:ONE" true, Event.doSyncAction "A" "B" true] := by
  decide

/-- C23 (amended): every public group operation either leaves the trace as it
is, or adds to it `lock`, then events other than `lock` and `unlock`, then
`unlock`; so every Redis or Sentinel network call of the operation is issued
while the mutex is held, and none while it is not. -/
theorem group_operations_call_under_lock (env : Env) (op : GroupOp) (w : World) :
    ∃ ev : List Event, (op.run env w).2.trace = w.trace ++ ev ∧
      (ev = [] ∨ ∃ mid : List Event, ev = Event.lock :: (mid ++ [Event.unlock]) ∧
        ∀ e ∈ mid, e.isMutex = false) ∧
      networkCallsOutsideLock false ev = [] ∧
      networkCallsUnderLock false ev = ev.filter Event.isNetwork := by
  have h : OneSection w.trace (op.run env w).2.trace := by
    cases op with
    | createGroup name rPort wPort => exact CreateGroup_section env name rPort wPort w
    | removeGroup name => exact RemoveGroup_section env name w
    | addGroupServer name addr => exact AddGroupServer_section env name addr w
    | delGroupServer name addr => exact DelGroupServer_section env name addr w
    | resyncGroup name => exact ResyncGroup_section env name w
    | groupPromoteServer name addr => exact GroupPromoteServer_section env name addr w
    | groupForceFullSyncServer name addr => exact GroupForceFullSyncServer_section env name addr w
    | haSwitch masters => exact switchMasters_section env masters w
  rcases h with h | ⟨mid, h1, h2⟩
  · exact ⟨[], by simp [h], Or.inl rfl, rfl, rfl⟩
  · refine ⟨Event.lock :: (mid ++ [Event.unlock]), h1, Or.inr ⟨mid, rfl, h2⟩, ?_, ?_⟩
    · exact (networkCalls_section mid h2).1
    · show networkCallsUnderLock true (mid ++ [Event.unlock]) = _
      rw [(networkCalls_section mid h2).2]
      simp [List.filter_cons, List.filter_append, Event.isNetwork]

/-! ### C24 -/

theorem defaultErrorLoop_go (l : List String) (i : Nat) (b : String) :
    defaultErrorLoop l (i + 1) b = String.intercalate.go b "; " l := by
  induction l generalizing i b with
  | nil => simp [defaultErrorLoop, String.intercalate.go]
  | cons v rest ih =>
    simp only [defaultErrorLoop, String.intercalate.go]
    rw [if_pos (Nat.succ_ne_zero i), ih]

theorem defaultErrorToString_eq (l : List String) :
    defaultErrorToString l = String.intercalate "; " l := by
  cases l with
  | nil => rfl
  | cons v rest =>
    unfold defaultErrorToString
    simp only [List.length_cons, Nat.succ_ne_zero, if_false, defaultErrorLoop,
      String.intercalate]
    rw [defaultErrorLoop_go]
    simp

theorem appendAll_errors (errs : List (Option String)) :
    ∀ m : Option MultiError,
      ((MultiError.appendAll m errs).map (fun m => m.errors)).getD [] =
        ((m.map (fun m => m.errors)).getD []) ++ errs.filterMap id ∧
      ((MultiError.appendAll m errs).bind (fun m => m.f)).isNone =
        (m.bind (fun m => m.f)).isNone := by
  induction errs with
  | nil => intro m; simp [MultiError.appendAll]
  | cons e rest ih =>
    intro m
    have h := ih (some (MultiError.Append m e))
    unfold MultiError.appendAll at h ⊢
    rw [List.foldl_cons, h.1, h.2]
    cases e <;> cases m <;> simp [MultiError.Append]

theorem appendAll_result (m0 : Option MultiError) (errs : List (Option String))
    (h0 : (m0.map (fun m => m.errors)).getD [] = [])
    (hf : (m0.bind (fun m => m.f)).isNone = true) :
    ((MultiError.ErrorOrNil (MultiError.appendAll m0 errs)).isNone = true ↔
      errs.filterMap id = []) ∧
    MultiError.Error (MultiError.appendAll m0 errs) =
      String.intercalate "; " (errs.filterMap id) := by
  obtain ⟨h1, h2⟩ := appendAll_errors errs m0
  rw [h0, List.nil_append] at h1
  rw [hf] at h2
  cases hm : MultiError.appendAll m0 errs with
  | none =>
    rw [hm] at h1
    have hl : errs.filterMap id = [] := h1.symm
    rw [hl]
    exact ⟨⟨fun _ => rfl, fun _ => rfl⟩, rfl⟩
  | some m =>
    rw [hm] at h1 h2
    have he : m.errors = errs.filterMap id := h1
    have hf' : m.f = none := by
      cases hmf : m.f with
      | none => rfl
      | some f => simp [hmf] at h2
    cases hl : errs.filterMap id with
    | nil =>
      rw [hl] at he
      simp [MultiError.ErrorOrNil, MultiError.Error, he, String.intercalate]
    | cons e rest =>
      rw [hl] at he
      simp [MultiError.ErrorOrNil, MultiError.Error, he, hf', defaultErrorToString_eq]

/-- C24: after any sequence of `Append` calls on a nil or a new `MultiError`,
with the default format, `ErrorOrNil()` is nil exactly when no argument was
non-nil, and `Error()` is the texts of the non-nil arguments in call order
joined by "; " (the empty string when there is none); `Append(nil)` returns
the receiver unchanged. -/
theorem MultiError_appendAll (errs : List (Option String)) :
    (((MultiError.ErrorOrNil (MultiError.appendAll none errs)).isNone = true ↔
        errs.filterMap id = []) ∧
      MultiError.Error (MultiError.appendAll none errs) =
        String.intercalate "; " (errs.filterMap id)) ∧
    (((MultiError.ErrorOrNil (MultiError.appendAll (some ⟨[], none⟩) errs)).isNone = true ↔
        errs.filterMap id = []) ∧
      MultiError.Error (MultiError.appendAll (some ⟨[], none⟩) errs) =
        String.intercalate "; " (errs.filterMap id)) ∧
    (errs.filterMap id = [] → MultiError.Error (MultiError.appendAll none errs) = "") ∧
    (∀ m : MultiError, MultiError.Append (some m) none = m) ∧
    (MultiError.Append none none).errors = [] := by
  refine ⟨appendAll_result none errs rfl rfl, appendAll_result (some ⟨[], none⟩) errs rfl rfl,
    ?_, fun m => rfl, rfl⟩
  intro h
  rw [(appendAll_result none errs rfl rfl).2, h]
  rfl

/-- C24 on the calls Append(a), Append(nil), Append(b): the text is "a; b". -/
theorem MultiError_appendAll_witness :
    [some "a", none, some "b"].filterMap id = ["a", "b"] ∧
    MultiError.Error (MultiError.appendAll none [some "a", none, some "b"]) = "a; b" ∧
    MultiError.Error (MultiError.appendAll none [none, none]) = "" :=
  ⟨rfl, (MultiError_appendAll [some "a", none, some "b"]).1.2,
    (MultiError_appendAll [none, none]).2.2.1 rfl⟩

/-! ### C27 -/

theorem formatHeader_flag_zero (env : LogEnv) (file : String) (line : Nat) (level : Int) :
    formatHeader 0 env file line level = (LevelToString level).data ++ [' '] := by
  simp [formatHeader]

/-- C27: for a logger with flag 0, a logging call at a level not below the
level of the logger, with the message `s`, makes exactly one `Write`, of the
bytes `LevelToString(lv)`, a blank, `s`, and a newline when `s` is empty or
does not end in a newline; a call at a level below that of the logger writes
nothing. -/
theorem Logger_output_flag_zero (l : Logger) (env : LogEnv) (lv : Int) (s : String)
    (hflag : l.flag = 0) :
    (l.level ≤ lv →
      (l.Output env lv s).writes = l.writes ++
        [(LevelToString lv).data ++ [' '] ++ s.data ++
          (if s.data = [] ∨ s.data.getLast? ≠ some '\n' then ['\n'] else [])]) ∧
    (lv < l.level → (l.Output env lv s).writes = l.writes) := by
  refine ⟨?_, ?_⟩
  · intro hlv
    unfold Logger.Output
    rw [if_neg (by omega)]
    unfold Logger.output
    simp only [hflag, formatHeader_flag_zero, List.length_eq_zero]
    split_ifs <;> simp
  · intro hlv
    unfold Logger.Output
    rw [if_pos hlv]

/-- C27 on the logger of `TestOutput`: `Info("test")` writes "[INFO] test"
and a newline, an empty message writes one line, and a logger at the level
error writes nothing for `Info`. -/
theorem Logger_output_flag_zero_witness :
    testLogger.flag = 0 ∧
    (testLogger.Info sampleLogEnv "test").writes = ["[INFO] test\n".data] ∧
    (testLogger.Info sampleLogEnv "").writes = ["[INFO] \n".data] ∧
    (Logger.Info ⟨Lerror, 0, []⟩ sampleLogEnv "test").writes = [] :=
  ⟨rfl,
   (Logger_output_flag_zero testLogger sampleLogEnv Linfo "test" rfl).1 (by decide),
   (Logger_output_flag_zero testLogger sampleLogEnv Linfo "" rfl).1 (by decide),
   (Logger_output_flag_zero ⟨Lerror, 0, []⟩ sampleLogEnv Linfo "test" rfl).2 (by decide)⟩

/-! ### C26 -/

theorem splitSlash_ne_nil (l : List Char) : splitSlash l ≠ [] := by
  cases l with
  | nil => simp [splitSlash]
  | cons c cs =>
    unfold splitSlash
    split_ifs
    · simp
    · split <;> simp

theorem splitSlash_single (a : List Char) (h : '/' ∉ a) : splitSlash a = [a] := by
  induction a with
  | nil => rfl
  | cons c cs ih =>
    have hc : c ≠ '/' := fun hc => h (by simp [hc])
    have hcs : '/' ∉ cs := fun hm => h (List.mem_cons_of_mem _ hm)
    simp [splitSlash, hc, ih hcs]

theorem splitSlash_append (a b : List Char) (h : '/' ∉ a) :
    splitSlash (a ++ '/' :: b) = a :: splitSlash b := by
  induction a with
  | nil => simp [splitSlash]
  | cons c cs ih =>
    have hc : c ≠ '/' := fun hc => h (by simp [hc])
    have hcs : '/' ∉ cs := fun hm => h (List.mem_cons_of_mem _ hm)
    simp [splitSlash, hc, ih hcs]

/-- A path element that `filepath.Clean` keeps where it is. -/
theorem cleanElements_keep (rooted : Bool) (c : List Char) (rest stack : List (List Char))
    (h0 : c ≠ []) (h1 : c ≠ ['.']) (h2 : c ≠ ['.', '.']) :
    cleanElements rooted (c :: rest) stack = cleanElements rooted rest (c :: stack) := by
  simp [cleanElements, h0, h1, h2]

theorem cleanElements_skip (rooted : Bool) (rest stack : List (List Char)) :
    cleanElements rooted ([] :: rest) stack = cleanElements rooted rest stack := by
  simp [cleanElements]

theorem validateProduct_element (product : String) (h : validateProduct product = true) :
    '/' ∉ product.data ∧ product.data ≠ [] ∧ product.data ≠ ['.'] ∧
    product.data ≠ ['.', '.'] := by
  unfold validateProduct at h
  cases hd : product.data with
  | nil => rw [hd] at h; simp at h
  | cons c rest =>
    rw [hd] at h
    simp only [Bool.and_eq_true, List.all_eq_true] at h
    obtain ⟨hc, hrest⟩ := h
    have hslash : c ≠ '/' := by
      intro he; rw [he] at hc; exact absurd hc (by decide)
    have hdot : c ≠ '.' := by
      intro he; rw [he] at hc; exact absurd hc (by decide)
    refine ⟨?_, by simp, ?_, ?_⟩
    · intro hm
      rcases List.mem_cons.mp hm with he | hm'
      · exact hslash he.symm
      · exact absurd (hrest '/' hm') (by decide)
    · intro he
      injection he with he1 _
      exact hdot he1
    · intro he
      injection he with he1 _
      exact hdot he1

theorem GroupPath_data (product name : String)
    (hp : '/' ∉ product.data ∧ product.data ≠ [] ∧ product.data ≠ ['.'] ∧
      product.data ≠ ['.', '.'])
    (hn : '/' ∉ name.data) :
    (GroupPath product name).data =
      "/cache-manager/products/".data ++ product.data ++ "/groups/group-".data ++ name.data := by
  obtain ⟨hp1, hp2, hp3, hp4⟩ := hp
  have hg : '/' ∉ "group-".data ++ name.data := by
    intro hm
    rcases List.mem_append.mp hm with h | h
    · exact absurd h (by decide)
    · exact hn h
  have hg0 : "group-".data ++ name.data ≠ [] := by
    show 'g' :: _ ≠ []
    simp
  have hg1 : "group-".data ++ name.data ≠ ['.'] := by
    show 'g' :: _ ≠ _
    intro he; injection he with he1 _; exact absurd he1 (by decide)
  have hg2 : "group-".data ++ name.data ≠ ['.', '.'] := by
    show 'g' :: _ ≠ _
    intro he; injection he with he1 _; exact absurd he1 (by decide)
  have hjoin : joinSlash ([DefaultBaseDir, DefaultProductDir, product, DefaultGroupDir,
      "group-" ++ name].map (fun e => e.data)) =
      '/' :: ("cache-manager".data ++ '/' :: ([] ++ '/' :: ("products".data ++ '/' ::
        (product.data ++ '/' :: ([] ++ '/' :: ("groups".data ++ '/' ::
          ("group-".data ++ name.data))))))) := by
    simp only [List.map, joinSlash, String.data_append]
    rfl
  have hdrop : [DefaultBaseDir, DefaultProductDir, product, DefaultGroupDir,
      "group-" ++ name].dropWhile (fun e => decide (e = "")) =
      [DefaultBaseDir, DefaultProductDir, product, DefaultGroupDir, "group-" ++ name] := by
    rw [List.dropWhile_cons_of_neg]
    decide
  unfold GroupPath filepathJoin
  rw [hdrop]
  simp only []
  rw [hjoin]
  simp only [filepathClean, if_true]
  rw [show splitSlash ('/' :: ("cache-manager".data ++ '/' :: ([] ++ '/' ::
        ("products".data ++ '/' :: (product.data ++ '/' :: ([] ++ '/' :: ("groups".data ++ '/' ::
          ("group-".data ++ name.data)))))))) =
      [[], "cache-manager".data, [], "products".data, product.data, [], "groups".data,
        "group-".data ++ name.data] from by
    rw [show ('/' :: ("cache-manager".data ++ '/' :: ([] ++ '/' ::
        ("products".data ++ '/' :: (product.data ++ '/' :: ([] ++ '/' :: ("groups".data ++ '/' ::
          ("group-".data ++ name.data)))))))) = [] ++ '/' :: ("cache-manager".data ++ '/' ::
          ([] ++ '/' :: ("products".data ++ '/' :: (product.data ++ '/' :: ([] ++ '/' ::
          ("groups".data ++ '/' :: ("group-".data ++ name.data))))))) from rfl]
    rw [splitSlash_append _ _ (by simp), splitSlash_append _ _ (by decide),
      splitSlash_append _ _ (by simp), splitSlash_append _ _ (by decide),
      splitSlash_append _ _ hp1, splitSlash_append _ _ (by simp),
      splitSlash_append _ _ (by decide), splitSlash_single _ hg]]
  rw [cleanElements_skip, cleanElements_keep _ _ _ _ (by decide) (by decide) (by decide),
    cleanElements_skip, cleanElements_keep _ _ _ _ (by decide) (by decide) (by decide),
    cleanElements_keep _ _ _ _ hp2 hp3 hp4, cleanElements_skip,
    cleanElements_keep _ _ _ _ (by decide) (by decide) (by decide),
    cleanElements_keep _ _ _ _ hg0 hg1 hg2]
  simp only [cleanElements, List.reverse_cons, List.reverse_nil, List.nil_append,
    List.cons_append, joinSlash]
  simp only [List.append_assoc]
  rfl

theorem GroupDir_data (product : String)
    (hp : '/' ∉ product.data ∧ product.data ≠ [] ∧ product.data ≠ ['.'] ∧
      product.data ≠ ['.', '.']) :
    (GroupDir product).data =
      "/cache-manager/products/".data ++ product.data ++ "/groups".data := by
  obtain ⟨hp1, hp2, hp3, hp4⟩ := hp
  have hjoin : joinSlash ([DefaultBaseDir, DefaultProductDir, product,
      DefaultGroupDir].map (fun e => e.data)) =
      '/' :: ("cache-manager".data ++ '/' :: ([] ++ '/' :: ("products".data ++ '/' ::
        (product.data ++ '/' :: ([] ++ '/' :: "groups".data))))) := by
    simp only [List.map, joinSlash]
    rfl
  have hdrop : [DefaultBaseDir, DefaultProductDir, product, DefaultGroupDir].dropWhile
      (fun e => decide (e = "")) =
      [DefaultBaseDir, DefaultProductDir, product, DefaultGroupDir] := by
    rw [List.dropWhile_cons_of_neg]
    decide
  unfold GroupDir filepathJoin
  rw [hdrop]
  simp only []
  rw [hjoin]
  simp only [filepathClean, if_true]
  rw [show splitSlash ('/' :: ("cache-manager".data ++ '/' :: ([] ++ '/' ::
        ("products".data ++ '/' :: (product.data ++ '/' :: ([] ++ '/' :: "groups".data)))))) =
      [[], "cache-manager".data, [], "products".data, product.data, [], "groups".data] from by
    rw [show ('/' :: ("cache-manager".data ++ '/' :: ([] ++ '/' ::
        ("products".data ++ '/' :: (product.data ++ '/' :: ([] ++ '/' :: "groups".data)))))) =
        [] ++ '/' :: ("cache-manager".data ++ '/' ::
          ([] ++ '/' :: ("products".data ++ '/' :: (product.data ++ '/' :: ([] ++ '/' ::
          "groups".data))))) from rfl]
    rw [splitSlash_append _ _ (by simp), splitSlash_append _ _ (by decide),
      splitSlash_append _ _ (by simp), splitSlash_append _ _ (by decide),
      splitSlash_append _ _ hp1, splitSlash_append _ _ (by simp),
      splitSlash_single _ (by decide)]]
  rw [cleanElements_skip, cleanElements_keep _ _ _ _ (by decide) (by decide) (by decide),
    cleanElements_skip, cleanElements_keep _ _ _ _ (by decide) (by decide) (by decide),
    cleanElements_keep _ _ _ _ hp2 hp3 hp4, cleanElements_skip,
    cleanElements_keep _ _ _ _ (by decide) (by decide) (by decide)]
  simp only [cleanElements, List.reverse_cons, List.reverse_nil, List.nil_append,
    List.cons_append, joinSlash]

/-- C26, the claim as written fails: `CreateGroup` accepts the names "a/.." and
"b/..", and for both `GroupPath` is the path of `GroupDir` itself, not the
concatenation of the claim. -/
theorem GroupPath_collapses :
    (CreateGroup envAllOk "a/.." 11000 12000 (mkWorld [])).1 = none ∧
    (CreateGroup envAllOk "b/.." 11000 12000 (mkWorld [])).1 = none ∧
    GroupPath "p" "a/.." = "/cache-manager/products/p/groups" ∧
    GroupPath "p" "b/.." = "/cache-manager/products/p/groups" ∧
    GroupDir "p" = "/cache-manager/products/p/groups" ∧
    GroupPath "p" "a/.." ≠ "/cache-manager/products/" ++ "p" ++ "/groups/group-" ++ "a/.." := by
  decide

/-- C26 (amended): for every valid product name and every group name without
'/', `GroupPath(product, name)` is "/cache-manager/products/" ++ product ++
"/groups/group-" ++ name, which is `GroupDir(product)` followed by "/group-"
and the name, and two such names with the same path are equal. -/
theorem GroupPath_eq (product name : String) (hp : validateProduct product = true)
    (hn : '/' ∉ name.data) :
    GroupPath product name =
      "/cache-manager/products/" ++ product ++ "/groups/group-" ++ name ∧
    GroupPath product name = GroupDir product ++ "/group-" ++ name ∧
    ∀ name' : String, '/' ∉ name'.data → GroupPath product name = GroupPath product name' →
      name = name' := by
  have hpe := validateProduct_element product hp
  have h1 := GroupPath_data product name hpe hn
  refine ⟨?_, ?_, ?_⟩
  · apply String.ext
    rw [h1]
    simp only [String.data_append]
  · apply String.ext
    rw [h1]
    simp only [String.data_append, GroupDir_data product hpe, List.append_assoc]
    rfl
  · intro name' hn' heq
    have h2 := GroupPath_data product name' hpe hn'
    rw [heq, h2] at h1
    exact String.ext (List.append_cancel_left h1).symm

/-- C26 (amended) on the product "p" and the group "g1". -/
theorem GroupPath_eq_witness :
    validateProduct "p" = true ∧
    GroupPath "p" "g1" = "/cache-manager/products/" ++ "p" ++ "/groups/group-" ++ "g1" ∧
    GroupPath "p" "g1" = "/cache-manager/products/p/groups/group-g1" :=
  ⟨by decide, (GroupPath_eq "p" "g1" (by decide) (by decide)).1, by decide⟩

/-! ### C25 -/

/-- C25 at the failing input: the `MD5` field of every cached template file is
the bytes of the file followed by the digest of the empty input; for a
16-byte digest and a non-empty file it is longer than 16 bytes and is not the
digest of the file. A scan of a directory holding one file caches that record
and writes the bytes of the file to the store. -/
theorem TemplateFile_md5_appends (digest : Bytes → Bytes) (name : String) (data : Bytes) :
    (newTemplateFile digest data).md5 = data ++ digest [] ∧
    templateInit digest [(name, data)] = [(name, ⟨data, data ++ digest []⟩)] ∧
    templateDoMonitor digest (fun _ => true) (fun _ => true) [(name, data)] ⟨[], []⟩ =
      ⟨[(name, ⟨data, data ++ digest []⟩)], [(name, data)]⟩ ∧
    ((∀ b, (digest b).length = 16) → data ≠ [] →
      (newTemplateFile digest data).md5.length ≠ 16 ∧
      (newTemplateFile digest data).md5 ≠ digest data) := by
  refine ⟨rfl, ?_, ?_, ?_⟩
  · simp [templateInit, assocSet, newTemplateFile, md5Sum]
  · simp [templateDoMonitor, assocSet, assocGet, newTemplateFile, md5Sum, mirrorFile]
  · intro hlen hdata
    have h1 : (newTemplateFile digest data).md5.length ≠ 16 := by
      show (data ++ digest []).length ≠ 16
      rw [List.length_append, hlen]
      have : data.length ≠ 0 := fun h => hdata (List.length_eq_zero.mp h)
      omega
    refine ⟨h1, ?_⟩
    intro he
    rw [he, hlen] at h1
    exact h1 rfl

/-- C25 on the file x.conf with the two bytes "hi": the cached `MD5` field has
18 bytes. -/
theorem TemplateFile_md5_appends_witness :
    (∀ b, (sampleDigest b).length = 16) ∧
    (newTemplateFile sampleDigest [104, 105]).md5 = [104, 105] ++ sampleDigest [] ∧
    (newTemplateFile sampleDigest [104, 105]).md5.length = 18 ∧
    (newTemplateFile sampleDigest [104, 105]).md5 ≠ sampleDigest [104, 105] :=
  ⟨fun b => by simp [sampleDigest],
   (TemplateFile_md5_appends sampleDigest "x.conf" [104, 105]).1,
   by decide,
   ((TemplateFile_md5_appends sampleDigest "x.conf" [104, 105]).2.2.2
     (fun b => by simp [sampleDigest]) (by decide)).2⟩

/-! ### C22 -/

/-- C22 at the failing inputs: with the haproxy record [a:80] in the map and in
the store, `AddGSLB("haproxy", "b:80")` returns nil without any store call;
the map then holds the servers [a:80, b:80] and the store still [a:80]. On
that state `DelGSLB("haproxy", "a:80")` returns nil, again without a store
call, and leaves [b:80] in the map and [a:80] in the store. Without any
record, `AddGSLB("haproxy", "a:80")` returns nil and nothing is stored. -/
theorem AddGSLB_never_stores :
    (service.AddGSLB gslbEnvOk "haproxy" "b:80" gslbStored).1 = none ∧
    (assocGet (service.AddGSLB gslbEnvOk "haproxy" "b:80" gslbStored).2.gslbs "haproxy").map
      (fun g => g.servers) = some ["a:80", "b:80"] ∧
    (assocGet (service.AddGSLB gslbEnvOk "haproxy" "b:80" gslbStored).2.stored "haproxy").map
      (fun g => g.servers) = some ["a:80"] ∧
    (service.AddGSLB gslbEnvOk "haproxy" "b:80" gslbStored).2.calls = 0 ∧
    (service.DelGSLB gslbEnvOk "haproxy" "a:80"
      (service.AddGSLB gslbEnvOk "haproxy" "b:80" gslbStored).2).1 = none ∧
    (assocGet (service.DelGSLB gslbEnvOk "haproxy" "a:80"
      (service.AddGSLB gslbEnvOk "haproxy" "b:80" gslbStored).2).2.gslbs "haproxy").map
      (fun g => g.servers) = some ["b:80"] ∧
    (assocGet (service.DelGSLB gslbEnvOk "haproxy" "a:80"
      (service.AddGSLB gslbEnvOk "haproxy" "b:80" gslbStored).2).2.stored "haproxy").map
      (fun g => g.servers) = some ["a:80"] ∧
    (service.AddGSLB gslbEnvOk "haproxy" "a:80" gslbFresh).1 = none ∧
    (assocGet (service.AddGSLB gslbEnvOk "haproxy" "a:80" gslbFresh).2.gslbs "haproxy").map
      (fun g => g.servers) = some ["a:80"] ∧
    (service.AddGSLB gslbEnvOk "haproxy" "a:80" gslbFresh).2.stored = [] := by
  refine ⟨rfl, rfl, rfl, rfl, rfl, rfl, rfl, rfl, rfl, rfl⟩

/-! ### C30 -/

/-- C30 at the failing inputs: `AddGSLB("foo", "a:80")` returns the error of an
unsupported GSLB type and `AddGSLB("haproxy", "a:80")` without Redis stats
returns the error of empty stats; in both cases the map of the mapper, empty
before, holds the new record with the server a:80 afterwards. -/
theorem AddGSLB_error_keeps_record :
    gslbFresh.gslbs = [] ∧
    (service.AddGSLB gslbEnvOk "foo" "a:80" gslbFresh).1 = some GslbErr.unsupportedType ∧
    (service.AddGSLB gslbEnvOk "foo" "a:80" gslbFresh).2.gslbs =
      [("foo", ⟨"foo", ["a:80"], [], []⟩)] ∧
    gslbNoStats.gslbs = [] ∧
    (service.AddGSLB gslbEnvOk "haproxy" "a:80" gslbNoStats).1 = some GslbErr.statsEmpty ∧
    (service.AddGSLB gslbEnvOk "haproxy" "a:80" gslbNoStats).2.gslbs =
      [("haproxy", ⟨"haproxy", ["a:80"], [], []⟩)] ∧
    (service.refreshGSLBBackendInfo gslbEnvOk
      (service.AddGSLB gslbEnvOk "foo" "a:80" gslbFresh).2).1 =
      some GslbErr.unsupportedType := by
  refine ⟨rfl, rfl, rfl, rfl, rfl, rfl, rfl⟩

end Pikamgr
